import Mathlib

/-!
Verification development for the libinput tree at hand.

Part 1 embeds the halfkey keyboard remapper from src/src/evdev-halfkey.c
(the simpler of the two halfkey versions present in the tree; the spec's
design notes declare that version canonical).  Key codes are the Linux
uapi input-event-codes values that the C file pulls in through evdev.h.
Machine ints are modelled as Int; bit masks over key codes as Finset Int.

Part 2 embeds the tablet dispatcher (evdev-tablet.c, the second file of
src/unnamed/part_002): axis sanitizing, tilt-to-rotation conversion,
wheel-delta guessing, the proximity/button state machine and the flush
that turns raw evdev frames into emitted events.  Axis values are Rat
(doubles idealized as exact rationals); the one transcendental the code
uses, 180*atan2(-x,y)/pi, is kept as an explicit function parameter
atan2deg so that every theorem about the machine holds for each of its
interpretations.  A separate real-valued copy of the tilt conversion is
used for the numerical rotation claim.
-/

/-- Constant KEY_1 from linux input-event-codes.h, as included by the source. -/
def KEY_1 : Int := 2

/-- Constant KEY_0 from linux input-event-codes.h. -/
def KEY_0 : Int := 11

/-- Constant KEY_BACKSPACE from linux input-event-codes.h. -/
def KEY_BACKSPACE : Int := 14

/-- Constant KEY_TAB from linux input-event-codes.h. -/
def KEY_TAB : Int := 15

/-- Constant KEY_Q from linux input-event-codes.h. -/
def KEY_Q : Int := 16

/-- Constant KEY_P from linux input-event-codes.h. -/
def KEY_P : Int := 25

/-- Constant KEY_ENTER from linux input-event-codes.h. -/
def KEY_ENTER : Int := 28

/-- Constant KEY_A from linux input-event-codes.h. -/
def KEY_A : Int := 30

/-- Constant KEY_SEMICOLON from linux input-event-codes.h. -/
def KEY_SEMICOLON : Int := 39

/-- Constant KEY_Z from linux input-event-codes.h. -/
def KEY_Z : Int := 44

/-- Constant KEY_SLASH from linux input-event-codes.h. -/
def KEY_SLASH : Int := 53

/-- Constant KEY_SPACE from linux input-event-codes.h. -/
def KEY_SPACE : Int := 57

/-- Constant KEY_CAPSLOCK from linux input-event-codes.h. -/
def KEY_CAPSLOCK : Int := 58

/-- Constant KEY_G from linux input-event-codes.h (used in examples). -/
def KEY_G : Int := 34

/-- Constant KEY_H from linux input-event-codes.h (used in examples). -/
def KEY_H : Int := 35

/-- Constant KEY_V from linux input-event-codes.h (used by the repo test). -/
def KEY_V : Int := 47

/-- Constant KEY_M from linux input-event-codes.h (used by the repo test). -/
def KEY_M : Int := 50

/-- Enum evdev_halfkey_state from the halfkey dispatcher. -/
inductive HalfkeyState
  | spaceIdle
  | spacePressed
  | spaceModified
deriving DecidableEq

/-- Enum evdev_halfkey_event from the halfkey dispatcher. -/
inductive HalfkeyEvent
  | spaceDown
  | spaceUp
  | mirrorDown
  | mirrorUp
  | otherKey
deriving DecidableEq

/-- Enum evdev_halfkey_action from the halfkey dispatcher. -/
inductive HalfkeyAction
  | passthrough
  | discard
  | injectMirror
deriving DecidableEq

/-- Device halfkey sub-state of struct evdev_device: the state-machine state,
the keymask bitmap of virtually-down mirrored keys (long_set_bit_state and
long_bit_is_set over the bitmap become Finset membership), and the three
configuration booleans. -/
structure HalfkeyDev where
  state : HalfkeyState
  keymask : Finset Int
  enabled : Bool
  want_enabled : Bool
  enabled_default : Bool
deriving DecidableEq

/-- One call to evdev_keyboard_notify_key, i.e. one key event the halfkey
code injects into the output stream. -/
structure KeyNotify where
  time : Nat
  key : Int
  pressed : Bool
deriving DecidableEq

/-- Function halfkey_set_key_down, src/src/evdev-halfkey.c lines 81-85:
long_set_bit_state(keymask, code, pressed). -/
def halfkey_set_key_down (d : HalfkeyDev) (code : Int) (pressed : Bool) : HalfkeyDev :=
  if pressed then { d with keymask := insert code d.keymask }
  else { d with keymask := d.keymask.erase code }

/-- Function halfkey_is_key_down, src/src/evdev-halfkey.c lines 87-91. -/
def halfkey_is_key_down (d : HalfkeyDev) (code : Int) : Bool :=
  code ∈ d.keymask

/-- Row-base computation of halfkey_mirror_key, src/src/evdev-halfkey.c
lines 102-107: t is assigned by four successive un-elsed ifs; since the
four key ranges are pairwise disjoint that equals this if-chain. -/
def halfkey_row_base (keycode : Int) : Int :=
  if KEY_1 ≤ keycode ∧ keycode ≤ KEY_0 then KEY_1
  else if KEY_Q ≤ keycode ∧ keycode ≤ KEY_P then KEY_Q
  else if KEY_A ≤ keycode ∧ keycode ≤ KEY_SEMICOLON then KEY_A
  else if KEY_Z ≤ keycode ∧ keycode ≤ KEY_SLASH then KEY_Z
  else 0

/-- Reflection step of halfkey_mirror_key, lines 109-117, verbatim temp
arithmetic. -/
def halfkey_reflect (t keycode : Int) : Int :=
  let temp1 := keycode - (t + 4)
  let temp2 := if temp1 < 1 then temp1 - 1 else temp1
  let temp3 := -temp2
  let temp4 := if temp3 < 1 then temp3 + 1 else temp3
  temp4 + (t + 4)

/-- Special-case swap of halfkey_mirror_key, lines 120-135. -/
def halfkey_swap (keycode : Int) : Int :=
  if keycode = KEY_BACKSPACE then KEY_TAB
  else if keycode = KEY_TAB then KEY_BACKSPACE
  else if keycode = KEY_ENTER then KEY_CAPSLOCK
  else if keycode = KEY_CAPSLOCK then KEY_ENTER
  else keycode

/-- Function halfkey_mirror_key, src/src/evdev-halfkey.c lines 94-138,
composed from the three steps above. -/
def halfkey_mirror_key (keycode : Int) : Int :=
  halfkey_swap
    (if halfkey_row_base keycode ≠ 0
     then halfkey_reflect (halfkey_row_base keycode) keycode
     else keycode)

/-- Function evdev_halfkey_idle_handle_event, lines 161-195.  The handler
returns the updated device, the chosen action, and the list of key events
it injected via evdev_keyboard_notify_key (none in this state; the
SPACE_UP case only logs a bug message and passes the event through). -/
def evdev_halfkey_idle_handle_event (d : HalfkeyDev) (_time : Nat)
    (event : HalfkeyEvent) : HalfkeyDev × HalfkeyAction × List KeyNotify :=
  match event with
  | .spaceDown => ({ d with state := .spacePressed }, .discard, [])
  | .spaceUp => (d, .passthrough, [])
  | .mirrorDown => (d, .passthrough, [])
  | .mirrorUp => (d, .passthrough, [])
  | .otherKey => (d, .passthrough, [])

/-- Function evdev_halfkey_spacepressed_handle_event, lines 197-241.  On
SPACE_UP the discarded space press is re-injected retroactively before the
release is passed through. -/
def evdev_halfkey_spacepressed_handle_event (d : HalfkeyDev) (time : Nat)
    (event : HalfkeyEvent) : HalfkeyDev × HalfkeyAction × List KeyNotify :=
  match event with
  | .spaceDown => (d, .discard, [])
  | .spaceUp => ({ d with state := .spaceIdle }, .passthrough, [⟨time, KEY_SPACE, true⟩])
  | .mirrorDown => ({ d with state := .spaceModified }, .injectMirror, [])
  | .mirrorUp => (d, .passthrough, [])
  | .otherKey => (d, .passthrough, [])

/-- Function evdev_halfkey_modified_handle_event, lines 243-273. -/
def evdev_halfkey_modified_handle_event (d : HalfkeyDev) (_time : Nat)
    (event : HalfkeyEvent) : HalfkeyDev × HalfkeyAction × List KeyNotify :=
  match event with
  | .spaceDown => (d, .discard, [])
  | .spaceUp => ({ d with state := .spaceIdle }, .discard, [])
  | .mirrorDown => (d, .injectMirror, [])
  | .mirrorUp => (d, .injectMirror, [])
  | .otherKey => (d, .passthrough, [])

/-- Function evdev_halfkey_handle_event, lines 275-298: dispatch on the
current state. -/
def evdev_halfkey_handle_event (d : HalfkeyDev) (time : Nat)
    (event : HalfkeyEvent) : HalfkeyDev × HalfkeyAction × List KeyNotify :=
  match d.state with
  | .spaceIdle => evdev_halfkey_idle_handle_event d time event
  | .spacePressed => evdev_halfkey_spacepressed_handle_event d time event
  | .spaceModified => evdev_halfkey_modified_handle_event d time event

/-- Constant LIBINPUT_KEY_STATE_PRESSED.  The enum itself is declared in a
header that is not part of src/; released = 0, pressed = 1 as in the
libinput key-state enums visible in src (libinput.h). -/
def LIBINPUT_KEY_STATE_PRESSED : Int := 1

/-- Function evdev_halfkey_filter_key, src/src/evdev-halfkey.c lines
301-349.  Returns the updated device, the action, and the injected key
events (the mirrored key on INJECTMIRROR, plus whatever the handler
injected). -/
def evdev_halfkey_filter_key (d : HalfkeyDev) (time : Nat) (keycode : Int)
    (state : Int) : HalfkeyDev × HalfkeyAction × List KeyNotify :=
  let is_press : Bool := state = LIBINPUT_KEY_STATE_PRESSED
  if !d.enabled then (d, .passthrough, [])
  else
    let mirrored_key := halfkey_mirror_key keycode
    let mirrored : Bool := keycode ≠ mirrored_key
    let event : HalfkeyEvent :=
      if keycode = KEY_SPACE then
        if is_press then .spaceDown else .spaceUp
      else if mirrored then
        if is_press then .mirrorDown else .mirrorUp
      else .otherKey
    let r := evdev_halfkey_handle_event d time event
    if r.2.1 = .injectMirror then
      (halfkey_set_key_down r.1 mirrored_key is_press, r.2.1,
        r.2.2 ++ [⟨time, mirrored_key, is_press⟩])
    else (r.1, r.2.1, r.2.2)

/-- Observable output of one filtered key event, as handled by the evdev
caller (modelled; the caller lives outside src/): the injected events,
followed by the original event when the action is PASSTHROUGH; DISCARD and
INJECTMIRROR consume the original event. -/
def halfkey_filter_observable (d : HalfkeyDev) (time : Nat) (keycode : Int)
    (state : Int) : HalfkeyDev × List KeyNotify :=
  let r := evdev_halfkey_filter_key d time keycode state
  (r.1, r.2.2 ++ (if r.2.1 = .passthrough
                  then [⟨time, keycode, state = LIBINPUT_KEY_STATE_PRESSED⟩]
                  else []))

/-- Fold halfkey_filter_observable over a whole key sequence, collecting
the observable output stream. -/
def halfkey_filter_sequence (d : HalfkeyDev) :
    List (Nat × Int × Int) → HalfkeyDev × List KeyNotify
  | [] => (d, [])
  | (t, k, st) :: rest =>
    let r := halfkey_filter_observable d t k st
    let rr := halfkey_filter_sequence r.1 rest
    (rr.1, r.2 ++ rr.2)

/-- Constant LIBINPUT_CONFIG_STATUS_SUCCESS from libinput.h (in src). -/
def LIBINPUT_CONFIG_STATUS_SUCCESS : Int := 0

/-- Constant LIBINPUT_CONFIG_STATUS_INVALID from libinput.h (in src). -/
def LIBINPUT_CONFIG_STATUS_INVALID : Int := 2

/-- Constant LIBINPUT_CONFIG_HALFKEY_DISABLED.  Modelled from the spec:
the enum declaration is in a header missing from src/; the spec gives the
option the two values enabled/disabled, and the repo test passes 3 as an
invalid value, so disabled = 0, enabled = 1. -/
def LIBINPUT_CONFIG_HALFKEY_DISABLED : Int := 0

/-- Constant LIBINPUT_CONFIG_HALFKEY_ENABLED, see
LIBINPUT_CONFIG_HALFKEY_DISABLED. -/
def LIBINPUT_CONFIG_HALFKEY_ENABLED : Int := 1

/-- Function evdev_halfkey_apply_config, src/src/evdev-halfkey.c lines
351-366: nothing to do when want_enabled already equals enabled; otherwise
the change is applied only when every word of the keymask is zero, i.e.
when the keymask is empty. -/
def evdev_halfkey_apply_config (d : HalfkeyDev) : HalfkeyDev :=
  if d.want_enabled = d.enabled then d
  else if d.keymask = ∅ then { d with enabled := d.want_enabled }
  else d

/-- Function evdev_halfkey_set, src/src/evdev-halfkey.c lines 374-394.
The C enum argument can hold any int, hence the Int argument here. -/
def evdev_halfkey_set (d : HalfkeyDev) (enable : Int) : HalfkeyDev × Int :=
  if enable = LIBINPUT_CONFIG_HALFKEY_ENABLED then
    (evdev_halfkey_apply_config { d with want_enabled := true },
      LIBINPUT_CONFIG_STATUS_SUCCESS)
  else if enable = LIBINPUT_CONFIG_HALFKEY_DISABLED then
    (evdev_halfkey_apply_config { d with want_enabled := false },
      LIBINPUT_CONFIG_STATUS_SUCCESS)
  else (d, LIBINPUT_CONFIG_STATUS_INVALID)

/-- Constant BTN_LEFT from linux input-event-codes.h. -/
def BTN_LEFT : Nat := 272

/-- Constant BTN_RIGHT from linux input-event-codes.h. -/
def BTN_RIGHT : Nat := 273

/-- Constant BTN_MIDDLE from linux input-event-codes.h. -/
def BTN_MIDDLE : Nat := 274

/-- Constant BTN_SIDE from linux input-event-codes.h. -/
def BTN_SIDE : Nat := 275

/-- Constant BTN_EXTRA from linux input-event-codes.h. -/
def BTN_EXTRA : Nat := 276

/-- Constant BTN_FORWARD from linux input-event-codes.h. -/
def BTN_FORWARD : Nat := 277

/-- Constant BTN_BACK from linux input-event-codes.h. -/
def BTN_BACK : Nat := 278

/-- Constant BTN_TASK from linux input-event-codes.h. -/
def BTN_TASK : Nat := 279

/-- Constant BTN_TOOL_PEN from linux input-event-codes.h. -/
def BTN_TOOL_PEN : Nat := 320

/-- Constant BTN_TOOL_RUBBER from linux input-event-codes.h. -/
def BTN_TOOL_RUBBER : Nat := 321

/-- Constant BTN_TOOL_BRUSH from linux input-event-codes.h. -/
def BTN_TOOL_BRUSH : Nat := 322

/-- Constant BTN_TOOL_PENCIL from linux input-event-codes.h. -/
def BTN_TOOL_PENCIL : Nat := 323

/-- Constant BTN_TOOL_AIRBRUSH from linux input-event-codes.h. -/
def BTN_TOOL_AIRBRUSH : Nat := 324

/-- Constant BTN_TOOL_FINGER from linux input-event-codes.h. -/
def BTN_TOOL_FINGER : Nat := 325

/-- Constant BTN_TOOL_MOUSE from linux input-event-codes.h. -/
def BTN_TOOL_MOUSE : Nat := 326

/-- Constant BTN_TOOL_LENS from linux input-event-codes.h. -/
def BTN_TOOL_LENS : Nat := 327

/-- Constant BTN_TOUCH from linux input-event-codes.h. -/
def BTN_TOUCH : Nat := 330

/-- Constant BTN_STYLUS from linux input-event-codes.h. -/
def BTN_STYLUS : Nat := 331

/-- Constant BTN_STYLUS2 from linux input-event-codes.h. -/
def BTN_STYLUS2 : Nat := 332

/-- Enum libinput_tablet_axis.  The enum declaration is in a header not
under src/; the member set and the facts the tablet code relies on are
fixed by the spec (axes x, y, pressure, distance, tilt-x, tilt-y, slider,
rotation-z, rel-wheel) and by the source comment in
tablet_check_notify_axes that ROTATION_Z is higher than TILT_X and
TILT_Y. -/
inductive TabletAxis
  | X
  | Y
  | PRESSURE
  | DISTANCE
  | TILT_X
  | TILT_Y
  | SLIDER
  | ROTATION_Z
  | REL_WHEEL
deriving DecidableEq

/-- Iteration order LIBINPUT_TABLET_AXIS_X .. LIBINPUT_TABLET_AXIS_MAX of
the per-frame loops. -/
def tabletAxisList : List TabletAxis :=
  [.X, .Y, .PRESSURE, .DISTANCE, .TILT_X, .TILT_Y, .SLIDER, .ROTATION_Z,
   .REL_WHEEL]

/-- Enum libinput_tool_type, including LIBINPUT_TOOL_NONE that tablet_init
stores before any tool was seen. -/
inductive ToolType
  | NONE
  | PEN
  | ERASER
  | BRUSH
  | PENCIL
  | AIRBRUSH
  | FINGER
  | MOUSE
  | LENS
deriving DecidableEq

/-- Struct input_absinfo: the current value plus the fixed minimum and
maximum of one absolute axis as libevdev reports them. -/
structure Absinfo where
  value : Int
  minimum : Int
  maximum : Int
deriving DecidableEq

/-- Status bitfield of struct tablet_dispatch, one boolean per
TABLET_... flag used by the dispatcher. -/
structure TabletStatus where
  out_of_proximity : Bool
  entering_proximity : Bool
  leaving_proximity : Bool
  stylus_in_contact : Bool
  axes_updated : Bool
  buttons_pressed : Bool
  buttons_released : Bool
deriving DecidableEq

/-- Static per-device data the tablet dispatcher consults: which ABS axis
codes and which REL_WHEEL code the evdev device advertises, the absinfo
ranges, and the wheel click angle used by normalize_wheel. -/
structure TabletDevice where
  hasAbsAxis : TabletAxis → Bool
  hasRelWheel : Bool
  absMinimum : TabletAxis → Int
  absMaximum : TabletAxis → Int
  wheel_click_angle : ℚ

/-- Dynamic state: struct tablet_dispatch together with the parts of the
evdev device the dispatcher reads and writes (the libevdev current ABS
values, and the left-handed configuration pair). -/
structure TabletState where
  status : TabletStatus
  changed_axes : Finset TabletAxis
  axes : TabletAxis → ℚ
  deltas : TabletAxis → ℚ
  button_state : Finset Nat
  prev_button_state : Finset Nat
  current_tool_type : ToolType
  current_tool_id : Int
  current_tool_serial : Int
  absValue : TabletAxis → Int
  lh_enabled : Bool
  lh_want_enabled : Bool

/-- The absinfo record libevdev_get_abs_info returns for one axis. -/
def absInfo (dev : TabletDevice) (s : TabletState) (a : TabletAxis) : Absinfo :=
  ⟨s.absValue a, dev.absMinimum a, dev.absMaximum a⟩

/-- Function tablet_device_has_axis, evdev-tablet.c lines 594-621:
ROTATION_Z is advertised through both tilt codes, REL_WHEEL through the
relative wheel code, everything else through its own ABS code. -/
def tablet_device_has_axis (dev : TabletDevice) (axis : TabletAxis) : Bool :=
  match axis with
  | .ROTATION_Z => dev.hasAbsAxis .TILT_X && dev.hasAbsAxis .TILT_Y
  | .REL_WHEEL => dev.hasRelWheel
  | a => dev.hasAbsAxis a

/-- Function normalize_pressure_dist_slider, lines 721-728. -/
def normalize_pressure_dist_slider (ab : Absinfo) : ℚ :=
  ((ab.value : ℚ) - (ab.minimum : ℚ)) / ((ab.maximum : ℚ) - (ab.minimum : ℚ))

/-- Function normalize_tilt, lines 730-738: map onto (-1, 1). -/
def normalize_tilt (ab : Absinfo) : ℚ :=
  (((ab.value : ℚ) - (ab.minimum : ℚ)) / ((ab.maximum : ℚ) - (ab.minimum : ℚ))) * 2 - 1

/-- Function invert_axis, lines 740-744. -/
def invert_axis (ab : Absinfo) : Int :=
  ab.maximum - (ab.value - ab.minimum)

/-- C fmod on rationals: a - b * trunc(a / b), truncation toward zero. -/
def fmodQ (a b : ℚ) : ℚ :=
  a - b * (if 0 ≤ a / b then (⌊a / b⌋ : ℚ) else (⌈a / b⌉ : ℚ))

/-- Function convert_to_degrees, lines 772-780. -/
def convert_to_degrees (ab : Absinfo) (off : ℚ) : ℚ :=
  fmodQ ((((ab.value : ℚ) - (ab.minimum : ℚ))
      / ((ab.maximum : ℚ) - (ab.minimum : ℚ) + 1)) * 360 + off) 360

/-- Function normalize_wheel, lines 782-789. -/
def normalize_wheel (dev : TabletDevice) (value : ℚ) : ℚ :=
  value * dev.wheel_click_angle

/-- Function guess_wheel_delta, lines 791-807: of the three candidate
deltas d1, d2 = d1 + 360 and d3 = d1 - 360, return the one of least
magnitude (preferring d1, then d2). -/
def guess_wheel_delta (current old : ℚ) : ℚ :=
  let d1 := current - old
  let d2 := (current + 360) - old
  let d3 := current - (old + 360)
  let e1 := if |d2| < |d1| then d2 else d1
  if |d3| < |e1| then d3 else e1

/-- Function get_delta, lines 809-831.  The REL_WHEEL case is the C
default branch, which aborts; neither call site (the per-axis loop filters
REL_WHEEL out before calling) can reach it, so it is mapped to 0 here. -/
def get_delta (axis : TabletAxis) (current old : ℚ) : ℚ :=
  match axis with
  | .X | .Y | .DISTANCE | .PRESSURE | .SLIDER | .TILT_X | .TILT_Y =>
      current - old
  | .ROTATION_Z => guess_wheel_delta current old
  | .REL_WHEEL => 0

/-- Function convert_tilt_to_rotation, lines 746-770, over the rational
axis model.  The parameter atan2deg stands for the map
(a, b) to 180*atan2(a, b)/pi computed by libm; every theorem about the
machine is proved for all of its interpretations.  The offset is 5
degrees; a zero tilt pair keeps angle 0. -/
def convert_tilt_to_rotation (atan2deg : ℚ → ℚ → ℚ) (s : TabletState) :
    TabletState :=
  let x := s.axes .TILT_X
  let y := s.axes .TILT_Y
  let angle : ℚ := if x ≠ 0 ∨ y ≠ 0 then atan2deg (-x) y else 0
  let angle := fmodQ (360 + angle - 5) 360
  { s with
    changed_axes :=
      insert .ROTATION_Z ((s.changed_axes.erase .TILT_X).erase .TILT_Y),
    axes := Function.update s.axes .ROTATION_Z angle }

/-- Function sanitize_tablet_axes, lines 1351-1383: distance and pressure
disambiguation on the raw packet, then the mouse/lens tilt change marks
the synthetic rotation axis. -/
def sanitize_tablet_axes (dev : TabletDevice) (s : TabletState) : TabletState :=
  let distance := absInfo dev s .DISTANCE
  let pressure := absInfo dev s .PRESSURE
  let s1 :=
    if .DISTANCE ∈ s.changed_axes ∧ distance.value > distance.minimum ∧
        pressure.value > pressure.minimum then
      { s with changed_axes := s.changed_axes.erase .DISTANCE,
               axes := Function.update s.axes .DISTANCE 0 }
    else if .PRESSURE ∈ s.changed_axes ∧ ¬ s.status.stylus_in_contact then
      if s.axes .PRESSURE = 0 then
        { s with changed_axes := s.changed_axes.erase .PRESSURE }
      else
        { s with axes := Function.update s.axes .PRESSURE 0 }
    else s
  if (s1.current_tool_type = .MOUSE ∨ s1.current_tool_type = .LENS) ∧
      (.TILT_X ∈ s1.changed_axes ∨ .TILT_Y ∈ s1.changed_axes) then
    { s1 with changed_axes := insert .ROTATION_Z s1.changed_axes }
  else s1

/-- Tool handle tablet_get_tool returns and the notify calls carry.
Within one tablet the looked-up tool object is uniquely determined by the
pair of tool type and serial (tools with serial are matched on type and
serial in the context-global list, tools without serial on type in the
tablet-local list), so the handle is modelled by that key; tool_id is
stamped only at first creation and plays no part in identity. -/
structure ToolRef where
  tool_type : ToolType
  serial : Int
deriving DecidableEq

/-- Events the tablet dispatcher emits during one flush:
tablet_notify_proximity (in and out), tablet_notify_axis, and one
tablet_notify_button per changed button bit.  Timestamps are not
modelled. -/
inductive TabletEvent
  | proximityIn (tool : ToolRef) (changed : Finset TabletAxis)
      (axes : TabletAxis → ℚ)
  | proximityOut (tool : ToolRef) (changed : Finset TabletAxis)
      (axes : TabletAxis → ℚ)
  | axisUpdate (tool : ToolRef) (changed : Finset TabletAxis)
      (axes deltas deltasDiscrete : TabletAxis → ℚ)
  | button (tool : ToolRef) (code : Nat) (pressed : Bool)

/-- Accumulator of the per-axis loop in tablet_check_notify_axes: the
dispatch state threaded through, the three output arrays, and the
axis_update_needed flag. -/
structure NotifyAcc where
  st : TabletState
  axesOut : TabletAxis → ℚ
  deltasOut : TabletAxis → ℚ
  deltasDiscrete : TabletAxis → ℚ
  needed : Bool

/-- One iteration of the loop of tablet_check_notify_axes, lines 847-909,
for axis a. -/
def check_notify_step (atan2deg : ℚ → ℚ → ℚ) (dev : TabletDevice)
    (acc : NotifyAcc) (a : TabletAxis) : NotifyAcc :=
  let s := acc.st
  if a ∉ s.changed_axes then
    { acc with axesOut := Function.update acc.axesOut a (s.axes a) }
  else
    let oldval := s.axes a
    if a = .ROTATION_Z ∧
        (s.current_tool_type = .MOUSE ∨ s.current_tool_type = .LENS) then
      let s1 := convert_tilt_to_rotation atan2deg s
      { st := s1,
        axesOut := Function.update (Function.update
          (Function.update acc.axesOut .TILT_X 0) .TILT_Y 0) a (s1.axes a),
        deltasOut := Function.update acc.deltasOut a
          (get_delta a (s1.axes a) oldval),
        deltasDiscrete := acc.deltasDiscrete,
        needed := true }
    else if a = .REL_WHEEL then
      { acc with
        deltasDiscrete := Function.update acc.deltasDiscrete a (s.deltas a),
        deltasOut := Function.update acc.deltasOut a
          (normalize_wheel dev (s.deltas a)),
        axesOut := Function.update acc.axesOut a 0,
        needed := true }
    else
      let ab := absInfo dev s a
      let newval : ℚ :=
        match a with
        | .X | .Y =>
            if s.lh_enabled then ((invert_axis ab : Int) : ℚ) else (ab.value : ℚ)
        | .DISTANCE | .PRESSURE | .SLIDER => normalize_pressure_dist_slider ab
        | .TILT_X | .TILT_Y => normalize_tilt ab
        | .ROTATION_Z => convert_to_degrees ab 90
        | .REL_WHEEL => 0
      { st := { s with axes := Function.update s.axes a newval },
        axesOut := Function.update acc.axesOut a newval,
        deltasOut := Function.update acc.deltasOut a (get_delta a newval oldval),
        deltasDiscrete := acc.deltasDiscrete,
        needed := true }

/-- Function tablet_check_notify_axes, lines 833-937: run the loop over
every axis, then emit a proximity-in event (when entering) or an axis
event, provided an update is needed and the tool is neither out of nor
leaving proximity; finally clear the changed-axes mask. -/
def tablet_check_notify_axes (atan2deg : ℚ → ℚ → ℚ) (dev : TabletDevice)
    (s : TabletState) (tool : ToolRef) : TabletState × List TabletEvent :=
  let acc0 : NotifyAcc := ⟨s, fun _ => 0, fun _ => 0, fun _ => 0, false⟩
  let acc := tabletAxisList.foldl (check_notify_step atan2deg dev) acc0
  let s1 := acc.st
  let evs : List TabletEvent :=
    if acc.needed ∧ ¬ s1.status.out_of_proximity ∧
        ¬ s1.status.leaving_proximity then
      if s1.status.entering_proximity then
        [.proximityIn tool s1.changed_axes acc.axesOut]
      else
        [.axisUpdate tool s1.changed_axes acc.axesOut acc.deltasOut
          acc.deltasDiscrete]
    else []
  ({ s1 with changed_axes := ∅ }, evs)

/-- Function tablet_update_button, lines 939-971: only the listed button
codes are tracked; enable sets the bit and BUTTONS_PRESSED, disable clears
the bit and sets BUTTONS_RELEASED. -/
def tablet_update_button (s : TabletState) (evcode : Nat) (enable : Int) :
    TabletState :=
  if evcode = BTN_LEFT ∨ evcode = BTN_RIGHT ∨ evcode = BTN_MIDDLE ∨
      evcode = BTN_SIDE ∨ evcode = BTN_EXTRA ∨ evcode = BTN_FORWARD ∨
      evcode = BTN_BACK ∨ evcode = BTN_TASK ∨ evcode = BTN_TOUCH ∨
      evcode = BTN_STYLUS ∨ evcode = BTN_STYLUS2 then
    if enable ≠ 0 then
      { s with button_state := insert evcode s.button_state,
               status := { s.status with buttons_pressed := true } }
    else
      { s with button_state := s.button_state.erase evcode,
               status := { s.status with buttons_released := true } }
  else s

/-- Function tablet_mark_all_axes_changed, lines 674-686: set the changed
bit of every axis the device has and flag AXES_UPDATED. -/
def tablet_mark_all_axes_changed (dev : TabletDevice) (s : TabletState) :
    TabletState :=
  { s with
    changed_axes := s.changed_axes ∪
      (tabletAxisList.filter (fun a => tablet_device_has_axis dev a)).toFinset,
    status := { s.status with axes_updated := true } }

/-- Function tablet_update_tool, lines 703-719. -/
def tablet_update_tool (dev : TabletDevice) (s : TabletState)
    (tool : ToolType) (enabled : Bool) : TabletState :=
  if enabled then
    let s1 := tablet_mark_all_axes_changed dev
      { s with current_tool_type := tool }
    { s1 with status := { s1.status with
                          entering_proximity := true,
                          out_of_proximity := false } }
  else if ¬ s.status.out_of_proximity then
    { s with status := { s.status with leaving_proximity := true } }
  else s

/-- Function tablet_evcode_to_tool, lines 973-992 (only ever called on the
eight BTN_TOOL codes; the C default aborts and is unreachable, mapped to
NONE). -/
def tablet_evcode_to_tool (code : Nat) : ToolType :=
  if code = BTN_TOOL_PEN then .PEN
  else if code = BTN_TOOL_RUBBER then .ERASER
  else if code = BTN_TOOL_BRUSH then .BRUSH
  else if code = BTN_TOOL_PENCIL then .PENCIL
  else if code = BTN_TOOL_AIRBRUSH then .AIRBRUSH
  else if code = BTN_TOOL_FINGER then .FINGER
  else if code = BTN_TOOL_MOUSE then .MOUSE
  else if code = BTN_TOOL_LENS then .LENS
  else .NONE

/-- Test for the eight BTN_TOOL codes of the switch in tablet_process_key. -/
def isToolCode (code : Nat) : Bool :=
  code = BTN_TOOL_PEN ∨ code = BTN_TOOL_RUBBER ∨ code = BTN_TOOL_BRUSH ∨
  code = BTN_TOOL_PENCIL ∨ code = BTN_TOOL_AIRBRUSH ∨
  code = BTN_TOOL_FINGER ∨ code = BTN_TOOL_MOUSE ∨ code = BTN_TOOL_LENS

/-- Function tablet_process_key, lines 994-1035: tool codes update the
tool, BTN_TOUCH updates the contact status and falls through to the
button update, everything else goes to the button update (which ignores
unknown codes). -/
def tablet_process_key (dev : TabletDevice) (s : TabletState) (code : Nat)
    (value : Int) : TabletState :=
  if isToolCode code then
    tablet_update_tool dev s (tablet_evcode_to_tool code) (value ≠ 0)
  else if code = BTN_TOUCH then
    tablet_update_button
      { s with status := { s.status with stylus_in_contact := value ≠ 0 } }
      code value
  else tablet_update_button s code value

/-- Evdev input events routed to tablet_process within one frame
(SYN_REPORT is the frame boundary and is implicit).  ABS events carry the
axis their code maps to (the code-to-axis table lives in a header not
under src/; the spec fixes which axes exist); ABS_MISC and MSC_SERIAL are
separate; rel is EV_REL REL_WHEEL. -/
inductive TabletRawEvent
  | abs (axis : TabletAxis) (value : Int)
  | absMisc (value : Int)
  | rel (value : Int)
  | key (code : Nat) (value : Int)
  | mscSerial (value : Int)
deriving DecidableEq

/-- Function tablet_process_absolute, lines 623-672, for the handled axis
codes (libevdev has already stored the new raw value, modelled by
absValue): set the changed bit and AXES_UPDATED.  No ABS code maps to
REL_WHEEL, so that axis cannot arrive here. -/
def tablet_process_absolute (s : TabletState) (axis : TabletAxis)
    (value : Int) : TabletState :=
  if axis = .REL_WHEEL then s
  else
    { s with absValue := Function.update s.absValue axis value,
             changed_axes := insert axis s.changed_axes,
             status := { s.status with axes_updated := true } }

/-- Function tablet_process_relative, lines 1037-1065, REL_WHEEL case. -/
def tablet_process_relative (s : TabletState) (value : Int) : TabletState :=
  { s with changed_axes := insert .REL_WHEEL s.changed_axes,
           deltas := Function.update s.deltas .REL_WHEEL
             ((((-1 : Int) * value : Int) : ℚ)),
           status := { s.status with axes_updated := true } }

/-- Function tablet_process_misc, lines 1067-1086, MSC_SERIAL case. -/
def tablet_process_misc (s : TabletState) (value : Int) : TabletState :=
  if value ≠ -1 then { s with current_tool_serial := value } else s

/-- One step of tablet_process, lines 1457-1490, for the non-SYN events. -/
def tablet_process_event (dev : TabletDevice) (s : TabletState)
    (e : TabletRawEvent) : TabletState :=
  match e with
  | .abs axis value => tablet_process_absolute s axis value
  | .absMisc value => { s with current_tool_id := value }
  | .rel value => tablet_process_relative s value
  | .key code value => tablet_process_key dev s code value
  | .mscSerial value => tablet_process_misc s value

/-- Function tablet_change_to_left_handed, lines 688-701: a pending
left-handed change applies only when the tool is out of proximity. -/
def tablet_change_to_left_handed (s : TabletState) : TabletState :=
  if s.lh_enabled = s.lh_want_enabled then s
  else if ¬ s.status.out_of_proximity then s
  else { s with lh_enabled := s.lh_want_enabled }

/-- Released stylus buttons, tablet_get_released_buttons lines 578-592:
bits in prev_button_state and not in button_state, visited in ascending
bit order by tablet_notify_button_mask. -/
def tablet_released_list (s : TabletState) : List Nat :=
  (s.prev_button_state \ s.button_state).sort (· ≤ ·)

/-- Pressed stylus buttons, tablet_get_pressed_buttons lines 562-576, in
ascending bit order. -/
def tablet_pressed_list (s : TabletState) : List Nat :=
  (s.button_state \ s.prev_button_state).sort (· ≤ ·)

/-- First block of tablet_flush, lines 1399-1412: on leaving proximity
release all stylus buttons; otherwise, when axes were updated or a tool is
entering, sanitize and run the axis notification, then clear
ENTERING_PROXIMITY and AXES_UPDATED. -/
def tablet_flush_axes (atan2deg : ℚ → ℚ → ℚ) (dev : TabletDevice)
    (s : TabletState) (tool : ToolRef) : TabletState × List TabletEvent :=
  if s.status.leaving_proximity then
    ({ s with button_state := ∅,
              status := { s.status with buttons_released := true } }, [])
  else if s.status.axes_updated ∨ s.status.entering_proximity then
    let s' := sanitize_tablet_axes dev s
    let r := tablet_check_notify_axes atan2deg dev s' tool
    ({ r.1 with status := { r.1.status with
                            entering_proximity := false,
                            axes_updated := false } }, r.2)
  else (s, [])

/-- Released-buttons block of tablet_flush, lines 1414-1421. -/
def tablet_flush_released (s : TabletState) (tool : ToolRef) :
    TabletState × List TabletEvent :=
  if s.status.buttons_released then
    ({ s with status := { s.status with buttons_released := false } },
     (tablet_released_list s).map (fun c => TabletEvent.button tool c false))
  else (s, [])

/-- Pressed-buttons block of tablet_flush, lines 1423-1430. -/
def tablet_flush_pressed (s : TabletState) (tool : ToolRef) :
    TabletState × List TabletEvent :=
  if s.status.buttons_pressed then
    ({ s with status := { s.status with buttons_pressed := false } },
     (tablet_pressed_list s).map (fun c => TabletEvent.button tool c true))
  else (s, [])

/-- Leaving block of tablet_flush, lines 1432-1445: clear the changed
mask, emit proximity-out, move to OUT_OF_PROXIMITY and attempt the
deferred left-handed switch. -/
def tablet_flush_leave (s : TabletState) (tool : ToolRef) :
    TabletState × List TabletEvent :=
  if s.status.leaving_proximity then
    let sa := { s with changed_axes := (∅ : Finset TabletAxis) }
    let sb := { sa with status := { sa.status with
                                    out_of_proximity := true,
                                    leaving_proximity := false } }
    (tablet_change_to_left_handed sb,
     [TabletEvent.proximityOut tool ∅ sa.axes])
  else (s, [])

/-- Body of tablet_flush once past the early return: the four blocks in
source order, their events concatenated. -/
def tablet_flush_body (atan2deg : ℚ → ℚ → ℚ) (dev : TabletDevice)
    (s : TabletState) (tool : ToolRef) : TabletState × List TabletEvent :=
  let r1 := tablet_flush_axes atan2deg dev s tool
  let r2 := tablet_flush_released r1.1 tool
  let r3 := tablet_flush_pressed r2.1 tool
  let r4 := tablet_flush_leave r3.1 tool
  (r4.1, r1.2 ++ r2.2 ++ r3.2 ++ r4.2)

/-- Function tablet_flush, lines 1385-1446: look the tool up, return
early while out of proximity, otherwise run the four blocks. -/
def tablet_flush (atan2deg : ℚ → ℚ → ℚ) (dev : TabletDevice)
    (s : TabletState) : TabletState × List TabletEvent :=
  let tool : ToolRef := ⟨s.current_tool_type, s.current_tool_serial⟩
  if s.status.out_of_proximity then (s, [])
  else tablet_flush_body atan2deg dev s tool

/-- Function tablet_reset_state, lines 1448-1455. -/
def tablet_reset_state (s : TabletState) : TabletState :=
  { s with prev_button_state := s.button_state }

/-- One full frame: process each event, then on SYN_REPORT flush and
reset, collecting the emitted events (tablet_process, EV_SYN case). -/
def tablet_process_frame (atan2deg : ℚ → ℚ → ℚ) (dev : TabletDevice)
    (s : TabletState) (f : List TabletRawEvent) :
    TabletState × List TabletEvent :=
  let s1 := f.foldl (tablet_process_event dev) s
  let r := tablet_flush atan2deg dev s1
  (tablet_reset_state r.1, r.2)

/-- Process a sequence of frames, concatenating the emitted traces. -/
def tablet_process_frames (atan2deg : ℚ → ℚ → ℚ) (dev : TabletDevice) :
    TabletState → List (List TabletRawEvent) → TabletState × List TabletEvent
  | s, [] => (s, [])
  | s, f :: rest =>
    let r := tablet_process_frame atan2deg dev s f
    let rr := tablet_process_frames atan2deg dev r.1 rest
    (rr.1, r.2 ++ rr.2)

/-- Function tablet_init, lines 1562-1586: zeroed dispatch state with the
given initial libevdev ABS values, all device axes marked changed, then
TABLET_TOOL_OUT_OF_PROXIMITY set. -/
def tablet_init (dev : TabletDevice) (abs0 : TabletAxis → Int) : TabletState :=
  let s0 : TabletState :=
    { status := ⟨false, false, false, false, false, false, false⟩,
      changed_axes := ∅,
      axes := fun _ => 0,
      deltas := fun _ => 0,
      button_state := ∅,
      prev_button_state := ∅,
      current_tool_type := .NONE,
      current_tool_id := 0,
      current_tool_serial := 0,
      absValue := abs0,
      lh_enabled := false,
      lh_want_enabled := false }
  let s1 := tablet_mark_all_axes_changed dev s0
  { s1 with status := { s1.status with out_of_proximity := true } }

/-- Projection of an emitted trace onto its proximity events: true is
proximity-in, false is proximity-out, each with the tool it carries. -/
def proxProj : List TabletEvent → List (Bool × ToolRef)
  | [] => []
  | .proximityIn t _ _ :: r => (true, t) :: proxProj r
  | .proximityOut t _ _ :: r => (false, t) :: proxProj r
  | _ :: r => proxProj r

/-- Runner for the proximity-closure property: carries the tool of the
currently open proximity-in, fails (returns none) on a proximity-in while
one is open, on a proximity-out with none open, and on a proximity-out for
a different tool. -/
def proxRun : Option ToolRef → List (Bool × ToolRef) → Option (Option ToolRef)
  | o, [] => some o
  | Option.none, (true, t) :: r => proxRun (some t) r
  | Option.none, (false, _) :: _ => Option.none
  | some t, (false, t') :: r =>
      if t' = t then proxRun Option.none r else Option.none
  | some _, (true, _) :: _ => Option.none

/-- Runner for the button-closure property: carries the set of stylus
buttons with an emitted press and no later release, and fails on a
proximity-out while that set is non-empty. -/
def buttonsRun : Finset Nat → List TabletEvent → Option (Finset Nat)
  | ob, [] => some ob
  | ob, .button _ c true :: r => buttonsRun (insert c ob) r
  | ob, .button _ c false :: r => buttonsRun (ob.erase c) r
  | ob, .proximityOut _ _ _ :: r =>
      if ob = ∅ then buttonsRun ob r else Option.none
  | ob, _ :: r => buttonsRun ob r

/-- Property of claim C1 on an emitted trace: each proximity-in is
followed by exactly one proximity-out for the same tool before any other
proximity event, and at every proximity-out every stylus button whose
press was emitted has had its release emitted earlier (in particular the
forced releases of the leaving flush precede the proximity-out). -/
def tabletProxClosure (evs : List TabletEvent) : Prop :=
  (proxRun Option.none (proxProj evs)).isSome = true ∧
  (buttonsRun ∅ evs).isSome = true

/-- Tool transition carried by one raw event, if any. -/
def tabletToolEvent : TabletRawEvent → Option (ToolType × Bool)
  | .key code v =>
      if isToolCode code then some (tablet_evcode_to_tool code, v ≠ 0)
      else Option.none
  | _ => Option.none

/-- Kernel-side view of a well-formed evdev stream: which tool the device
currently reports as down, and the last reported serial. -/
structure KernelToolState where
  toolDown : Option ToolType
  serial : Int
deriving DecidableEq

/-- New serial after folding the MSC_SERIAL events of a frame (values of
-1 are ignored, as in tablet_process_misc). -/
def frameSerialFold (ser : Int) : List TabletRawEvent → Int
  | [] => ser
  | .mscSerial v :: r => frameSerialFold (if v ≠ -1 then v else ser) r
  | _ :: r => frameSerialFold ser r

/-- Well-formedness of one frame against the kernel protocol: at most one
tool transition per frame, a tool press only while no tool is down, a tool
release only for the tool that is down, and no serial change while a tool
is in proximity.  Returns the updated kernel view. -/
def wfFrame (ks : KernelToolState) (f : List TabletRawEvent) :
    Bool × KernelToolState :=
  let serOk : Bool :=
    match ks.toolDown with
    | Option.none => true
    | some _ => f.all (fun e =>
        match e with
        | .mscSerial v => v = -1 ∨ v = ks.serial
        | _ => true)
  let ser' := frameSerialFold ks.serial f
  match f.filterMap tabletToolEvent with
  | [] => (serOk, { ks with serial := ser' })
  | [(t, true)] =>
      (serOk && ks.toolDown = Option.none, ⟨some t, ser'⟩)
  | [(t, false)] =>
      (serOk && ks.toolDown = some t, ⟨Option.none, ser'⟩)
  | _ => (false, ⟨Option.none, ser'⟩)

/-- Well-formedness of a frame sequence. -/
def wfFrames (ks : KernelToolState) : List (List TabletRawEvent) → Bool
  | [] => true
  | f :: rest =>
    let r := wfFrame ks f
    r.1 && wfFrames r.2 rest

/-- Tool currently in proximity from the dispatcher's point of view. -/
def openToolOf (s : TabletState) : Option ToolRef :=
  if s.status.out_of_proximity then Option.none
  else some ⟨s.current_tool_type, s.current_tool_serial⟩

/-- Modelled from the spec: the ring delta of the button-set engine (the
buttonset source is not under src/).  The spec defines it as the signed
minimum of new-old, new+1-old and new-1-old over ring positions normalized
to the interval from 0 to 1, with the same selection scheme the tablet
code uses for its 360-degree wheel in guess_wheel_delta. -/
def ring_guess_delta (current old : ℚ) : ℚ :=
  let d1 := current - old
  let d2 := (current + 1) - old
  let d3 := current - (old + 1)
  let e1 := if |d2| < |d1| then d2 else d1
  if |d3| < |e1| then d3 else e1

/-- C atan2 over the reals: atan2R y x is the argument of the complex
number x + y*i, in the interval from -pi (exclusive) to pi, with
atan2R 0 0 = 0. -/
noncomputable def atan2R (y x : ℝ) : ℝ :=
  Complex.arg (x + y * Complex.I)

/-- C fmod over the reals: a - b * trunc(a / b), truncation toward zero. -/
noncomputable def fmodR (a b : ℝ) : ℝ :=
  a - b * (if 0 ≤ a / b then (⌊a / b⌋ : ℝ) else (⌈a / b⌉ : ℝ))

/-- The axis-array slice of the tablet state that convert_tilt_to_rotation
reads and writes, with real-valued (double) axes for the numerical
claim. -/
structure TiltStateR where
  changed_axes : Finset TabletAxis
  axes : TabletAxis → ℝ

/-- Function convert_tilt_to_rotation, lines 746-770, over real axis
values: angle = (180 * atan2(-x, y)) / pi when the tilt pair is nonzero,
0 otherwise, then fmod(360 + angle - 5, 360); tilt changed bits cleared,
rotation changed bit set. -/
noncomputable def convert_tilt_to_rotationR (s : TiltStateR) : TiltStateR :=
  let x := s.axes .TILT_X
  let y := s.axes .TILT_Y
  let angle : ℝ := if x ≠ 0 ∨ y ≠ 0 then (180 * atan2R (-x) y) / Real.pi else 0
  let angle := fmodR (360 + angle - 5) 360
  { changed_axes :=
      insert .ROTATION_Z ((s.changed_axes.erase .TILT_X).erase .TILT_Y),
    axes := Function.update s.axes .ROTATION_Z angle }

/-- The ROTATION_Z branch of the loop in tablet_check_notify_axes, lines
858-868, over real axis values: convert tilt to rotation, zero the
reported tilt values in the outgoing snapshot, report the new rotation. -/
noncomputable def rotation_axis_branchR (s : TiltStateR)
    (axesOut : TabletAxis → ℝ) : TiltStateR × (TabletAxis → ℝ) :=
  let s1 := convert_tilt_to_rotationR s
  (s1,
   Function.update (Function.update (Function.update axesOut .TILT_X 0)
     .TILT_Y 0) .ROTATION_Z (s1.axes .ROTATION_Z))

/-- The rotation formula exactly as the spec writes it, for the refinement
comparison: fmod(360 + atan2(-tilt_x, tilt_y)*180/pi - 5, 360), with the
angle taken as 0 when both tilt components are 0. -/
noncomputable def spec_rotation_formula (tx ty : ℝ) : ℝ :=
  fmodR (360 + (if tx = 0 ∧ ty = 0 then 0 else atan2R (-tx) ty * 180 / Real.pi) - 5) 360

/-- Modelled from the spec: the left-handed configuration setter of the
generic evdev layer (that layer is not under src/) records the wanted
value and invokes the change callback the tablet registered, which is
tablet_change_to_left_handed. -/
def tablet_set_left_handed (s : TabletState) (want : Bool) : TabletState :=
  tablet_change_to_left_handed { s with lh_want_enabled := want }

/-- Common shape of guess_wheel_delta and the spec's ring delta: the
wrap range is a parameter.  guess_wheel_delta is wrapDelta at range 360,
ring_guess_delta is wrapDelta at range 1, definitionally. -/
def wrapDelta (R cur old : ℚ) : ℚ :=
  let d1 := cur - old
  let d2 := (cur + R) - old
  let d3 := cur - (old + R)
  let e1 := if |d2| < |d1| then d2 else d1
  if |d3| < |e1| then d3 else e1

/-- First half of sanitize_tablet_axes: distance suppression and the
pressure clamp/suppression, before the mouse/lens rotation forcing. -/
def sanitize_inner (dev : TabletDevice) (s : TabletState) : TabletState :=
  let distance := absInfo dev s .DISTANCE
  let pressure := absInfo dev s .PRESSURE
  if .DISTANCE ∈ s.changed_axes ∧ distance.value > distance.minimum ∧
      pressure.value > pressure.minimum then
    { s with changed_axes := s.changed_axes.erase .DISTANCE,
             axes := Function.update s.axes .DISTANCE 0 }
  else if .PRESSURE ∈ s.changed_axes ∧ ¬ s.status.stylus_in_contact then
    if s.axes .PRESSURE = 0 then
      { s with changed_axes := s.changed_axes.erase .PRESSURE }
    else
      { s with axes := Function.update s.axes .PRESSURE 0 }
  else s

/-- Second half of sanitize_tablet_axes: for mouse and lens tools a tilt
change forces the rotation axis into the changed set. -/
def sanitize_rot (s1 : TabletState) : TabletState :=
  if (s1.current_tool_type = .MOUSE ∨ s1.current_tool_type = .LENS) ∧
      (.TILT_X ∈ s1.changed_axes ∨ .TILT_Y ∈ s1.changed_axes) then
    { s1 with changed_axes := insert .ROTATION_Z s1.changed_axes }
  else s1

/-- Pressure content of an emitted tablet event: for an axis-update event,
whether the pressure axis is in the changed mask, and the reported
pressure value. -/
def eventPressure : TabletEvent → Option (Bool × ℚ)
  | TabletEvent.axisUpdate _ ch ax _ _ =>
      some (decide (TabletAxis.PRESSURE ∈ ch), ax TabletAxis.PRESSURE)
  | _ => none

/-- A trivial interpretation of the atan2 oracle, for concrete runs that
never evaluate the rotation branch. -/
def atan2degZero : ℚ → ℚ → ℚ := fun _ _ => 0

/-- A small concrete tablet: every ABS axis present, range 0..10. -/
def tabletDevW : TabletDevice :=
  { hasAbsAxis := fun _ => true,
    hasRelWheel := false,
    absMinimum := fun _ => 0,
    absMaximum := fun _ => 10,
    wheel_click_angle := 1 }

/-- Concrete dispatch state at a flush: pen in proximity, not in contact,
the pressure axis marked changed with its raw value at the minimum while
the previously normalized value 1 is still stored. -/
def tabletStateW : TabletState :=
  { status := ⟨false, false, false, false, true, false, false⟩,
    changed_axes := {TabletAxis.PRESSURE},
    axes := fun a => if a = TabletAxis.PRESSURE then 1 else 0,
    deltas := fun _ => 0,
    button_state := ∅,
    prev_button_state := ∅,
    current_tool_type := ToolType.PEN,
    current_tool_id := 0,
    current_tool_serial := 42,
    absValue := fun _ => 0,
    lh_enabled := false,
    lh_want_enabled := false }

/-- Concrete dispatch state before a frame: pen in proximity, not in
contact, stored pressure 1/2 left over from an earlier contact, raw
pressure currently at the minimum. -/
def tabletStateC : TabletState :=
  { status := ⟨false, false, false, false, false, false, false⟩,
    changed_axes := ∅,
    axes := fun a => if a = TabletAxis.PRESSURE then 1/2 else 0,
    deltas := fun _ => 0,
    button_state := ∅,
    prev_button_state := ∅,
    current_tool_type := ToolType.PEN,
    current_tool_id := 0,
    current_tool_serial := 42,
    absValue := fun _ => 0,
    lh_enabled := false,
    lh_want_enabled := false }

/-- One raw kernel frame: the pressure ABS code reports raw value 3 (above
the minimum 0) while the stylus is not in contact. -/
def tabletFrameC : List TabletRawEvent := [TabletRawEvent.abs TabletAxis.PRESSURE 3]

/-- The dispatch state right before the flush of that frame: the raw
events of tabletFrameC processed from tabletStateC. -/
def sCexp : TabletState :=
  tabletFrameC.foldl (tablet_process_event tabletDevW) tabletStateC

/-- Serial discipline of one well-formed frame: while a tool is down, every
MSC_SERIAL event repeats the known serial or the -1 the dispatcher
ignores.  This is the serOk check of wfFrame. -/
def wfSerOk (ks : KernelToolState) (f : List TabletRawEvent) : Bool :=
  match ks.toolDown with
  | Option.none => true
  | some _ => f.all (fun e =>
      match e with
      | .mscSerial v => v = -1 ∨ v = ks.serial
      | _ => true)

/-- Coupling invariant between the kernel-side view of a well-formed
stream and the dispatcher state, at frame boundaries: the dispatcher is
out of proximity exactly while no tool is down, the transient entering
and leaving flags are clear, the previous-buttons snapshot matches the
current buttons, and the stored serial follows the stream. -/
def MInv (ks : KernelToolState) (s : TabletState) : Prop :=
  (s.status.out_of_proximity = true ↔ ks.toolDown = Option.none)
  ∧ s.status.entering_proximity = false
  ∧ s.status.leaving_proximity = false
  ∧ s.prev_button_state = s.button_state
  ∧ s.current_tool_serial = ks.serial

/-- A tablet advertising only the X axis, for concrete runs that never
touch the rational axis pipeline. -/
def tabletDevX : TabletDevice :=
  { hasAbsAxis := fun a => a == TabletAxis.X,
    hasRelWheel := false,
    absMinimum := fun _ => 0,
    absMaximum := fun _ => 10,
    wheel_click_angle := 1 }

/-- An adversarial frame sequence: a pen reports down, then a mouse
reports down while the pen never left. -/
def tabletFramesX : List (List TabletRawEvent) :=
  [[TabletRawEvent.key BTN_TOOL_PEN 1], [TabletRawEvent.key BTN_TOOL_MOUSE 1]]

/-- Reflection on a row: for keycode in the row starting at t, the temp
dance computes 2*t + 9 - keycode. -/
lemma halfkey_reflect_in_row (t k : Int) (h1 : t ≤ k) (h2 : k ≤ t + 9) :
    halfkey_reflect t k = 2 * t + 9 - k := by
  simp only [halfkey_reflect]
  split_ifs <;> omega

/-- Swap step is the identity outside the four special key codes. -/
lemma halfkey_swap_of_ne (k : Int) (h1 : k ≠ KEY_BACKSPACE) (h2 : k ≠ KEY_TAB)
    (h3 : k ≠ KEY_ENTER) (h4 : k ≠ KEY_CAPSLOCK) : halfkey_swap k = k := by
  simp only [halfkey_swap, KEY_BACKSPACE, KEY_TAB, KEY_ENTER, KEY_CAPSLOCK] at *
  split_ifs <;> omega

/-- Closed form of halfkey_mirror_key: row reflection 2*rowstart + 9 - k on
the four QWERTY rows, the two special swaps, identity elsewhere. -/
lemma halfkey_mirror_key_eq (k : Int) : halfkey_mirror_key k =
    if 2 ≤ k ∧ k ≤ 11 then 13 - k
    else if 16 ≤ k ∧ k ≤ 25 then 41 - k
    else if 30 ≤ k ∧ k ≤ 39 then 69 - k
    else if 44 ≤ k ∧ k ≤ 53 then 97 - k
    else if k = 14 then 15
    else if k = 15 then 14
    else if k = 28 then 58
    else if k = 58 then 28
    else k := by
  have hrow : ∀ t : Int, t = 2 ∨ t = 16 ∨ t = 30 ∨ t = 44 →
      t ≤ k → k ≤ t + 9 → halfkey_mirror_key k = 2 * t + 9 - k := by
    intro t ht hl hr
    have hbase : halfkey_row_base k = t := by
      simp only [halfkey_row_base, KEY_1, KEY_0, KEY_Q, KEY_P, KEY_A,
        KEY_SEMICOLON, KEY_Z, KEY_SLASH]
      split_ifs <;> omega
    simp only [halfkey_mirror_key, hbase]
    rw [if_pos (show t ≠ 0 by omega), halfkey_reflect_in_row t k hl hr]
    exact halfkey_swap_of_ne _ (by simp [KEY_BACKSPACE]; omega)
      (by simp [KEY_TAB]; omega) (by simp [KEY_ENTER]; omega)
      (by simp [KEY_CAPSLOCK]; omega)
  by_cases h1 : 2 ≤ k ∧ k ≤ 11
  · rw [if_pos h1]
    have := hrow 2 (by omega) h1.1 (by omega)
    omega
  rw [if_neg h1]
  by_cases h2 : 16 ≤ k ∧ k ≤ 25
  · rw [if_pos h2]
    have := hrow 16 (by omega) h2.1 (by omega)
    omega
  rw [if_neg h2]
  by_cases h3 : 30 ≤ k ∧ k ≤ 39
  · rw [if_pos h3]
    have := hrow 30 (by omega) h3.1 (by omega)
    omega
  rw [if_neg h3]
  by_cases h4 : 44 ≤ k ∧ k ≤ 53
  · rw [if_pos h4]
    have := hrow 44 (by omega) h4.1 (by omega)
    omega
  rw [if_neg h4]
  have hbase : halfkey_row_base k = 0 := by
    simp only [halfkey_row_base, KEY_1, KEY_0, KEY_Q, KEY_P, KEY_A,
      KEY_SEMICOLON, KEY_Z, KEY_SLASH]
    split_ifs <;> omega
  simp only [halfkey_mirror_key, hbase]
  rw [if_neg (show ¬((0:Int) ≠ 0) by omega)]
  simp only [halfkey_swap, KEY_BACKSPACE, KEY_TAB, KEY_ENTER, KEY_CAPSLOCK]

set_option maxHeartbeats 1600000 in
/-- C5: halfkey_mirror_key reflects each of the four QWERTY rows about its
centre (k in row [r, r+9] maps to r + (r+9) - k, so G and H, A and
SEMICOLON, Q and P, 1 and 0, Z and SLASH swap), swaps BACKSPACE with TAB
and ENTER with CAPSLOCK, fixes every other key code including KEY_SPACE,
and is an involution on all of Int. -/
theorem halfkey_mirror_key_spec :
    (∀ k : Int, KEY_1 ≤ k → k ≤ KEY_0 →
      halfkey_mirror_key k = KEY_1 + (KEY_1 + 9) - k)
    ∧ (∀ k : Int, KEY_Q ≤ k → k ≤ KEY_P →
      halfkey_mirror_key k = KEY_Q + (KEY_Q + 9) - k)
    ∧ (∀ k : Int, KEY_A ≤ k → k ≤ KEY_SEMICOLON →
      halfkey_mirror_key k = KEY_A + (KEY_A + 9) - k)
    ∧ (∀ k : Int, KEY_Z ≤ k → k ≤ KEY_SLASH →
      halfkey_mirror_key k = KEY_Z + (KEY_Z + 9) - k)
    ∧ halfkey_mirror_key KEY_G = KEY_H
    ∧ halfkey_mirror_key KEY_BACKSPACE = KEY_TAB
    ∧ halfkey_mirror_key KEY_TAB = KEY_BACKSPACE
    ∧ halfkey_mirror_key KEY_ENTER = KEY_CAPSLOCK
    ∧ halfkey_mirror_key KEY_CAPSLOCK = KEY_ENTER
    ∧ halfkey_mirror_key KEY_SPACE = KEY_SPACE
    ∧ (∀ k : Int,
        ¬(KEY_1 ≤ k ∧ k ≤ KEY_0) → ¬(KEY_Q ≤ k ∧ k ≤ KEY_P) →
        ¬(KEY_A ≤ k ∧ k ≤ KEY_SEMICOLON) → ¬(KEY_Z ≤ k ∧ k ≤ KEY_SLASH) →
        k ≠ KEY_BACKSPACE → k ≠ KEY_TAB → k ≠ KEY_ENTER → k ≠ KEY_CAPSLOCK →
        halfkey_mirror_key k = k)
    ∧ (∀ k : Int, halfkey_mirror_key (halfkey_mirror_key k) = k) := by
  simp only [KEY_1, KEY_0, KEY_Q, KEY_P, KEY_A, KEY_SEMICOLON, KEY_Z,
    KEY_SLASH, KEY_BACKSPACE, KEY_TAB, KEY_ENTER, KEY_CAPSLOCK, KEY_G,
    KEY_H, KEY_SPACE]
  refine ⟨?_, ?_, ?_, ?_, by decide, by decide, by decide, by decide,
    by decide, by decide, ?_, ?_⟩
  · intro k h1 h2
    rw [halfkey_mirror_key_eq]
    split_ifs <;> omega
  · intro k h1 h2
    rw [halfkey_mirror_key_eq]
    split_ifs <;> omega
  · intro k h1 h2
    rw [halfkey_mirror_key_eq]
    split_ifs <;> omega
  · intro k h1 h2
    rw [halfkey_mirror_key_eq]
    split_ifs <;> omega
  · intro k h1 h2 h3 h4 h5 h6 h7 h8
    rw [halfkey_mirror_key_eq]
    split_ifs <;> omega
  · intro k
    rw [halfkey_mirror_key_eq k]
    split_ifs <;> (rw [halfkey_mirror_key_eq]; split_ifs <;> omega)

/-- Witness for halfkey_mirror_key_spec: the row conjuncts applied at
concrete keys (G in the home row, 1 in the digit row). -/
theorem halfkey_mirror_key_spec_witness :
    halfkey_mirror_key 34 = 30 + (30 + 9) - 34 ∧
    halfkey_mirror_key 2 = 2 + (2 + 9) - 2 ∧
    halfkey_mirror_key 40 = 40 := by
  refine ⟨?_, ?_, ?_⟩
  · exact halfkey_mirror_key_spec.2.2.1 34 (by decide) (by decide)
  · exact halfkey_mirror_key_spec.1 2 (by decide) (by decide)
  · exact halfkey_mirror_key_spec.2.2.2.2.2.2.2.2.2.2.1 40
      (by decide) (by decide) (by decide) (by decide)
      (by decide) (by decide) (by decide) (by decide)

/-- C3: the halfkey transition function.  From IDLE, SPACE_DOWN discards
and moves to PRESSED.  From PRESSED, SPACE_UP injects a retroactive
KEY_SPACE press and passes the release through, moving to IDLE, while
MIRROR_DOWN answers INJECTMIRROR and moves to MODIFIED.  From MODIFIED,
SPACE_UP discards and returns to IDLE, and MIRROR_DOWN and MIRROR_UP both
answer INJECTMIRROR without leaving MODIFIED.  OTHERKEY always passes
through and never changes the state. -/
theorem halfkey_transition_table (d : HalfkeyDev) (t : Nat) :
    evdev_halfkey_handle_event { d with state := .spaceIdle } t .spaceDown
      = ({ d with state := .spacePressed }, .discard, [])
    ∧ evdev_halfkey_handle_event { d with state := .spacePressed } t .spaceUp
      = ({ d with state := .spaceIdle }, .passthrough, [⟨t, KEY_SPACE, true⟩])
    ∧ evdev_halfkey_handle_event { d with state := .spacePressed } t .mirrorDown
      = ({ d with state := .spaceModified }, .injectMirror, [])
    ∧ evdev_halfkey_handle_event { d with state := .spaceModified } t .spaceUp
      = ({ d with state := .spaceIdle }, .discard, [])
    ∧ evdev_halfkey_handle_event { d with state := .spaceModified } t .mirrorDown
      = ({ d with state := .spaceModified }, .injectMirror, [])
    ∧ evdev_halfkey_handle_event { d with state := .spaceModified } t .mirrorUp
      = ({ d with state := .spaceModified }, .injectMirror, [])
    ∧ ∀ s : HalfkeyState,
        evdev_halfkey_handle_event { d with state := s } t .otherKey
          = ({ d with state := s }, .passthrough, []) := by
  refine ⟨rfl, rfl, rfl, rfl, rfl, rfl, ?_⟩
  intro s
  cases s <;> rfl

/-- C10: with the halfkey feature disabled, the filter is the identity on
the key stream: it answers PASSTHROUGH for every key code, key state and
time, changes no halfkey state and injects nothing. -/
theorem halfkey_filter_disabled_passthrough (d : HalfkeyDev) (t : Nat)
    (keycode state : Int) :
    evdev_halfkey_filter_key { d with enabled := false } t keycode state
      = ({ d with enabled := false }, .passthrough, []) := by
  simp [evdev_halfkey_filter_key]

/-- C9: evdev_halfkey_set rejects any argument other than ENABLED and
DISABLED with LIBINPUT_CONFIG_STATUS_INVALID and changes nothing; for a
valid argument it records want_enabled and returns SUCCESS, and the
effective enabled flag becomes want_enabled exactly when the keymask is
empty, remaining unchanged while any key bit is set. -/
theorem halfkey_set_config_spec (d : HalfkeyDev) (enable : Int) :
    (enable ≠ LIBINPUT_CONFIG_HALFKEY_ENABLED →
     enable ≠ LIBINPUT_CONFIG_HALFKEY_DISABLED →
      evdev_halfkey_set d enable = (d, LIBINPUT_CONFIG_STATUS_INVALID))
    ∧ (enable = LIBINPUT_CONFIG_HALFKEY_ENABLED →
        (evdev_halfkey_set d enable).2 = LIBINPUT_CONFIG_STATUS_SUCCESS
        ∧ (evdev_halfkey_set d enable).1.want_enabled = true
        ∧ (evdev_halfkey_set d enable).1.keymask = d.keymask
        ∧ (evdev_halfkey_set d enable).1.enabled
            = (if d.keymask = ∅ then true else d.enabled))
    ∧ (enable = LIBINPUT_CONFIG_HALFKEY_DISABLED →
        (evdev_halfkey_set d enable).2 = LIBINPUT_CONFIG_STATUS_SUCCESS
        ∧ (evdev_halfkey_set d enable).1.want_enabled = false
        ∧ (evdev_halfkey_set d enable).1.keymask = d.keymask
        ∧ (evdev_halfkey_set d enable).1.enabled
            = (if d.keymask = ∅ then false else d.enabled)) := by
  refine ⟨?_, ?_, ?_⟩
  · intro h1 h2
    simp [evdev_halfkey_set, h1, h2]
  · intro h
    subst h
    simp only [evdev_halfkey_set, evdev_halfkey_apply_config,
      LIBINPUT_CONFIG_HALFKEY_ENABLED, if_pos rfl]
    rcases hmask : decide (d.keymask = ∅) with _ | _ <;>
      rcases hen : d.enabled <;>
        simp_all [evdev_halfkey_apply_config]
  · intro h
    subst h
    simp only [evdev_halfkey_set, evdev_halfkey_apply_config,
      LIBINPUT_CONFIG_HALFKEY_DISABLED, LIBINPUT_CONFIG_HALFKEY_ENABLED]
    norm_num
    rcases hmask : decide (d.keymask = ∅) with _ | _ <;>
      rcases hen : d.enabled <;>
        simp_all [evdev_halfkey_apply_config]

/-- Witness for halfkey_set_config_spec at concrete inputs: an invalid
argument (3, the one the repo test uses) is rejected, and enabling with a
non-empty keymask defers the change. -/
theorem halfkey_set_config_spec_witness :
    evdev_halfkey_set ⟨.spaceIdle, ∅, false, false, false⟩ 3
      = (⟨.spaceIdle, ∅, false, false, false⟩, LIBINPUT_CONFIG_STATUS_INVALID)
    ∧ (evdev_halfkey_set ⟨.spaceIdle, {KEY_M}, false, false, false⟩ 1).1.enabled
      = false := by
  constructor
  · exact (halfkey_set_config_spec ⟨.spaceIdle, ∅, false, false, false⟩ 3).1
      (by decide) (by decide)
  · have h := ((halfkey_set_config_spec
      ⟨.spaceIdle, {KEY_M}, false, false, false⟩ 1).2.1 rfl).2.2.2
    simpa using h

/-- C4 failing input: the repo test halfkey_test_mirrored_sequence feeds
space down, V down, space up, V up with the feature enabled and expects
the mirrored M press to be followed by an M release.  The canonical filter
instead injects the M press, discards both space events, passes the V
release through untouched, and finishes with the mirror key M still
recorded as virtually down: the keymask does not return to empty although
every physical key has been released, and no M release is ever emitted. -/
theorem halfkey_stuck_mirror_on_test_sequence :
    (halfkey_filter_sequence ⟨.spaceIdle, ∅, true, true, false⟩
        [(0, KEY_SPACE, 1), (1, KEY_V, 1), (2, KEY_SPACE, 0), (3, KEY_V, 0)]).2
      = [⟨1, KEY_M, true⟩, ⟨3, KEY_V, false⟩]
    ∧ (halfkey_filter_sequence ⟨.spaceIdle, ∅, true, true, false⟩
        [(0, KEY_SPACE, 1), (1, KEY_V, 1), (2, KEY_SPACE, 0), (3, KEY_V, 0)]).1.keymask
      = {KEY_M} := by
  constructor <;> decide

/-- Sanity: the two wrap deltas are instances of wrapDelta. -/
lemma guess_wheel_delta_eq_wrapDelta (cur old : ℚ) :
    guess_wheel_delta cur old = wrapDelta 360 cur old := rfl

/-- Sanity: the ring delta is wrapDelta at range 1. -/
lemma ring_guess_delta_eq_wrapDelta (cur old : ℚ) :
    ring_guess_delta cur old = wrapDelta 1 cur old := rfl

/-- The selected delta is one of the three candidates and has the least
magnitude among them. -/
lemma wrapDelta_min (R cur old : ℚ) :
    (wrapDelta R cur old = cur - old ∨
     wrapDelta R cur old = (cur + R) - old ∨
     wrapDelta R cur old = cur - (old + R))
    ∧ |wrapDelta R cur old| ≤ |cur - old|
    ∧ |wrapDelta R cur old| ≤ |(cur + R) - old|
    ∧ |wrapDelta R cur old| ≤ |cur - (old + R)| := by
  simp only [wrapDelta]
  split_ifs with h1 h2 h3
  · exact ⟨Or.inr (Or.inr rfl), le_of_lt (lt_trans h2 h1), le_of_lt h2,
      le_refl _⟩
  · exact ⟨Or.inr (Or.inl rfl), le_of_lt h1, le_refl _, not_lt.mp h2⟩
  · exact ⟨Or.inr (Or.inr rfl), le_of_lt h3, le_of_lt (lt_of_lt_of_le h3 (not_lt.mp h1)), le_refl _⟩
  · exact ⟨Or.inl rfl, le_refl _, not_lt.mp h1, not_lt.mp h3⟩

/-- On wrapped readings inside the range, the selected delta has magnitude
at most half the range and shifts old onto cur modulo the range. -/
lemma wrapDelta_wrap (R cur old : ℚ) (hR : 0 < R) (ho1 : 0 ≤ old)
    (ho2 : old < R) (hc1 : 0 ≤ cur) (hc2 : cur < R) :
    |wrapDelta R cur old| ≤ R / 2 ∧
    ∃ k : Int, old + wrapDelta R cur old = cur + R * (k : ℚ) := by
  obtain ⟨hone, hm1, hm2, hm3⟩ := wrapDelta_min R cur old
  constructor
  · rcases le_or_lt (cur - old) (R / 2) with hd1 | hd1
    · rcases le_or_lt (-(R / 2)) (cur - old) with hd2 | hd2
      · exact le_trans hm1 (abs_le.mpr ⟨by linarith, hd1⟩)
      · exact le_trans hm2 (abs_le.mpr ⟨by linarith, by linarith⟩)
    · exact le_trans hm3 (abs_le.mpr ⟨by linarith, by linarith⟩)
  · rcases hone with h | h | h
    · exact ⟨0, by rw [h]; push_cast; ring⟩
    · exact ⟨1, by rw [h]; push_cast; ring⟩
    · exact ⟨-1, by rw [h]; push_cast; ring⟩

/-- C7: get_delta routes the rotation axis through guess_wheel_delta; the
returned delta is the candidate of least magnitude among new - old,
new + range - old and new - (old + range) at range 360; hence for readings
in the interval from 0 to 360 the delta has magnitude at most 180 and
old + delta is congruent to new modulo 360.  The same holds, with range 1
and bound one half, for the spec's ring delta on positions in the interval
from 0 to 1, where the transition from 0.9 to 0.1 yields +0.2 and
never -0.8. -/
theorem wheel_delta_wrap_spec (cur old : ℚ) :
    get_delta .ROTATION_Z cur old = guess_wheel_delta cur old
    ∧ (guess_wheel_delta cur old = cur - old ∨
       guess_wheel_delta cur old = (cur + 360) - old ∨
       guess_wheel_delta cur old = cur - (old + 360))
    ∧ |guess_wheel_delta cur old| ≤ |cur - old|
    ∧ |guess_wheel_delta cur old| ≤ |(cur + 360) - old|
    ∧ |guess_wheel_delta cur old| ≤ |cur - (old + 360)|
    ∧ (0 ≤ old → old < 360 → 0 ≤ cur → cur < 360 →
        |guess_wheel_delta cur old| ≤ 180 ∧
        ∃ k : Int, old + guess_wheel_delta cur old = cur + 360 * (k : ℚ))
    ∧ (0 ≤ old → old < 1 → 0 ≤ cur → cur < 1 →
        |ring_guess_delta cur old| ≤ 1 / 2 ∧
        ∃ k : Int, old + ring_guess_delta cur old = cur + 1 * (k : ℚ))
    ∧ ring_guess_delta (1 / 10) (9 / 10) = 1 / 5 := by
  obtain ⟨hone, hm1, hm2, hm3⟩ := wrapDelta_min 360 cur old
  have e1 : |(1 : ℚ) / 5| = 1 / 5 := abs_of_nonneg (by norm_num)
  have e2 : |(9 : ℚ) / 5| = 9 / 5 := abs_of_nonneg (by norm_num)
  have e3 : |(4 : ℚ) / 5| = 4 / 5 := abs_of_nonneg (by norm_num)
  refine ⟨rfl, ?_, ?_, ?_, ?_, ?_, ?_, by norm_num [ring_guess_delta, e1, e2, e3]⟩
  · rw [guess_wheel_delta_eq_wrapDelta]; exact hone
  · rw [guess_wheel_delta_eq_wrapDelta]; exact hm1
  · rw [guess_wheel_delta_eq_wrapDelta]; exact hm2
  · rw [guess_wheel_delta_eq_wrapDelta]; exact hm3
  · intro ho1 ho2 hc1 hc2
    rw [guess_wheel_delta_eq_wrapDelta]
    have h := wrapDelta_wrap 360 cur old (by norm_num) ho1 ho2 hc1 hc2
    exact ⟨le_trans h.1 (by norm_num), h.2⟩
  · intro ho1 ho2 hc1 hc2
    rw [ring_guess_delta_eq_wrapDelta]
    exact wrapDelta_wrap 1 cur old (by norm_num) ho1 ho2 hc1 hc2

/-- Witness for wheel_delta_wrap_spec: the 350 to 10 wheel transition
yields +20 (congruent modulo 360, magnitude at most 180), and the spec's
0.9 to 0.1 ring example. -/
theorem wheel_delta_wrap_spec_witness :
    (|guess_wheel_delta 10 350| ≤ 180 ∧
      ∃ k : Int, (350 : ℚ) + guess_wheel_delta 10 350 = 10 + 360 * (k : ℚ))
    ∧ ring_guess_delta (1 / 10) (9 / 10) = 1 / 5 := by
  constructor
  · exact (wheel_delta_wrap_spec 10 350).2.2.2.2.2.1
      (by norm_num) (by norm_num) (by norm_num) (by norm_num)
  · exact (wheel_delta_wrap_spec (1 / 10) (9 / 10)).2.2.2.2.2.2.2

/-- C6: for a mouse or lens tool a tilt change marks the synthetic
rotation axis (sanitize_tablet_axes); the rotation branch of
tablet_check_notify_axes then reports a rotation-z value equal to the
spec's formula fmod(360 + atan2(-tilt_x, tilt_y)*180/pi - 5, 360) with
angle 0 for a zero tilt pair, clears both tilt changed bits, keeps the
rotation bit, and zeroes the reported tilt values; in particular
tilt_x = 0, tilt_y = 1 gives rotation-z = 355 degrees. -/
theorem tablet_tilt_to_rotation_spec (s : TiltStateR)
    (axesOut : TabletAxis → ℝ) :
    (rotation_axis_branchR s axesOut).1.axes .ROTATION_Z
      = spec_rotation_formula (s.axes .TILT_X) (s.axes .TILT_Y)
    ∧ TabletAxis.TILT_X ∉ (rotation_axis_branchR s axesOut).1.changed_axes
    ∧ TabletAxis.TILT_Y ∉ (rotation_axis_branchR s axesOut).1.changed_axes
    ∧ TabletAxis.ROTATION_Z ∈ (rotation_axis_branchR s axesOut).1.changed_axes
    ∧ (rotation_axis_branchR s axesOut).2 .TILT_X = 0
    ∧ (rotation_axis_branchR s axesOut).2 .TILT_Y = 0
    ∧ (rotation_axis_branchR s axesOut).2 .ROTATION_Z
        = (rotation_axis_branchR s axesOut).1.axes .ROTATION_Z
    ∧ (s.axes .TILT_X = 0 → s.axes .TILT_Y = 1 →
        (rotation_axis_branchR s axesOut).1.axes .ROTATION_Z = 355)
    ∧ (∀ (dev : TabletDevice) (sq : TabletState),
        (sq.current_tool_type = .MOUSE ∨ sq.current_tool_type = .LENS) →
        (TabletAxis.TILT_X ∈ sq.changed_axes ∨
         TabletAxis.TILT_Y ∈ sq.changed_axes) →
        TabletAxis.ROTATION_Z ∈ (sanitize_tablet_axes dev sq).changed_axes) := by
  have hval : (rotation_axis_branchR s axesOut).1.axes .ROTATION_Z
      = spec_rotation_formula (s.axes .TILT_X) (s.axes .TILT_Y) := by
    simp only [rotation_axis_branchR, convert_tilt_to_rotationR,
      spec_rotation_formula, Function.update_same]
    by_cases h : s.axes .TILT_X = 0 ∧ s.axes .TILT_Y = 0
    · rw [if_neg (by simp [h.1, h.2]), if_pos h]
    · rw [if_neg h, if_pos ?_]
      · congr 1
        ring
      · rcases not_and_or.mp h with h1 | h1
        · exact Or.inl h1
        · exact Or.inr h1
  refine ⟨hval, ?_, ?_, ?_, ?_, ?_, ?_, ?_, ?_⟩
  · simp [rotation_axis_branchR, convert_tilt_to_rotationR,
      Finset.mem_insert, Finset.mem_erase]
  · simp [rotation_axis_branchR, convert_tilt_to_rotationR,
      Finset.mem_insert, Finset.mem_erase]
  · simp [rotation_axis_branchR, convert_tilt_to_rotationR,
      Finset.mem_insert]
  · simp [rotation_axis_branchR, Function.update]
  · simp [rotation_axis_branchR, Function.update]
  · simp [rotation_axis_branchR, Function.update]
  · intro h1 h2
    rw [hval, spec_rotation_formula, h1, h2]
    rw [if_neg (by norm_num)]
    have harg : atan2R (-(0 : ℝ)) 1 = 0 := by
      simp [atan2R]
    rw [harg]
    have hq : (0 : ℝ) ≤ (360 + 0 * 180 / Real.pi - 5) / 360 := by
      have := Real.pi_pos
      rw [zero_mul, zero_div]
      norm_num
    rw [fmodR, if_pos hq]
    have hfl : ⌊(360 + 0 * 180 / Real.pi - 5) / 360⌋ = 0 := by
      rw [zero_mul, zero_div]
      rw [Int.floor_eq_zero_iff]
      constructor <;> norm_num
    rw [hfl]
    norm_num
  · intro dev sq htool htilt
    simp only [sanitize_tablet_axes]
    split_ifs with hc1 hc2 hc3 hc4 <;>
      simp_all [Finset.mem_insert, Finset.mem_erase]

/-- Witness for tablet_tilt_to_rotation_spec at the spec's scenario S6:
tilt pair (0, 1) produces rotation-z 355. -/
theorem tablet_tilt_to_rotation_spec_witness :
    (rotation_axis_branchR
      ⟨{.TILT_X, .TILT_Y, .ROTATION_Z}, fun a => if a = .TILT_Y then 1 else 0⟩
      (fun _ => 0)).1.axes .ROTATION_Z = 355 := by
  have h := (tablet_tilt_to_rotation_spec
    ⟨{.TILT_X, .TILT_Y, .ROTATION_Z}, fun a => if a = .TILT_Y then 1 else 0⟩
    (fun _ => 0)).2.2.2.2.2.2.2.1
  exact h (by simp) (by simp)

/-- Raw event processing never touches the left-handed pair, the previous
button state, or the normalized axis array. -/
lemma tablet_process_event_preserves (dev : TabletDevice) (s : TabletState)
    (e : TabletRawEvent) :
    (tablet_process_event dev s e).lh_enabled = s.lh_enabled
    ∧ (tablet_process_event dev s e).lh_want_enabled = s.lh_want_enabled
    ∧ (tablet_process_event dev s e).prev_button_state = s.prev_button_state
    ∧ (tablet_process_event dev s e).axes = s.axes := by
  cases e <;>
    simp only [tablet_process_event, tablet_process_absolute,
      tablet_process_relative, tablet_process_misc, tablet_process_key,
      tablet_update_tool, tablet_mark_all_axes_changed,
      tablet_update_button] <;>
    (try split_ifs) <;> simp

/-- Fold version of tablet_process_event_preserves. -/
lemma tablet_process_events_preserves (dev : TabletDevice)
    (es : List TabletRawEvent) : ∀ s : TabletState,
    (es.foldl (tablet_process_event dev) s).lh_enabled = s.lh_enabled
    ∧ (es.foldl (tablet_process_event dev) s).lh_want_enabled = s.lh_want_enabled
    ∧ (es.foldl (tablet_process_event dev) s).prev_button_state = s.prev_button_state
    ∧ (es.foldl (tablet_process_event dev) s).axes = s.axes := by
  induction es with
  | nil => intro s; exact ⟨rfl, rfl, rfl, rfl⟩
  | cons e es ih =>
    intro s
    have h1 := tablet_process_event_preserves dev s e
    have h2 := ih (tablet_process_event dev s e)
    simp only [List.foldl_cons]
    exact ⟨h2.1.trans h1.1, h2.2.1.trans h1.2.1, h2.2.2.1.trans h1.2.2.1,
      h2.2.2.2.trans h1.2.2.2⟩

/-- sanitize_tablet_axes touches only the changed mask and the axis
array. -/
lemma sanitize_tablet_axes_preserves (dev : TabletDevice) (s : TabletState) :
    (sanitize_tablet_axes dev s).status = s.status
    ∧ (sanitize_tablet_axes dev s).button_state = s.button_state
    ∧ (sanitize_tablet_axes dev s).prev_button_state = s.prev_button_state
    ∧ (sanitize_tablet_axes dev s).current_tool_type = s.current_tool_type
    ∧ (sanitize_tablet_axes dev s).current_tool_id = s.current_tool_id
    ∧ (sanitize_tablet_axes dev s).current_tool_serial = s.current_tool_serial
    ∧ (sanitize_tablet_axes dev s).absValue = s.absValue
    ∧ (sanitize_tablet_axes dev s).deltas = s.deltas
    ∧ (sanitize_tablet_axes dev s).lh_enabled = s.lh_enabled
    ∧ (sanitize_tablet_axes dev s).lh_want_enabled = s.lh_want_enabled := by
  simp only [sanitize_tablet_axes]
  split_ifs <;> simp

/-- The per-axis loop step touches only the axis array and the changed
mask of the threaded state. -/
lemma check_notify_step_preserves (atan2deg : ℚ → ℚ → ℚ)
    (dev : TabletDevice) (acc : NotifyAcc) (a : TabletAxis) :
    (check_notify_step atan2deg dev acc a).st.status = acc.st.status
    ∧ (check_notify_step atan2deg dev acc a).st.button_state = acc.st.button_state
    ∧ (check_notify_step atan2deg dev acc a).st.prev_button_state = acc.st.prev_button_state
    ∧ (check_notify_step atan2deg dev acc a).st.current_tool_type = acc.st.current_tool_type
    ∧ (check_notify_step atan2deg dev acc a).st.current_tool_id = acc.st.current_tool_id
    ∧ (check_notify_step atan2deg dev acc a).st.current_tool_serial = acc.st.current_tool_serial
    ∧ (check_notify_step atan2deg dev acc a).st.absValue = acc.st.absValue
    ∧ (check_notify_step atan2deg dev acc a).st.deltas = acc.st.deltas
    ∧ (check_notify_step atan2deg dev acc a).st.lh_enabled = acc.st.lh_enabled
    ∧ (check_notify_step atan2deg dev acc a).st.lh_want_enabled = acc.st.lh_want_enabled := by
  simp only [check_notify_step, convert_tilt_to_rotation]
  split_ifs <;> simp

/-- Fold version of check_notify_step_preserves. -/
lemma check_notify_fold_preserves (atan2deg : ℚ → ℚ → ℚ)
    (dev : TabletDevice) (l : List TabletAxis) : ∀ acc : NotifyAcc,
    (l.foldl (check_notify_step atan2deg dev) acc).st.status = acc.st.status
    ∧ (l.foldl (check_notify_step atan2deg dev) acc).st.button_state = acc.st.button_state
    ∧ (l.foldl (check_notify_step atan2deg dev) acc).st.prev_button_state = acc.st.prev_button_state
    ∧ (l.foldl (check_notify_step atan2deg dev) acc).st.current_tool_type = acc.st.current_tool_type
    ∧ (l.foldl (check_notify_step atan2deg dev) acc).st.current_tool_id = acc.st.current_tool_id
    ∧ (l.foldl (check_notify_step atan2deg dev) acc).st.current_tool_serial = acc.st.current_tool_serial
    ∧ (l.foldl (check_notify_step atan2deg dev) acc).st.absValue = acc.st.absValue
    ∧ (l.foldl (check_notify_step atan2deg dev) acc).st.deltas = acc.st.deltas
    ∧ (l.foldl (check_notify_step atan2deg dev) acc).st.lh_enabled = acc.st.lh_enabled
    ∧ (l.foldl (check_notify_step atan2deg dev) acc).st.lh_want_enabled = acc.st.lh_want_enabled := by
  induction l with
  | nil =>
    intro acc
    exact ⟨rfl, rfl, rfl, rfl, rfl, rfl, rfl, rfl, rfl, rfl⟩
  | cons a l ih =>
    intro acc
    have h1 := check_notify_step_preserves atan2deg dev acc a
    have h2 := ih (check_notify_step atan2deg dev acc a)
    simp only [List.foldl_cons]
    exact ⟨h2.1.trans h1.1, h2.2.1.trans h1.2.1, h2.2.2.1.trans h1.2.2.1,
      h2.2.2.2.1.trans h1.2.2.2.1, h2.2.2.2.2.1.trans h1.2.2.2.2.1,
      h2.2.2.2.2.2.1.trans h1.2.2.2.2.2.1,
      h2.2.2.2.2.2.2.1.trans h1.2.2.2.2.2.2.1,
      h2.2.2.2.2.2.2.2.1.trans h1.2.2.2.2.2.2.2.1,
      h2.2.2.2.2.2.2.2.2.1.trans h1.2.2.2.2.2.2.2.2.1,
      h2.2.2.2.2.2.2.2.2.2.trans h1.2.2.2.2.2.2.2.2.2⟩

/-- tablet_check_notify_axes keeps the status, buttons, tool identity,
left-handed pair, raw values and deltas, and finishes with an empty
changed mask. -/
lemma tablet_check_notify_axes_preserves (atan2deg : ℚ → ℚ → ℚ)
    (dev : TabletDevice) (s : TabletState) (tool : ToolRef) :
    (tablet_check_notify_axes atan2deg dev s tool).1.status = s.status
    ∧ (tablet_check_notify_axes atan2deg dev s tool).1.button_state = s.button_state
    ∧ (tablet_check_notify_axes atan2deg dev s tool).1.prev_button_state = s.prev_button_state
    ∧ (tablet_check_notify_axes atan2deg dev s tool).1.current_tool_type = s.current_tool_type
    ∧ (tablet_check_notify_axes atan2deg dev s tool).1.current_tool_serial = s.current_tool_serial
    ∧ (tablet_check_notify_axes atan2deg dev s tool).1.lh_enabled = s.lh_enabled
    ∧ (tablet_check_notify_axes atan2deg dev s tool).1.lh_want_enabled = s.lh_want_enabled
    ∧ (tablet_check_notify_axes atan2deg dev s tool).1.changed_axes = ∅ := by
  have h := check_notify_fold_preserves atan2deg dev tabletAxisList
    ⟨s, fun _ => 0, fun _ => 0, fun _ => 0, false⟩
  simp only [tablet_check_notify_axes]
  exact ⟨h.1, h.2.1, h.2.2.1, h.2.2.2.1, h.2.2.2.2.2.1,
    h.2.2.2.2.2.2.2.2.1, h.2.2.2.2.2.2.2.2.2, trivial⟩

/-- The events of tablet_check_notify_axes carry no button and no
proximity-out event, so the button runner passes through unchanged; its
proximity projection is empty unless the tool is entering. -/
lemma tablet_check_notify_axes_events (atan2deg : ℚ → ℚ → ℚ)
    (dev : TabletDevice) (s : TabletState) (tool : ToolRef) :
    (∀ P : Finset Nat,
      buttonsRun P (tablet_check_notify_axes atan2deg dev s tool).2 = some P)
    ∧ (s.status.entering_proximity = false →
        proxProj (tablet_check_notify_axes atan2deg dev s tool).2 = [])
    ∧ (proxProj (tablet_check_notify_axes atan2deg dev s tool).2 = [] ∨
       proxProj (tablet_check_notify_axes atan2deg dev s tool).2 = [(true, tool)]) := by
  have hst := (check_notify_fold_preserves atan2deg dev tabletAxisList
    ⟨s, fun _ => 0, fun _ => 0, fun _ => 0, false⟩).1
  simp only [tablet_check_notify_axes]
  generalize hacc : tabletAxisList.foldl (check_notify_step atan2deg dev)
    ⟨s, fun _ => 0, fun _ => 0, fun _ => 0, false⟩ = acc
  rw [hacc] at hst
  refine ⟨?_, ?_, ?_⟩
  · intro P
    split_ifs <;> simp [buttonsRun]
  · intro hent
    split_ifs with h1 h2
    · rw [hst, hent] at h2
      exact absurd h2 (by simp)
    · simp [proxProj]
    · rfl
  · split_ifs <;> simp [proxProj]

/-- Each step of the loop keeps the needed flag once set. -/
lemma check_notify_step_needed_mono (atan2deg : ℚ → ℚ → ℚ)
    (dev : TabletDevice) (acc : NotifyAcc) (a : TabletAxis)
    (h : acc.needed = true) :
    (check_notify_step atan2deg dev acc a).needed = true := by
  simp only [check_notify_step]
  split_ifs <;> simp [h]

/-- Fold version of check_notify_step_needed_mono. -/
lemma check_notify_fold_needed_mono (atan2deg : ℚ → ℚ → ℚ)
    (dev : TabletDevice) (l : List TabletAxis) : ∀ acc : NotifyAcc,
    acc.needed = true →
    (l.foldl (check_notify_step atan2deg dev) acc).needed = true := by
  induction l with
  | nil => intro acc h; exact h
  | cons a l ih =>
    intro acc h
    simp only [List.foldl_cons]
    exact ih _ (check_notify_step_needed_mono atan2deg dev acc a h)

/-- With the X axis marked changed, the loop reports that an axis update
is needed, and an entering tool that is neither out nor leaving gets its
proximity-in event. -/
lemma tablet_check_notify_axes_entering (atan2deg : ℚ → ℚ → ℚ)
    (dev : TabletDevice) (s : TabletState) (tool : ToolRef)
    (hx : TabletAxis.X ∈ s.changed_axes)
    (hent : s.status.entering_proximity = true)
    (hout : s.status.out_of_proximity = false)
    (hleave : s.status.leaving_proximity = false) :
    proxProj (tablet_check_notify_axes atan2deg dev s tool).2 = [(true, tool)] := by
  have hst := (check_notify_fold_preserves atan2deg dev tabletAxisList
    ⟨s, fun _ => 0, fun _ => 0, fun _ => 0, false⟩).1
  have hneed : (tabletAxisList.foldl (check_notify_step atan2deg dev)
      ⟨s, fun _ => 0, fun _ => 0, fun _ => 0, false⟩).needed = true := by
    have hrest := check_notify_fold_needed_mono atan2deg dev
      [TabletAxis.Y, .PRESSURE, .DISTANCE, .TILT_X, .TILT_Y, .SLIDER,
       .ROTATION_Z, .REL_WHEEL]
    rw [show tabletAxisList = TabletAxis.X ::
      [TabletAxis.Y, .PRESSURE, .DISTANCE, .TILT_X, .TILT_Y, .SLIDER,
       .ROTATION_Z, .REL_WHEEL] from rfl, List.foldl_cons]
    apply hrest
    simp [check_notify_step, hx]
  simp only [tablet_check_notify_axes]
  generalize hacc : tabletAxisList.foldl (check_notify_step atan2deg dev)
    ⟨s, fun _ => 0, fun _ => 0, fun _ => 0, false⟩ = acc
  rw [hacc] at hst hneed
  rw [if_pos, if_pos]
  · simp [proxProj]
  · rw [hst]; exact hent
  · refine ⟨hneed, ?_, ?_⟩ <;> rw [hst] <;> simp [hout, hleave]

/-- tablet_change_to_left_handed only touches lh_enabled. -/
lemma tablet_change_to_left_handed_preserves (s : TabletState) :
    (tablet_change_to_left_handed s).status = s.status
    ∧ (tablet_change_to_left_handed s).changed_axes = s.changed_axes
    ∧ (tablet_change_to_left_handed s).axes = s.axes
    ∧ (tablet_change_to_left_handed s).button_state = s.button_state
    ∧ (tablet_change_to_left_handed s).prev_button_state = s.prev_button_state
    ∧ (tablet_change_to_left_handed s).current_tool_type = s.current_tool_type
    ∧ (tablet_change_to_left_handed s).current_tool_serial = s.current_tool_serial
    ∧ (tablet_change_to_left_handed s).lh_want_enabled = s.lh_want_enabled := by
  simp only [tablet_change_to_left_handed]
  split_ifs <;> simp

/-- tablet_change_to_left_handed changes lh_enabled only while the tool is
out of proximity. -/
lemma tablet_change_to_left_handed_out (s : TabletState)
    (h : (tablet_change_to_left_handed s).lh_enabled ≠ s.lh_enabled) :
    s.status.out_of_proximity = true := by
  by_contra hout
  simp only [tablet_change_to_left_handed] at h
  split_ifs at h <;> simp_all

/-- The axes block of the flush keeps the left-handed pair, the previous
button state, the tool identity and the out and leaving bits. -/
lemma tablet_flush_axes_preserves (atan2deg : ℚ → ℚ → ℚ)
    (dev : TabletDevice) (s : TabletState) (tool : ToolRef) :
    (tablet_flush_axes atan2deg dev s tool).1.lh_enabled = s.lh_enabled
    ∧ (tablet_flush_axes atan2deg dev s tool).1.lh_want_enabled = s.lh_want_enabled
    ∧ (tablet_flush_axes atan2deg dev s tool).1.prev_button_state = s.prev_button_state
    ∧ (tablet_flush_axes atan2deg dev s tool).1.current_tool_type = s.current_tool_type
    ∧ (tablet_flush_axes atan2deg dev s tool).1.current_tool_serial = s.current_tool_serial
    ∧ (tablet_flush_axes atan2deg dev s tool).1.status.out_of_proximity = s.status.out_of_proximity
    ∧ (tablet_flush_axes atan2deg dev s tool).1.status.leaving_proximity = s.status.leaving_proximity := by
  have hs := sanitize_tablet_axes_preserves dev s
  have hc := tablet_check_notify_axes_preserves atan2deg dev
    (sanitize_tablet_axes dev s) tool
  simp only [tablet_flush_axes]
  split_ifs <;>
    simp_all

/-- The released block only clears BUTTONS_RELEASED. -/
lemma tablet_flush_released_preserves (s : TabletState) (tool : ToolRef) :
    (tablet_flush_released s tool).1.lh_enabled = s.lh_enabled
    ∧ (tablet_flush_released s tool).1.lh_want_enabled = s.lh_want_enabled
    ∧ (tablet_flush_released s tool).1.button_state = s.button_state
    ∧ (tablet_flush_released s tool).1.prev_button_state = s.prev_button_state
    ∧ (tablet_flush_released s tool).1.changed_axes = s.changed_axes
    ∧ (tablet_flush_released s tool).1.axes = s.axes
    ∧ (tablet_flush_released s tool).1.current_tool_type = s.current_tool_type
    ∧ (tablet_flush_released s tool).1.current_tool_serial = s.current_tool_serial
    ∧ (tablet_flush_released s tool).1.status.out_of_proximity = s.status.out_of_proximity
    ∧ (tablet_flush_released s tool).1.status.leaving_proximity = s.status.leaving_proximity
    ∧ (tablet_flush_released s tool).1.status.entering_proximity = s.status.entering_proximity
    ∧ (tablet_flush_released s tool).1.status.buttons_pressed = s.status.buttons_pressed := by
  simp only [tablet_flush_released]
  split_ifs <;> simp

/-- The pressed block only clears BUTTONS_PRESSED. -/
lemma tablet_flush_pressed_preserves (s : TabletState) (tool : ToolRef) :
    (tablet_flush_pressed s tool).1.lh_enabled = s.lh_enabled
    ∧ (tablet_flush_pressed s tool).1.lh_want_enabled = s.lh_want_enabled
    ∧ (tablet_flush_pressed s tool).1.button_state = s.button_state
    ∧ (tablet_flush_pressed s tool).1.prev_button_state = s.prev_button_state
    ∧ (tablet_flush_pressed s tool).1.changed_axes = s.changed_axes
    ∧ (tablet_flush_pressed s tool).1.axes = s.axes
    ∧ (tablet_flush_pressed s tool).1.current_tool_type = s.current_tool_type
    ∧ (tablet_flush_pressed s tool).1.current_tool_serial = s.current_tool_serial
    ∧ (tablet_flush_pressed s tool).1.status.out_of_proximity = s.status.out_of_proximity
    ∧ (tablet_flush_pressed s tool).1.status.leaving_proximity = s.status.leaving_proximity
    ∧ (tablet_flush_pressed s tool).1.status.entering_proximity = s.status.entering_proximity := by
  simp only [tablet_flush_pressed]
  split_ifs <;> simp

/-- While out of proximity, the flush does nothing. -/
lemma tablet_flush_of_out (atan2deg : ℚ → ℚ → ℚ) (dev : TabletDevice)
    (s : TabletState) (h : s.status.out_of_proximity = true) :
    tablet_flush atan2deg dev s = (s, []) := by
  simp [tablet_flush, h]

/-- In proximity, the flush is its four-block body. -/
lemma tablet_flush_of_in (atan2deg : ℚ → ℚ → ℚ) (dev : TabletDevice)
    (s : TabletState) (h : s.status.out_of_proximity = false) :
    tablet_flush atan2deg dev s = tablet_flush_body atan2deg dev s
      ⟨s.current_tool_type, s.current_tool_serial⟩ := by
  simp [tablet_flush, h]

/-- Unfolding of the flush body into its block composition. -/
lemma tablet_flush_body_eq (atan2deg : ℚ → ℚ → ℚ) (dev : TabletDevice)
    (s : TabletState) (tool : ToolRef) :
    tablet_flush_body atan2deg dev s tool =
      ((tablet_flush_leave (tablet_flush_pressed (tablet_flush_released
          (tablet_flush_axes atan2deg dev s tool).1 tool).1 tool).1 tool).1,
       (tablet_flush_axes atan2deg dev s tool).2 ++
       (tablet_flush_released (tablet_flush_axes atan2deg dev s tool).1 tool).2 ++
       (tablet_flush_pressed (tablet_flush_released
          (tablet_flush_axes atan2deg dev s tool).1 tool).1 tool).2 ++
       (tablet_flush_leave (tablet_flush_pressed (tablet_flush_released
          (tablet_flush_axes atan2deg dev s tool).1 tool).1 tool).1 tool).2) := rfl

/-- The leaving block when LEAVING_PROXIMITY is set: clear the changed
mask, emit the proximity-out, set OUT, clear LEAVING, then attempt the
left-handed switch. -/
lemma tablet_flush_leave_of_leaving (s : TabletState) (tool : ToolRef)
    (h : s.status.leaving_proximity = true) :
    tablet_flush_leave s tool =
      (tablet_change_to_left_handed
        { s with changed_axes := ∅,
                 status := { s.status with
                             out_of_proximity := true,
                             leaving_proximity := false } },
       [TabletEvent.proximityOut tool ∅ s.axes]) := by
  simp [tablet_flush_leave, h]

/-- The leaving block without LEAVING_PROXIMITY does nothing. -/
lemma tablet_flush_leave_of_not (s : TabletState) (tool : ToolRef)
    (h : s.status.leaving_proximity = false) :
    tablet_flush_leave s tool = (s, []) := by
  simp [tablet_flush_leave, h]

/-- The flush changes lh_enabled only by reaching the leaving block, which
has just set OUT_OF_PROXIMITY and emitted the proximity-out event. -/
lemma tablet_flush_lh (atan2deg : ℚ → ℚ → ℚ) (dev : TabletDevice)
    (s : TabletState)
    (hne : (tablet_flush atan2deg dev s).1.lh_enabled ≠ s.lh_enabled) :
    (tablet_flush atan2deg dev s).1.status.out_of_proximity = true ∧
    ∃ tl ax, TabletEvent.proximityOut tl ∅ ax ∈ (tablet_flush atan2deg dev s).2 := by
  by_cases hout : s.status.out_of_proximity = true
  · exfalso
    apply hne
    rw [tablet_flush_of_out atan2deg dev s hout]
  · rw [tablet_flush_of_in atan2deg dev s (by simpa using hout)] at hne ⊢
    rw [tablet_flush_body_eq] at hne ⊢
    have hlh3 : (tablet_flush_pressed (tablet_flush_released
        (tablet_flush_axes atan2deg dev s
          ⟨s.current_tool_type, s.current_tool_serial⟩).1
        ⟨s.current_tool_type, s.current_tool_serial⟩).1
        ⟨s.current_tool_type, s.current_tool_serial⟩).1.lh_enabled
        = s.lh_enabled := by
      rw [(tablet_flush_pressed_preserves _ _).1,
        (tablet_flush_released_preserves _ _).1,
        (tablet_flush_axes_preserves atan2deg dev s _).1]
    generalize hp : tablet_flush_pressed (tablet_flush_released
        (tablet_flush_axes atan2deg dev s
          ⟨s.current_tool_type, s.current_tool_serial⟩).1
        ⟨s.current_tool_type, s.current_tool_serial⟩).1
        ⟨s.current_tool_type, s.current_tool_serial⟩ = p at hne hlh3 ⊢
    by_cases hleave : p.1.status.leaving_proximity = true
    · rw [tablet_flush_leave_of_leaving p.1 _ hleave]
      constructor
      · rw [(tablet_change_to_left_handed_preserves _).1]
      · exact ⟨⟨s.current_tool_type, s.current_tool_serial⟩, p.1.axes, by simp⟩
    · rw [tablet_flush_leave_of_not p.1 _ (by simpa using hleave)] at hne
      exact absurd hlh3 hne

/-- C8: in every tablet processing step, a change of the effective
left-handed flag implies that the tablet is out of proximity afterwards;
for a frame step the change can only happen in the frame that emitted the
proximity-out event, and for the configuration step (which records the
wanted value and calls tablet_change_to_left_handed) a change implies the
tool was already out of proximity — so while a tool is in proximity the
enabled flag never changes and the configuration stays deferred. -/
theorem tablet_left_handed_deferred (atan2deg : ℚ → ℚ → ℚ)
    (dev : TabletDevice) (s : TabletState) (f : List TabletRawEvent) :
    ((tablet_process_frame atan2deg dev s f).1.lh_enabled ≠ s.lh_enabled →
      (tablet_process_frame atan2deg dev s f).1.status.out_of_proximity = true ∧
      ∃ tl ax, TabletEvent.proximityOut tl ∅ ax ∈
        (tablet_process_frame atan2deg dev s f).2)
    ∧ (∀ want : Bool,
        (tablet_set_left_handed s want).lh_enabled ≠ s.lh_enabled →
        s.status.out_of_proximity = true) := by
  constructor
  · intro hne
    have hfold := (tablet_process_events_preserves dev f s).1
    have hflush := tablet_flush_lh atan2deg dev
      (f.foldl (tablet_process_event dev) s)
    simp only [tablet_process_frame, tablet_reset_state] at hne ⊢
    rw [hfold] at hflush
    exact hflush hne
  · intro want hne
    have h : (tablet_change_to_left_handed
        { s with lh_want_enabled := want }).lh_enabled ≠
        ({ s with lh_want_enabled := want } : TabletState).lh_enabled := by
      simpa [tablet_set_left_handed] using hne
    have := tablet_change_to_left_handed_out _ h
    simpa using this

/-- Witness for tablet_left_handed_deferred: with a pen in proximity
(after processing its tool frame from the initial state) the configuration
step leaves lh_enabled unchanged; formally the theorem's configuration
conjunct applied to a state with a pending change and the tool out of
proximity concludes out-of-proximity. -/
theorem tablet_left_handed_deferred_witness :
    (tablet_init ⟨fun _ => true, true, fun _ => 0, fun _ => 100, 1⟩
      (fun _ => 0)).status.out_of_proximity = true := by
  have h := (tablet_left_handed_deferred (fun _ _ => 0)
    ⟨fun _ => true, true, fun _ => 0, fun _ => 100, 1⟩
    { tablet_init ⟨fun _ => true, true, fun _ => 0, fun _ => 100, 1⟩
        (fun _ => 0) with lh_want_enabled := true } []).2 true
  have hconc := h (by decide)
  simpa using hconc

/-- convert_tilt_to_rotation only writes the rotation entry of the axis
array. -/
lemma convert_tilt_to_rotation_axes_ne (atan2deg : ℚ → ℚ → ℚ)
    (s : TabletState) (b : TabletAxis) (hb : b ≠ .ROTATION_Z) :
    (convert_tilt_to_rotation atan2deg s).axes b = s.axes b := by
  simp only [convert_tilt_to_rotation, Function.update]
  rw [dif_neg hb]

/-- The changed mask after convert_tilt_to_rotation. -/
lemma convert_tilt_to_rotation_changed (atan2deg : ℚ → ℚ → ℚ)
    (s : TabletState) :
    (convert_tilt_to_rotation atan2deg s).changed_axes =
      insert .ROTATION_Z ((s.changed_axes.erase .TILT_X).erase .TILT_Y) := rfl

/-- A loop step for axis a writes the threaded axis array only at a. -/
lemma check_notify_step_axes_ne (atan2deg : ℚ → ℚ → ℚ) (dev : TabletDevice)
    (acc : NotifyAcc) (a b : TabletAxis) (hba : b ≠ a) :
    (check_notify_step atan2deg dev acc a).st.axes b = acc.st.axes b := by
  simp only [check_notify_step]
  split_ifs with h1 h2 h3
  all_goals first
    | rfl
    | (exact convert_tilt_to_rotation_axes_ne atan2deg acc.st b
        (by rw [← h2.1]; exact hba))
    | (simp only [Function.update]; rw [dif_neg hba])

/-- Fold version of check_notify_step_axes_ne. -/
lemma check_notify_fold_axes_ne (atan2deg : ℚ → ℚ → ℚ) (dev : TabletDevice)
    (l : List TabletAxis) (b : TabletAxis) (hb : ∀ a ∈ l, b ≠ a) :
    ∀ acc : NotifyAcc,
    (l.foldl (check_notify_step atan2deg dev) acc).st.axes b = acc.st.axes b := by
  induction l with
  | nil => intro acc; rfl
  | cons a l ih =>
    intro acc
    simp only [List.foldl_cons]
    rw [ih (fun x hx => hb x (List.mem_cons_of_mem a hx))]
    exact check_notify_step_axes_ne atan2deg dev acc a b (hb a (List.mem_cons_self a l))

/-- A loop step for axis a writes the outgoing snapshot only at a, except
the rotation step which also zeroes the two tilt entries. -/
lemma check_notify_step_axesOut_ne (atan2deg : ℚ → ℚ → ℚ)
    (dev : TabletDevice) (acc : NotifyAcc) (a b : TabletAxis) (hba : b ≠ a)
    (ht1 : b ≠ .TILT_X) (ht2 : b ≠ .TILT_Y) :
    (check_notify_step atan2deg dev acc a).axesOut b = acc.axesOut b := by
  simp only [check_notify_step]
  split_ifs with h1 h2 h3
  all_goals first
    | (simp only [Function.update]; rw [dif_neg hba, dif_neg ht2, dif_neg ht1])
    | (simp only [Function.update]; rw [dif_neg hba])

/-- Fold version of check_notify_step_axesOut_ne. -/
lemma check_notify_fold_axesOut_ne (atan2deg : ℚ → ℚ → ℚ)
    (dev : TabletDevice) (l : List TabletAxis) (b : TabletAxis)
    (hb : ∀ a ∈ l, b ≠ a) (ht1 : b ≠ .TILT_X) (ht2 : b ≠ .TILT_Y) :
    ∀ acc : NotifyAcc,
    (l.foldl (check_notify_step atan2deg dev) acc).axesOut b = acc.axesOut b := by
  induction l with
  | nil => intro acc; rfl
  | cons a l ih =>
    intro acc
    simp only [List.foldl_cons]
    rw [ih (fun x hx => hb x (List.mem_cons_of_mem a hx))]
    exact check_notify_step_axesOut_ne atan2deg dev acc a b
      (hb a (List.mem_cons_self a l)) ht1 ht2

/-- A loop step for an axis other than ROTATION_Z leaves the changed mask
untouched. -/
lemma check_notify_step_changed_eq (atan2deg : ℚ → ℚ → ℚ)
    (dev : TabletDevice) (acc : NotifyAcc) (a : TabletAxis)
    (ha : a ≠ .ROTATION_Z) :
    (check_notify_step atan2deg dev acc a).st.changed_axes
      = acc.st.changed_axes := by
  simp only [check_notify_step]
  split_ifs with h1 h2 h3
  all_goals first
    | rfl
    | exact absurd h2.1 ha

/-- Fold version of check_notify_step_changed_eq. -/
lemma check_notify_fold_changed_eq (atan2deg : ℚ → ℚ → ℚ)
    (dev : TabletDevice) (l : List TabletAxis)
    (hl : ∀ a ∈ l, a ≠ TabletAxis.ROTATION_Z) :
    ∀ acc : NotifyAcc,
    (l.foldl (check_notify_step atan2deg dev) acc).st.changed_axes
      = acc.st.changed_axes := by
  induction l with
  | nil => intro acc; rfl
  | cons a l ih =>
    intro acc
    simp only [List.foldl_cons]
    rw [ih (fun x hx => hl x (List.mem_cons_of_mem a hx))]
    exact check_notify_step_changed_eq atan2deg dev acc a
      (hl a (List.mem_cons_self a l))

/-- Membership of an axis other than ROTATION_Z, TILT_X and TILT_Y in the
changed mask survives every loop step. -/
lemma check_notify_step_changed_iff (atan2deg : ℚ → ℚ → ℚ)
    (dev : TabletDevice) (acc : NotifyAcc) (a b : TabletAxis)
    (hb1 : b ≠ .ROTATION_Z) (hb2 : b ≠ .TILT_X) (hb3 : b ≠ .TILT_Y) :
    (b ∈ (check_notify_step atan2deg dev acc a).st.changed_axes ↔
     b ∈ acc.st.changed_axes) := by
  simp only [check_notify_step]
  split_ifs with h1 h2 h3
  all_goals first
    | exact Iff.rfl
    | (rw [convert_tilt_to_rotation_changed]
       simp [Finset.mem_insert, Finset.mem_erase, hb1, hb2, hb3])

/-- Fold version of check_notify_step_changed_iff. -/
lemma check_notify_fold_changed_iff (atan2deg : ℚ → ℚ → ℚ)
    (dev : TabletDevice) (l : List TabletAxis) (b : TabletAxis)
    (hb1 : b ≠ .ROTATION_Z) (hb2 : b ≠ .TILT_X) (hb3 : b ≠ .TILT_Y) :
    ∀ acc : NotifyAcc,
    (b ∈ (l.foldl (check_notify_step atan2deg dev) acc).st.changed_axes ↔
     b ∈ acc.st.changed_axes) := by
  induction l with
  | nil => intro acc; exact Iff.rfl
  | cons a l ih =>
    intro acc
    simp only [List.foldl_cons]
    exact (ih _).trans (check_notify_step_changed_iff atan2deg dev acc a b hb1 hb2 hb3)

/-- The loop step at PRESSURE or DISTANCE: when the axis is marked changed
it renormalizes the raw value into the state and the snapshot and flags
the update; otherwise it copies the stored value into the snapshot and
leaves the state alone. -/
lemma check_notify_step_pds (atan2deg : ℚ → ℚ → ℚ) (dev : TabletDevice)
    (acc : NotifyAcc) (a : TabletAxis)
    (ha : a = TabletAxis.PRESSURE ∨ a = TabletAxis.DISTANCE) :
    (a ∈ acc.st.changed_axes →
      (check_notify_step atan2deg dev acc a).st.axes a
          = normalize_pressure_dist_slider (absInfo dev acc.st a)
      ∧ (check_notify_step atan2deg dev acc a).axesOut a
          = normalize_pressure_dist_slider (absInfo dev acc.st a)
      ∧ (check_notify_step atan2deg dev acc a).needed = true)
    ∧ (a ∉ acc.st.changed_axes →
      (check_notify_step atan2deg dev acc a).st = acc.st
      ∧ (check_notify_step atan2deg dev acc a).axesOut a = acc.st.axes a
      ∧ (check_notify_step atan2deg dev acc a).needed = acc.needed) := by
  constructor
  · intro hmem
    rcases ha with h | h <;> subst h <;>
      simp [check_notify_step, hmem, Function.update]
  · intro hmem
    rcases ha with h | h <;> subst h <;>
      simp [check_notify_step, hmem, Function.update]

/-- Running the loop over a decomposition pre ++ a :: post for a equal to
PRESSURE or DISTANCE: the stored and reported values of a are the
renormalized raw value when a is marked changed and the untouched stored
value otherwise; a changed a forces an update; membership of a in the
changed mask is unchanged by the loop. -/
lemma check_notify_loop_pds (atan2deg : ℚ → ℚ → ℚ) (dev : TabletDevice)
    (a : TabletAxis) (pre post : List TabletAxis) (acc0 : NotifyAcc)
    (ha : a = TabletAxis.PRESSURE ∨ a = TabletAxis.DISTANCE)
    (hpre1 : ∀ b ∈ pre, a ≠ b)
    (hpre2 : ∀ b ∈ pre, b ≠ TabletAxis.ROTATION_Z)
    (hpost1 : ∀ b ∈ post, a ≠ b) :
    ((pre ++ a :: post).foldl (check_notify_step atan2deg dev) acc0).st.axes a
      = (if a ∈ acc0.st.changed_axes
         then normalize_pressure_dist_slider (absInfo dev acc0.st a)
         else acc0.st.axes a)
    ∧ ((pre ++ a :: post).foldl (check_notify_step atan2deg dev) acc0).axesOut a
      = (if a ∈ acc0.st.changed_axes
         then normalize_pressure_dist_slider (absInfo dev acc0.st a)
         else acc0.st.axes a)
    ∧ (a ∈ acc0.st.changed_axes →
       ((pre ++ a :: post).foldl (check_notify_step atan2deg dev) acc0).needed = true)
    ∧ (a ∈ ((pre ++ a :: post).foldl (check_notify_step atan2deg dev) acc0).st.changed_axes
       ↔ a ∈ acc0.st.changed_axes) := by
  obtain ⟨haRot, haTX, haTY⟩ :
      a ≠ TabletAxis.ROTATION_Z ∧ a ≠ TabletAxis.TILT_X ∧ a ≠ TabletAxis.TILT_Y := by
    rcases ha with h | h <;> subst h <;> exact ⟨by decide, by decide, by decide⟩
  rw [List.foldl_append, List.foldl_cons]
  have h1 : (pre.foldl (check_notify_step atan2deg dev) acc0).st.axes a
      = acc0.st.axes a :=
    check_notify_fold_axes_ne atan2deg dev pre a hpre1 acc0
  have h2 : (pre.foldl (check_notify_step atan2deg dev) acc0).st.changed_axes
      = acc0.st.changed_axes :=
    check_notify_fold_changed_eq atan2deg dev pre hpre2 acc0
  have h3 := check_notify_fold_preserves atan2deg dev pre acc0
  have habs : absInfo dev (pre.foldl (check_notify_step atan2deg dev) acc0).st a
      = absInfo dev acc0.st a := by
    simp [absInfo, h3.2.2.2.2.2.2.1]
  generalize hacc1 : pre.foldl (check_notify_step atan2deg dev) acc0 = acc1 at h1 h2 habs
  have hstep : (check_notify_step atan2deg dev acc1 a).st.axes a
        = (if a ∈ acc0.st.changed_axes
           then normalize_pressure_dist_slider (absInfo dev acc0.st a)
           else acc0.st.axes a)
      ∧ (check_notify_step atan2deg dev acc1 a).axesOut a
        = (if a ∈ acc0.st.changed_axes
           then normalize_pressure_dist_slider (absInfo dev acc0.st a)
           else acc0.st.axes a)
      ∧ (a ∈ acc0.st.changed_axes →
         (check_notify_step atan2deg dev acc1 a).needed = true)
      ∧ (a ∈ (check_notify_step atan2deg dev acc1 a).st.changed_axes
         ↔ a ∈ acc0.st.changed_axes) := by
    by_cases hmem : a ∈ acc0.st.changed_axes
    · have h := (check_notify_step_pds atan2deg dev acc1 a ha).1
        (by rw [h2]; exact hmem)
      refine ⟨?_, ?_, fun _ => h.2.2, ?_⟩
      · rw [if_pos hmem, h.1, habs]
      · rw [if_pos hmem, h.2.1, habs]
      · rw [check_notify_step_changed_eq atan2deg dev acc1 a haRot, h2]
    · have h := (check_notify_step_pds atan2deg dev acc1 a ha).2
        (by rw [h2]; exact hmem)
      refine ⟨?_, ?_, fun hm => absurd hm hmem, ?_⟩
      · rw [if_neg hmem, h.1, h1]
      · rw [if_neg hmem, h.2.1, h1]
      · rw [h.1, h2]
  generalize hacc2 : check_notify_step atan2deg dev acc1 a = acc2 at hstep
  have hax3 : (post.foldl (check_notify_step atan2deg dev) acc2).st.axes a
      = acc2.st.axes a :=
    check_notify_fold_axes_ne atan2deg dev post a hpost1 acc2
  have hout3 : (post.foldl (check_notify_step atan2deg dev) acc2).axesOut a
      = acc2.axesOut a :=
    check_notify_fold_axesOut_ne atan2deg dev post a hpost1 haTX haTY acc2
  have hch3 : a ∈ (post.foldl (check_notify_step atan2deg dev) acc2).st.changed_axes
      ↔ a ∈ acc2.st.changed_axes :=
    check_notify_fold_changed_iff atan2deg dev post a haRot haTX haTY acc2
  refine ⟨?_, ?_, ?_, ?_⟩
  · rw [hax3, hstep.1]
  · rw [hout3, hstep.2.1]
  · intro hm
    exact check_notify_fold_needed_mono atan2deg dev post acc2 (hstep.2.2.1 hm)
  · rw [hch3, hstep.2.2.2]

/-- Check-notify level version of check_notify_loop_pds (a is PRESSURE or
DISTANCE), with the payload of the emitted event and the emission
guarantee. -/
lemma tablet_check_notify_axes_pds (atan2deg : ℚ → ℚ → ℚ)
    (dev : TabletDevice) (s : TabletState) (tool : ToolRef) (a : TabletAxis)
    (ha : a = TabletAxis.PRESSURE ∨ a = TabletAxis.DISTANCE) :
    (tablet_check_notify_axes atan2deg dev s tool).1.axes a
      = (if a ∈ s.changed_axes
         then normalize_pressure_dist_slider (absInfo dev s a) else s.axes a)
    ∧ (∀ tl ch ax, TabletEvent.proximityIn tl ch ax
        ∈ (tablet_check_notify_axes atan2deg dev s tool).2 →
        (a ∈ ch ↔ a ∈ s.changed_axes) ∧
        ax a = (if a ∈ s.changed_axes
                then normalize_pressure_dist_slider (absInfo dev s a) else s.axes a))
    ∧ (∀ tl ch ax d dd, TabletEvent.axisUpdate tl ch ax d dd
        ∈ (tablet_check_notify_axes atan2deg dev s tool).2 →
        (a ∈ ch ↔ a ∈ s.changed_axes) ∧
        ax a = (if a ∈ s.changed_axes
                then normalize_pressure_dist_slider (absInfo dev s a) else s.axes a))
    ∧ (a ∈ s.changed_axes → s.status.out_of_proximity = false →
        s.status.leaving_proximity = false →
        (tablet_check_notify_axes atan2deg dev s tool).2 ≠ []) := by
  have hsplit : tabletAxisList =
      (if a = TabletAxis.PRESSURE then [TabletAxis.X, TabletAxis.Y]
       else [TabletAxis.X, TabletAxis.Y, TabletAxis.PRESSURE]) ++ a ::
      (if a = TabletAxis.PRESSURE then
        [TabletAxis.DISTANCE, TabletAxis.TILT_X, TabletAxis.TILT_Y,
         TabletAxis.SLIDER, TabletAxis.ROTATION_Z, TabletAxis.REL_WHEEL]
       else
        [TabletAxis.TILT_X, TabletAxis.TILT_Y, TabletAxis.SLIDER,
         TabletAxis.ROTATION_Z, TabletAxis.REL_WHEEL]) := by
    rcases ha with h | h <;> subst h <;> rfl
  have hloop := check_notify_loop_pds atan2deg dev a
    (if a = TabletAxis.PRESSURE then [TabletAxis.X, TabletAxis.Y]
     else [TabletAxis.X, TabletAxis.Y, TabletAxis.PRESSURE])
    (if a = TabletAxis.PRESSURE then
      [TabletAxis.DISTANCE, TabletAxis.TILT_X, TabletAxis.TILT_Y,
       TabletAxis.SLIDER, TabletAxis.ROTATION_Z, TabletAxis.REL_WHEEL]
     else
      [TabletAxis.TILT_X, TabletAxis.TILT_Y, TabletAxis.SLIDER,
       TabletAxis.ROTATION_Z, TabletAxis.REL_WHEEL])
    ⟨s, fun _ => 0, fun _ => 0, fun _ => 0, false⟩ ha
    (by rcases ha with h | h <;> subst h <;> simp <;> decide)
    (by rcases ha with h | h <;> subst h <;> simp <;> decide)
    (by rcases ha with h | h <;> subst h <;> simp <;> decide)
  rw [← hsplit] at hloop
  have hst := (check_notify_fold_preserves atan2deg dev tabletAxisList
    ⟨s, fun _ => 0, fun _ => 0, fun _ => 0, false⟩).1
  simp only [tablet_check_notify_axes]
  generalize hacc : tabletAxisList.foldl (check_notify_step atan2deg dev)
    ⟨s, fun _ => 0, fun _ => 0, fun _ => 0, false⟩ = acc
  rw [hacc] at hloop hst
  obtain ⟨hax, hout, hneed, hch⟩ := hloop
  refine ⟨?_, ?_, ?_, ?_⟩
  · simpa using hax
  · intro tl ch ax hmem
    split_ifs at hmem with h1 h2
    · simp only [List.mem_singleton, TabletEvent.proximityIn.injEq] at hmem
      obtain ⟨rfl, rfl, rfl⟩ := hmem
      exact ⟨hch, hout⟩
    · simp at hmem
    · simp at hmem
  · intro tl ch ax d dd hmem
    split_ifs at hmem with h1 h2
    · simp at hmem
    · simp only [List.mem_singleton, TabletEvent.axisUpdate.injEq] at hmem
      obtain ⟨rfl, rfl, rfl, rfl, rfl⟩ := hmem
      exact ⟨hch, hout⟩
    · simp at hmem
  · intro hm hout' hleave'
    rw [if_pos ⟨hneed hm, by rw [hst, hout']; simp, by rw [hst, hleave']; simp⟩]
    split_ifs <;> simp

/-- sanitize_tablet_axes is the rotation-forcing block applied to the
distance/pressure block. -/
lemma sanitize_tablet_axes_eq (dev : TabletDevice) (s : TabletState) :
    sanitize_tablet_axes dev s = sanitize_rot (sanitize_inner dev s) := rfl

/-- The rotation-forcing block leaves the axes array, the raw values and
membership of any non-rotation axis in the changed set untouched. -/
lemma sanitize_rot_facts (s1 : TabletState) :
    (sanitize_rot s1).axes = s1.axes
    ∧ (sanitize_rot s1).absValue = s1.absValue
    ∧ ∀ a : TabletAxis, a ≠ TabletAxis.ROTATION_Z →
        (a ∈ (sanitize_rot s1).changed_axes ↔ a ∈ s1.changed_axes) := by
  simp only [sanitize_rot]
  split_ifs <;>
    simp +contextual [Finset.mem_insert]

/-- Distance branch of sanitize_tablet_axes: with the distance axis
changed and both raw distance and raw pressure above their minima, the
distance change is suppressed and the stored distance zeroed. -/
lemma sanitize_distance_suppressed (dev : TabletDevice) (s : TabletState)
    (hd : TabletAxis.DISTANCE ∈ s.changed_axes)
    (h1 : s.absValue .DISTANCE > dev.absMinimum .DISTANCE)
    (h2 : s.absValue .PRESSURE > dev.absMinimum .PRESSURE) :
    TabletAxis.DISTANCE ∉ (sanitize_tablet_axes dev s).changed_axes
    ∧ (sanitize_tablet_axes dev s).axes .DISTANCE = 0 := by
  have hin : (sanitize_inner dev s).changed_axes
        = s.changed_axes.erase TabletAxis.DISTANCE
      ∧ (sanitize_inner dev s).axes TabletAxis.DISTANCE = 0 := by
    simp only [sanitize_inner, absInfo]
    rw [if_pos ⟨hd, h1, h2⟩]
    simp [Function.update]
  rw [sanitize_tablet_axes_eq]
  refine ⟨?_, ?_⟩
  · rw [(sanitize_rot_facts (sanitize_inner dev s)).2.2
      TabletAxis.DISTANCE (by decide), hin.1]
    simp
  · rw [(sanitize_rot_facts (sanitize_inner dev s)).1, hin.2]

/-- Pressure clamp branch of sanitize_tablet_axes: pressure changed, no
contact, raw pressure at its minimum, stored pressure nonzero: the changed
bit survives and the stored pressure is zeroed. -/
lemma sanitize_pressure_clamp (dev : TabletDevice) (s : TabletState)
    (hp : TabletAxis.PRESSURE ∈ s.changed_axes)
    (hnc : s.status.stylus_in_contact = false)
    (hmin : s.absValue .PRESSURE = dev.absMinimum .PRESSURE)
    (hnz : s.axes .PRESSURE ≠ 0) :
    TabletAxis.PRESSURE ∈ (sanitize_tablet_axes dev s).changed_axes
    ∧ (sanitize_tablet_axes dev s).axes .PRESSURE = 0
    ∧ (sanitize_tablet_axes dev s).absValue = s.absValue := by
  have hin : (sanitize_inner dev s).changed_axes = s.changed_axes
      ∧ (sanitize_inner dev s).axes TabletAxis.PRESSURE = 0
      ∧ (sanitize_inner dev s).absValue = s.absValue := by
    simp only [sanitize_inner, absInfo]
    rw [if_neg (by rw [hmin]; simp), if_pos ⟨hp, by rw [hnc]; simp⟩,
      if_neg hnz]
    simp [Function.update]
  rw [sanitize_tablet_axes_eq]
  refine ⟨?_, ?_, ?_⟩
  · rw [(sanitize_rot_facts (sanitize_inner dev s)).2.2
      TabletAxis.PRESSURE (by decide), hin.1]
    exact hp
  · rw [(sanitize_rot_facts (sanitize_inner dev s)).1, hin.2.1]
  · rw [(sanitize_rot_facts (sanitize_inner dev s)).2.1, hin.2.2]

/-- Pressure suppression branch of sanitize_tablet_axes: pressure changed,
no contact, stored pressure already zero: the changed bit is cleared and
the stored pressure untouched. -/
lemma sanitize_pressure_suppress (dev : TabletDevice) (s : TabletState)
    (hp : TabletAxis.PRESSURE ∈ s.changed_axes)
    (hnc : s.status.stylus_in_contact = false)
    (hnd : ¬(TabletAxis.DISTANCE ∈ s.changed_axes ∧
        s.absValue .DISTANCE > dev.absMinimum .DISTANCE ∧
        s.absValue .PRESSURE > dev.absMinimum .PRESSURE))
    (hz : s.axes .PRESSURE = 0) :
    TabletAxis.PRESSURE ∉ (sanitize_tablet_axes dev s).changed_axes
    ∧ (sanitize_tablet_axes dev s).axes .PRESSURE = 0 := by
  have hin : (sanitize_inner dev s).changed_axes
        = s.changed_axes.erase TabletAxis.PRESSURE
      ∧ (sanitize_inner dev s).axes TabletAxis.PRESSURE = 0 := by
    simp only [sanitize_inner, absInfo]
    rw [if_neg (by simpa using hnd), if_pos ⟨hp, by rw [hnc]; simp⟩,
      if_pos hz]
    simp [hz]
  rw [sanitize_tablet_axes_eq]
  refine ⟨?_, ?_⟩
  · rw [(sanitize_rot_facts (sanitize_inner dev s)).2.2
      TabletAxis.PRESSURE (by decide), hin.1]
    simp
  · rw [(sanitize_rot_facts (sanitize_inner dev s)).1, hin.2]

/-- Axes block of the flush when axes were updated and the tool is not
leaving: the resulting axes array and event list are those of
check_notify run on the sanitized state, and the leaving flag is
untouched. -/
lemma tablet_flush_axes_update_facts (atan2deg : ℚ → ℚ → ℚ)
    (dev : TabletDevice) (s : TabletState) (tool : ToolRef)
    (hleave : s.status.leaving_proximity = false)
    (hupd : s.status.axes_updated = true) :
    (tablet_flush_axes atan2deg dev s tool).1.axes
      = (tablet_check_notify_axes atan2deg dev (sanitize_tablet_axes dev s)
          tool).1.axes
    ∧ (tablet_flush_axes atan2deg dev s tool).2
      = (tablet_check_notify_axes atan2deg dev (sanitize_tablet_axes dev s)
          tool).2
    ∧ (tablet_flush_axes atan2deg dev s tool).1.status.leaving_proximity
      = s.status.leaving_proximity := by
  have hpresC := tablet_check_notify_axes_preserves atan2deg dev
    (sanitize_tablet_axes dev s) tool
  have hpresS := sanitize_tablet_axes_preserves dev s
  simp only [tablet_flush_axes]
  generalize hr : tablet_check_notify_axes atan2deg dev
    (sanitize_tablet_axes dev s) tool = r
  rw [hr] at hpresC
  split_ifs with h1 h2
  · rw [hleave] at h1
    exact Bool.noConfusion h1
  · refine ⟨rfl, rfl, ?_⟩
    show r.1.status.leaving_proximity = s.status.leaving_proximity
    rw [hpresC.1, hpresS.1]
  · exact absurd (Or.inl hupd) h2

/-- Every event of the released block is a button event of the flushing
tool. -/
lemma tablet_flush_released_button_events (s : TabletState) (tool : ToolRef)
    (ev : TabletEvent) (h : ev ∈ (tablet_flush_released s tool).2) :
    ∃ c b, ev = TabletEvent.button tool c b := by
  simp only [tablet_flush_released] at h
  split_ifs at h
  · rcases List.mem_map.mp h with ⟨c, _, rfl⟩
    exact ⟨c, false, rfl⟩
  · simp at h

/-- Every event of the pressed block is a button event of the flushing
tool. -/
lemma tablet_flush_pressed_button_events (s : TabletState) (tool : ToolRef)
    (ev : TabletEvent) (h : ev ∈ (tablet_flush_pressed s tool).2) :
    ∃ c b, ev = TabletEvent.button tool c b := by
  simp only [tablet_flush_pressed] at h
  split_ifs at h
  · rcases List.mem_map.mp h with ⟨c, _, rfl⟩
    exact ⟨c, true, rfl⟩
  · simp at h

/-- The event list of tablet_check_notify_axes is empty, one proximity-in
(only while entering), or one axis update. -/
lemma tablet_check_notify_axes_form (atan2deg : ℚ → ℚ → ℚ)
    (dev : TabletDevice) (s : TabletState) (tool : ToolRef) :
    (tablet_check_notify_axes atan2deg dev s tool).2 = []
    ∨ (∃ ch ax, (tablet_check_notify_axes atan2deg dev s tool).2
        = [TabletEvent.proximityIn tool ch ax]
        ∧ s.status.entering_proximity = true)
    ∨ (∃ ch ax d dd, (tablet_check_notify_axes atan2deg dev s tool).2
        = [TabletEvent.axisUpdate tool ch ax d dd]) := by
  have hst := (check_notify_fold_preserves atan2deg dev tabletAxisList
    ⟨s, fun _ => 0, fun _ => 0, fun _ => 0, false⟩).1
  simp only [tablet_check_notify_axes]
  generalize hacc : tabletAxisList.foldl (check_notify_step atan2deg dev)
    ⟨s, fun _ => 0, fun _ => 0, fun _ => 0, false⟩ = acc
  rw [hacc] at hst
  split_ifs with h1 h2
  · exact Or.inr (Or.inl ⟨_, _, rfl, by rw [← hst]; exact h2⟩)
  · exact Or.inr (Or.inr ⟨_, _, _, _, rfl⟩)
  · exact Or.inl rfl

/-- With the leaving flag clear, the three trailing blocks of the flush
keep the axes array, the leaving block stays silent, and the button
blocks emit only button events. -/
lemma tablet_flush_tail_facts (t : TabletState) (tool : ToolRef)
    (hleave : t.status.leaving_proximity = false) :
    (tablet_flush_leave (tablet_flush_pressed (tablet_flush_released t
        tool).1 tool).1 tool).1.axes = t.axes
    ∧ (tablet_flush_leave (tablet_flush_pressed (tablet_flush_released t
        tool).1 tool).1 tool).2 = []
    ∧ ∀ ev ∈ (tablet_flush_released t tool).2 ++
        (tablet_flush_pressed (tablet_flush_released t tool).1 tool).2,
        ∃ c b, ev = TabletEvent.button tool c b := by
  have h2 := tablet_flush_released_preserves t tool
  have h3 := tablet_flush_pressed_preserves (tablet_flush_released t tool).1
    tool
  have hlv : (tablet_flush_pressed (tablet_flush_released t tool).1
      tool).1.status.leaving_proximity = false := by
    rw [h3.2.2.2.2.2.2.2.2.2.1, h2.2.2.2.2.2.2.2.2.2.1, hleave]
  rw [tablet_flush_leave_of_not _ tool hlv]
  refine ⟨?_, rfl, ?_⟩
  · show (tablet_flush_pressed (tablet_flush_released t tool).1
      tool).1.axes = t.axes
    rw [h3.2.2.2.2.2.1, h2.2.2.2.2.2.1]
  · intro ev hmem
    rcases List.mem_append.mp hmem with h | h
    · exact tablet_flush_released_button_events t tool ev h
    · exact tablet_flush_pressed_button_events _ tool ev h

/-- A flush in proximity with updated axes and no leaving: the final axes
are check_notify's on the sanitized state, and the trace is
check_notify's events followed by button events only. -/
lemma tablet_flush_update_eq (atan2deg : ℚ → ℚ → ℚ) (dev : TabletDevice)
    (s : TabletState)
    (hout : s.status.out_of_proximity = false)
    (hleave : s.status.leaving_proximity = false)
    (hupd : s.status.axes_updated = true) :
    (tablet_flush atan2deg dev s).1.axes
      = (tablet_check_notify_axes atan2deg dev (sanitize_tablet_axes dev s)
          ⟨s.current_tool_type, s.current_tool_serial⟩).1.axes
    ∧ ∃ tail,
        (tablet_flush atan2deg dev s).2
          = (tablet_check_notify_axes atan2deg dev (sanitize_tablet_axes
              dev s) ⟨s.current_tool_type, s.current_tool_serial⟩).2 ++ tail
        ∧ ∀ ev ∈ tail, ∃ c b,
            ev = TabletEvent.button
              ⟨s.current_tool_type, s.current_tool_serial⟩ c b := by
  have hA := tablet_flush_axes_update_facts atan2deg dev s
    ⟨s.current_tool_type, s.current_tool_serial⟩ hleave hupd
  have htail := tablet_flush_tail_facts
    (tablet_flush_axes atan2deg dev s
      ⟨s.current_tool_type, s.current_tool_serial⟩).1
    ⟨s.current_tool_type, s.current_tool_serial⟩
    (by rw [hA.2.2]; exact hleave)
  rw [tablet_flush_of_in atan2deg dev s hout]
  simp only [tablet_flush_body]
  refine ⟨(htail.1).trans hA.1, _, ?_, htail.2.2⟩
  rw [htail.2.1, hA.2.1, List.append_nil, List.append_assoc]

/-- As long as the stored pressure is nonzero, sanitize_tablet_axes keeps
the pressure axis membership of the changed set unchanged. -/
lemma sanitize_pressure_mem (dev : TabletDevice) (s : TabletState)
    (hnz : s.axes .PRESSURE ≠ 0) :
    TabletAxis.PRESSURE ∈ (sanitize_tablet_axes dev s).changed_axes
      ↔ TabletAxis.PRESSURE ∈ s.changed_axes := by
  rw [sanitize_tablet_axes_eq,
    (sanitize_rot_facts (sanitize_inner dev s)).2.2 TabletAxis.PRESSURE
      (by decide)]
  simp only [sanitize_inner, absInfo]
  split_ifs
  all_goals first
    | exact absurd ‹s.axes TabletAxis.PRESSURE = 0› hnz
    | simp [Finset.mem_erase]

/-- C2 (amended).  Pressure/distance mutual exclusion across one flush of
the tablet dispatcher, for a tool in proximity with updated axes and not
leaving.  (a) When the distance axis changed and both raw distance and raw
pressure are above their minima, the distance change is suppressed: the
final stored distance is 0, and every emitted proximity-in or axis-update
event reports distance 0 without the distance bit.  (b) When the pressure
axis changed, the stylus is not in contact, the raw pressure is at its
minimum and the stored pressure was nonzero, pressure is clamped to
exactly 0: the final stored pressure is 0, every emitted proximity-in or
axis-update event carries the pressure bit with value 0, and (when no tool
is entering) an axis-update event is emitted.  (c) When the pressure axis
changed, the stylus is not in contact, the stored pressure is already 0
and the distance branch does not fire, the pressure change is suppressed:
the bit is cleared and every emitted event reports pressure 0 without the
bit.  The original claim, which asserts the clamp of (b) for every
pressure change without contact, fails when the raw pressure is above its
minimum: the per-axis loop recomputes the normalized raw value and
overwrites the sanitized 0 (tablet_pressure_clamp_counterexample). -/
theorem tablet_pressure_distance_exclusion (atan2deg : ℚ → ℚ → ℚ)
    (dev : TabletDevice) (s : TabletState)
    (hout : s.status.out_of_proximity = false)
    (hleave : s.status.leaving_proximity = false)
    (hupd : s.status.axes_updated = true) :
    (TabletAxis.DISTANCE ∈ s.changed_axes →
     s.absValue .DISTANCE > dev.absMinimum .DISTANCE →
     s.absValue .PRESSURE > dev.absMinimum .PRESSURE →
       (tablet_flush atan2deg dev s).1.axes .DISTANCE = 0
       ∧ (∀ tl ch ax, TabletEvent.proximityIn tl ch ax
            ∈ (tablet_flush atan2deg dev s).2 →
            TabletAxis.DISTANCE ∉ ch ∧ ax .DISTANCE = 0)
       ∧ (∀ tl ch ax d dd, TabletEvent.axisUpdate tl ch ax d dd
            ∈ (tablet_flush atan2deg dev s).2 →
            TabletAxis.DISTANCE ∉ ch ∧ ax .DISTANCE = 0))
    ∧ (TabletAxis.PRESSURE ∈ s.changed_axes →
       s.status.stylus_in_contact = false →
       s.absValue .PRESSURE = dev.absMinimum .PRESSURE →
       s.axes .PRESSURE ≠ 0 →
         (tablet_flush atan2deg dev s).1.axes .PRESSURE = 0
         ∧ (∀ tl ch ax, TabletEvent.proximityIn tl ch ax
              ∈ (tablet_flush atan2deg dev s).2 →
              TabletAxis.PRESSURE ∈ ch ∧ ax .PRESSURE = 0)
         ∧ (∀ tl ch ax d dd, TabletEvent.axisUpdate tl ch ax d dd
              ∈ (tablet_flush atan2deg dev s).2 →
              TabletAxis.PRESSURE ∈ ch ∧ ax .PRESSURE = 0)
         ∧ (s.status.entering_proximity = false →
             ∃ ch ax d dd, TabletEvent.axisUpdate
               ⟨s.current_tool_type, s.current_tool_serial⟩ ch ax d dd
               ∈ (tablet_flush atan2deg dev s).2))
    ∧ (TabletAxis.PRESSURE ∈ s.changed_axes →
       s.status.stylus_in_contact = false →
       s.axes .PRESSURE = 0 →
       ¬(TabletAxis.DISTANCE ∈ s.changed_axes ∧
          s.absValue .DISTANCE > dev.absMinimum .DISTANCE ∧
          s.absValue .PRESSURE > dev.absMinimum .PRESSURE) →
         (tablet_flush atan2deg dev s).1.axes .PRESSURE = 0
         ∧ (∀ tl ch ax, TabletEvent.proximityIn tl ch ax
              ∈ (tablet_flush atan2deg dev s).2 →
              TabletAxis.PRESSURE ∉ ch ∧ ax .PRESSURE = 0)
         ∧ (∀ tl ch ax d dd, TabletEvent.axisUpdate tl ch ax d dd
              ∈ (tablet_flush atan2deg dev s).2 →
              TabletAxis.PRESSURE ∉ ch ∧ ax .PRESSURE = 0)) := by
  obtain ⟨hax, tail, hev, htail⟩ :=
    tablet_flush_update_eq atan2deg dev s hout hleave hupd
  have hpresS := sanitize_tablet_axes_preserves dev s
  refine ⟨?_, ?_, ?_⟩
  · intro hd h1 h2
    have hsan := sanitize_distance_suppressed dev s hd h1 h2
    have hpds := tablet_check_notify_axes_pds atan2deg dev
      (sanitize_tablet_axes dev s)
      ⟨s.current_tool_type, s.current_tool_serial⟩ TabletAxis.DISTANCE
      (Or.inr rfl)
    refine ⟨?_, ?_, ?_⟩
    · rw [hax, hpds.1, if_neg hsan.1, hsan.2]
    · intro tl ch ax hmem
      rw [hev] at hmem
      rcases List.mem_append.mp hmem with hm | hm
      · have h := hpds.2.1 tl ch ax hm
        exact ⟨fun hc => hsan.1 (h.1.mp hc),
          by rw [h.2, if_neg hsan.1, hsan.2]⟩
      · obtain ⟨c, b, hcb⟩ := htail _ hm
        simp at hcb
    · intro tl ch ax d dd hmem
      rw [hev] at hmem
      rcases List.mem_append.mp hmem with hm | hm
      · have h := hpds.2.2.1 tl ch ax d dd hm
        exact ⟨fun hc => hsan.1 (h.1.mp hc),
          by rw [h.2, if_neg hsan.1, hsan.2]⟩
      · obtain ⟨c, b, hcb⟩ := htail _ hm
        simp at hcb
  · intro hp hnc hmin hnz
    have hsan := sanitize_pressure_clamp dev s hp hnc hmin hnz
    have hpds := tablet_check_notify_axes_pds atan2deg dev
      (sanitize_tablet_axes dev s)
      ⟨s.current_tool_type, s.current_tool_serial⟩ TabletAxis.PRESSURE
      (Or.inl rfl)
    have hzero : normalize_pressure_dist_slider
        (absInfo dev (sanitize_tablet_axes dev s) TabletAxis.PRESSURE)
        = 0 := by
      simp only [normalize_pressure_dist_slider, absInfo, hsan.2.2, hmin]
      simp
    refine ⟨?_, ?_, ?_, ?_⟩
    · rw [hax, hpds.1, if_pos hsan.1, hzero]
    · intro tl ch ax hmem
      rw [hev] at hmem
      rcases List.mem_append.mp hmem with hm | hm
      · have h := hpds.2.1 tl ch ax hm
        exact ⟨h.1.mpr hsan.1, by rw [h.2, if_pos hsan.1, hzero]⟩
      · obtain ⟨c, b, hcb⟩ := htail _ hm
        simp at hcb
    · intro tl ch ax d dd hmem
      rw [hev] at hmem
      rcases List.mem_append.mp hmem with hm | hm
      · have h := hpds.2.2.1 tl ch ax d dd hm
        exact ⟨h.1.mpr hsan.1, by rw [h.2, if_pos hsan.1, hzero]⟩
      · obtain ⟨c, b, hcb⟩ := htail _ hm
        simp at hcb
    · intro hent
      rcases tablet_check_notify_axes_form atan2deg dev
          (sanitize_tablet_axes dev s)
          ⟨s.current_tool_type, s.current_tool_serial⟩ with
        hform | hform | hform
      · exact absurd hform (hpds.2.2.2 hsan.1
          (by rw [hpresS.1]; exact hout)
          (by rw [hpresS.1]; exact hleave))
      · obtain ⟨ch, ax, hc, he⟩ := hform
        rw [hpresS.1, hent] at he
        exact Bool.noConfusion he
      · obtain ⟨ch, ax, d, dd, hc⟩ := hform
        exact ⟨ch, ax, d, dd,
          by rw [hev, hc]; exact List.mem_append_left _ (by simp)⟩
  · intro hp hnc hz hnd
    have hsan := sanitize_pressure_suppress dev s hp hnc hnd hz
    have hpds := tablet_check_notify_axes_pds atan2deg dev
      (sanitize_tablet_axes dev s)
      ⟨s.current_tool_type, s.current_tool_serial⟩ TabletAxis.PRESSURE
      (Or.inl rfl)
    refine ⟨?_, ?_, ?_⟩
    · rw [hax, hpds.1, if_neg hsan.1, hsan.2]
    · intro tl ch ax hmem
      rw [hev] at hmem
      rcases List.mem_append.mp hmem with hm | hm
      · have h := hpds.2.1 tl ch ax hm
        exact ⟨fun hc => hsan.1 (h.1.mp hc),
          by rw [h.2, if_neg hsan.1, hsan.2]⟩
      · obtain ⟨c, b, hcb⟩ := htail _ hm
        simp at hcb
    · intro tl ch ax d dd hmem
      rw [hev] at hmem
      rcases List.mem_append.mp hmem with hm | hm
      · have h := hpds.2.2.1 tl ch ax d dd hm
        exact ⟨fun hc => hsan.1 (h.1.mp hc),
          by rw [h.2, if_neg hsan.1, hsan.2]⟩
      · obtain ⟨c, b, hcb⟩ := htail _ hm
        simp at hcb

/-- Witness for C2: on the concrete tablet, pressure changed with its raw
value at the minimum while a stale nonzero value is stored and the stylus
is not in contact, the flush stores pressure exactly 0. -/
theorem tablet_pressure_distance_exclusion_witness :
    (tablet_flush atan2degZero tabletDevW tabletStateW).1.axes
      TabletAxis.PRESSURE = 0 :=
  ((tablet_pressure_distance_exclusion atan2degZero tabletDevW tabletStateW
    rfl rfl rfl).2.1 (by decide) rfl rfl (by simp [tabletStateW])).1

/-- Counterexample to the written C2: a raw packet raises the pressure
raw value to 3 (range 0..10) while the stylus is not in contact; the
flush emits an axis update, and every emitted axis update carries the
pressure bit with value 3/10, not the claimed exact 0 (the per-axis loop
renormalizes the raw value over the sanitized 0). -/
theorem tablet_pressure_clamp_counterexample :
    sCexp.status.stylus_in_contact = false
    ∧ TabletAxis.PRESSURE ∈ sCexp.changed_axes
    ∧ sCexp.absValue TabletAxis.PRESSURE
        > tabletDevW.absMinimum TabletAxis.PRESSURE
    ∧ (∃ tl ch ax d dd, TabletEvent.axisUpdate tl ch ax d dd
        ∈ (tablet_flush atan2degZero tabletDevW sCexp).2)
    ∧ (∀ tl ch ax d dd, TabletEvent.axisUpdate tl ch ax d dd
        ∈ (tablet_flush atan2degZero tabletDevW sCexp).2 →
        TabletAxis.PRESSURE ∈ ch ∧ ax TabletAxis.PRESSURE = 3/10)
    ∧ ((3 : ℚ)/10 ≠ 0) := by
  have hp : TabletAxis.PRESSURE ∈ sCexp.changed_axes := by decide
  have hnz : sCexp.axes TabletAxis.PRESSURE ≠ 0 := by
    show (1 : ℚ)/2 ≠ 0
    norm_num
  have hsm : TabletAxis.PRESSURE
      ∈ (sanitize_tablet_axes tabletDevW sCexp).changed_axes :=
    (sanitize_pressure_mem tabletDevW sCexp hnz).mpr hp
  have hpresS := sanitize_tablet_axes_preserves tabletDevW sCexp
  have hpds := tablet_check_notify_axes_pds atan2degZero tabletDevW
    (sanitize_tablet_axes tabletDevW sCexp)
    ⟨sCexp.current_tool_type, sCexp.current_tool_serial⟩
    TabletAxis.PRESSURE (Or.inl rfl)
  obtain ⟨hax, tail, hev, htail⟩ :=
    tablet_flush_update_eq atan2degZero tabletDevW sCexp rfl rfl rfl
  have hval : normalize_pressure_dist_slider
      (absInfo tabletDevW (sanitize_tablet_axes tabletDevW sCexp)
        TabletAxis.PRESSURE) = 3/10 := by
    have h3 : (sanitize_tablet_axes tabletDevW sCexp).absValue
        TabletAxis.PRESSURE = 3 := by
      rw [hpresS.2.2.2.2.2.2.1]
      decide
    have hmin0 : tabletDevW.absMinimum TabletAxis.PRESSURE = 0 := rfl
    have hmax0 : tabletDevW.absMaximum TabletAxis.PRESSURE = 10 := rfl
    simp only [normalize_pressure_dist_slider, absInfo, h3, hmin0, hmax0]
    norm_num
  refine ⟨rfl, hp, by decide, ?_, ?_, by norm_num⟩
  · rcases tablet_check_notify_axes_form atan2degZero tabletDevW
        (sanitize_tablet_axes tabletDevW sCexp)
        ⟨sCexp.current_tool_type, sCexp.current_tool_serial⟩ with
      hf | hf | hf
    · exact absurd hf (hpds.2.2.2 hsm (by rw [hpresS.1]; rfl)
        (by rw [hpresS.1]; rfl))
    · obtain ⟨ch, ax, hc, he⟩ := hf
      rw [hpresS.1] at he
      exact absurd he (by decide)
    · obtain ⟨ch, ax, d, dd, hc⟩ := hf
      exact ⟨⟨sCexp.current_tool_type, sCexp.current_tool_serial⟩, ch, ax, d,
        dd, by rw [hev, hc]; exact List.mem_append_left _ (by simp)⟩
  · intro tl ch ax d dd hmem
    rw [hev] at hmem
    rcases List.mem_append.mp hmem with hm | hm
    · have h := hpds.2.2.1 tl ch ax d dd hm
      exact ⟨h.1.mpr hsm, by rw [h.2, if_pos hsm, hval]⟩
    · obtain ⟨c, b, hcb⟩ := htail _ hm
      simp at hcb

/-- proxProj distributes over append. -/
lemma proxProj_append (l1 l2 : List TabletEvent) :
    proxProj (l1 ++ l2) = proxProj l1 ++ proxProj l2 := by
  induction l1 with
  | nil => rfl
  | cons e l ih => cases e <;> simp [proxProj, ih]

/-- proxRun composes over append through the residual. -/
lemma proxRun_append (l1 l2 : List (Bool × ToolRef)) : ∀ o : Option ToolRef,
    proxRun o (l1 ++ l2) = (proxRun o l1).bind (fun o2 => proxRun o2 l2) := by
  induction l1 with
  | nil => intro o; simp [proxRun]
  | cons e l ih =>
    intro o
    rcases e with ⟨b, t⟩
    rcases o with _ | t'
    · cases b
      · simp [proxRun]
      · simp [proxRun, ih]
    · cases b
      · simp only [List.cons_append, proxRun]
        split_ifs <;> simp [ih, proxRun]
      · simp [proxRun]

/-- buttonsRun composes over append through the residual. -/
lemma buttonsRun_append (l1 l2 : List TabletEvent) : ∀ R : Finset Nat,
    buttonsRun R (l1 ++ l2)
      = (buttonsRun R l1).bind (fun R2 => buttonsRun R2 l2) := by
  induction l1 with
  | nil => intro R; simp [buttonsRun]
  | cons e l ih =>
    intro R
    cases e with
    | proximityIn t ch ax => simp [buttonsRun, ih]
    | proximityOut t ch ax =>
      simp only [List.cons_append, buttonsRun]
      split_ifs <;> simp [ih, buttonsRun]
    | axisUpdate t ch ax d dd => simp [buttonsRun, ih]
    | button t c b => cases b <;> simp [buttonsRun, ih]

/-- A list of button events contributes nothing to the proximity
projection. -/
lemma proxProj_of_buttons (tl : ToolRef) (l : List TabletEvent)
    (h : ∀ ev ∈ l, ∃ c b, ev = TabletEvent.button tl c b) :
    proxProj l = [] := by
  induction l with
  | nil => rfl
  | cons e l ih =>
    obtain ⟨c, b, rfl⟩ := h e (by simp)
    exact ih (fun ev hev => h ev (by simp [hev]))

/-- buttonsRun over a mapped release list erases the codes in order. -/
lemma buttonsRun_releases (tl : ToolRef) (l : List Nat) : ∀ R : Finset Nat,
    buttonsRun R (l.map (fun c => TabletEvent.button tl c false))
      = some (l.foldl Finset.erase R) := by
  induction l with
  | nil => intro R; rfl
  | cons c l ih => intro R; simp [buttonsRun, ih]

/-- buttonsRun over a mapped press list inserts the codes in order. -/
lemma buttonsRun_presses (tl : ToolRef) (l : List Nat) : ∀ R : Finset Nat,
    buttonsRun R (l.map (fun c => TabletEvent.button tl c true))
      = some (l.foldl (fun P c => insert c P) R) := by
  induction l with
  | nil => intro R; rfl
  | cons c l ih => intro R; simp [buttonsRun, ih]

/-- Erasing a list of codes is subtracting the set of its elements. -/
lemma foldl_erase_eq (l : List Nat) : ∀ R : Finset Nat,
    l.foldl Finset.erase R = R \ l.toFinset := by
  induction l with
  | nil => intro R; simp
  | cons c l ih =>
    intro R
    rw [List.foldl_cons, ih, List.toFinset_cons]
    ext x
    simp only [Finset.mem_sdiff, Finset.mem_erase, Finset.mem_insert]
    tauto

/-- Inserting a list of codes is adding the set of its elements. -/
lemma foldl_insert_eq (l : List Nat) : ∀ R : Finset Nat,
    l.foldl (fun P c => insert c P) R = R ∪ l.toFinset := by
  induction l with
  | nil => intro R; simp
  | cons c l ih =>
    intro R
    rw [List.foldl_cons, ih, List.toFinset_cons]
    ext x
    simp only [Finset.mem_union, Finset.mem_insert]
    tauto

/-- An event that carries no tool transition leaves the proximity flags
and the current tool type alone. -/
lemma tablet_process_event_no_tool (dev : TabletDevice) (s : TabletState)
    (e : TabletRawEvent) (h : tabletToolEvent e = Option.none) :
    (tablet_process_event dev s e).status.out_of_proximity
        = s.status.out_of_proximity
    ∧ (tablet_process_event dev s e).status.entering_proximity
        = s.status.entering_proximity
    ∧ (tablet_process_event dev s e).status.leaving_proximity
        = s.status.leaving_proximity
    ∧ (tablet_process_event dev s e).current_tool_type
        = s.current_tool_type := by
  cases e with
  | key code v =>
    simp only [tabletToolEvent] at h
    split_ifs at h with hic
    simp only [tablet_process_event, tablet_process_key]
    rw [if_neg hic]
    split_ifs <;>
      (simp only [tablet_update_button]; split_ifs <;> simp)
  | abs axis value =>
    simp only [tablet_process_event, tablet_process_absolute]
    split_ifs <;> simp
  | absMisc v => exact ⟨rfl, rfl, rfl, rfl⟩
  | rel v => exact ⟨rfl, rfl, rfl, rfl⟩
  | mscSerial v =>
    simp only [tablet_process_event, tablet_process_misc]
    split_ifs <;> simp

/-- A frame without tool transitions leaves the proximity flags and the
current tool type alone. -/
lemma tablet_frame_fold_no_tool (dev : TabletDevice)
    (f : List TabletRawEvent) : ∀ s : TabletState,
    f.filterMap tabletToolEvent = [] →
    ((f.foldl (tablet_process_event dev) s).status.out_of_proximity
        = s.status.out_of_proximity
    ∧ (f.foldl (tablet_process_event dev) s).status.entering_proximity
        = s.status.entering_proximity
    ∧ (f.foldl (tablet_process_event dev) s).status.leaving_proximity
        = s.status.leaving_proximity
    ∧ (f.foldl (tablet_process_event dev) s).current_tool_type
        = s.current_tool_type) := by
  induction f with
  | nil => intro s _; exact ⟨rfl, rfl, rfl, rfl⟩
  | cons e f ih =>
    intro s hfm
    rcases he : tabletToolEvent e with _ | p
    · simp only [List.filterMap_cons, he] at hfm
      have h1 := tablet_process_event_no_tool dev s e he
      have h2 := ih (tablet_process_event dev s e) hfm
      simp only [List.foldl_cons]
      exact ⟨h2.1.trans h1.1, h2.2.1.trans h1.2.1, h2.2.2.1.trans h1.2.2.1,
        h2.2.2.2.trans h1.2.2.2⟩
    · simp only [List.filterMap_cons, he] at hfm
      exact absurd hfm (by simp)

/-- Only MSC_SERIAL events touch the stored tool serial, exactly as
frameSerialFold records. -/
lemma tablet_process_event_serial (dev : TabletDevice) (s : TabletState)
    (e : TabletRawEvent) :
    (tablet_process_event dev s e).current_tool_serial =
      match e with
      | TabletRawEvent.mscSerial v =>
          if v ≠ -1 then v else s.current_tool_serial
      | _ => s.current_tool_serial := by
  cases e <;>
    simp only [tablet_process_event, tablet_process_absolute,
      tablet_process_relative, tablet_process_misc, tablet_process_key,
      tablet_update_tool, tablet_mark_all_axes_changed,
      tablet_update_button] <;>
    (try split_ifs) <;> simp

/-- The stored serial after one frame is frameSerialFold of the frame. -/
lemma tablet_frame_fold_serial (dev : TabletDevice)
    (f : List TabletRawEvent) : ∀ s : TabletState,
    (f.foldl (tablet_process_event dev) s).current_tool_serial
      = frameSerialFold s.current_tool_serial f := by
  induction f with
  | nil => intro s; rfl
  | cons e f ih =>
    intro s
    rw [List.foldl_cons, ih (tablet_process_event dev s e),
      tablet_process_event_serial dev s e]
    cases e <;> rfl

/-- When every MSC_SERIAL of the frame repeats ser or is -1, the folded
serial is unchanged. -/
lemma frameSerialFold_const (f : List TabletRawEvent) : ∀ ser : Int,
    (f.all (fun e =>
      match e with
      | TabletRawEvent.mscSerial v => v = -1 ∨ v = ser
      | _ => true)) = true →
    frameSerialFold ser f = ser := by
  induction f with
  | nil => intro ser _; rfl
  | cons e f ih =>
    intro ser hall
    rw [List.all_cons, Bool.and_eq_true] at hall
    cases e with
    | mscSerial v =>
      have hv : v = -1 ∨ v = ser := by simpa using hall.1
      simp only [frameSerialFold]
      by_cases hv1 : v = -1
      · rw [if_neg (by simp [hv1])]
        exact ih ser hall.2
      · rw [if_pos hv1, hv.resolve_left hv1]
        exact ih ser hall.2
    | abs axis value => exact ih ser hall.2
    | absMisc v => exact ih ser hall.2
    | rel v => exact ih ser hall.2
    | key code v => exact ih ser hall.2

/-- A frame passing wfFrame passes the serial discipline. -/
lemma wfFrame_serOk_of (ks : KernelToolState) (f : List TabletRawEvent)
    (h : (wfFrame ks f).1 = true) : wfSerOk ks f = true := by
  simp only [wfFrame] at h
  rcases hfm : f.filterMap tabletToolEvent with _ | ⟨⟨t, b⟩, _ | ⟨q, rest⟩⟩
  · simp only [hfm] at h
    exact h
  · cases b <;> simp only [hfm] at h <;> rw [Bool.and_eq_true] at h <;>
      exact h.1
  · simp only [hfm] at h
    exact absurd h (by simp)

/-- Kernel view after a frame without tool transitions. -/
lemma wfFrame_snd_no_tool (ks : KernelToolState) (f : List TabletRawEvent)
    (h : f.filterMap tabletToolEvent = []) :
    (wfFrame ks f).2 = { ks with serial := frameSerialFold ks.serial f } := by
  simp only [wfFrame, h]

/-- A passing frame whose transition is a tool press: no tool was down,
and the kernel view records the new tool. -/
lemma wfFrame_enable (ks : KernelToolState) (f : List TabletRawEvent)
    (t : ToolType) (h : f.filterMap tabletToolEvent = [(t, true)])
    (h1 : (wfFrame ks f).1 = true) :
    ks.toolDown = Option.none
    ∧ (wfFrame ks f).2 = ⟨some t, frameSerialFold ks.serial f⟩ := by
  constructor
  · simp only [wfFrame, h] at h1
    rw [Bool.and_eq_true] at h1
    simpa using h1.2
  · simp only [wfFrame, h]

/-- A passing frame whose transition is a tool release: that tool was
down, and the kernel view clears it. -/
lemma wfFrame_disable (ks : KernelToolState) (f : List TabletRawEvent)
    (t : ToolType) (h : f.filterMap tabletToolEvent = [(t, false)])
    (h1 : (wfFrame ks f).1 = true) :
    ks.toolDown = some t
    ∧ (wfFrame ks f).2 = ⟨Option.none, frameSerialFold ks.serial f⟩ := by
  constructor
  · simp only [wfFrame, h] at h1
    rw [Bool.and_eq_true] at h1
    simpa using h1.2
  · simp only [wfFrame, h]

/-- While a tool is down, a passing frame cannot change the serial. -/
lemma wfFrame_serial_const (ks : KernelToolState) (f : List TabletRawEvent)
    (t : ToolType) (htool : ks.toolDown = some t)
    (h1 : (wfFrame ks f).1 = true) :
    frameSerialFold ks.serial f = ks.serial := by
  have hs := wfFrame_serOk_of ks f h1
  simp only [wfSerOk, htool] at hs
  exact frameSerialFold_const f ks.serial hs

/-- Event processing only ever adds changed-axis bits. -/
lemma tablet_process_event_changed_mono (dev : TabletDevice)
    (s : TabletState) (e : TabletRawEvent) (a : TabletAxis)
    (h : a ∈ s.changed_axes) :
    a ∈ (tablet_process_event dev s e).changed_axes := by
  cases e <;>
    simp only [tablet_process_event, tablet_process_absolute,
      tablet_process_relative, tablet_process_misc, tablet_process_key,
      tablet_update_tool, tablet_mark_all_axes_changed,
      tablet_update_button] <;>
    (try split_ifs) <;> simp [h]

/-- Fold version of tablet_process_event_changed_mono. -/
lemma tablet_frame_fold_changed_mono (dev : TabletDevice)
    (f : List TabletRawEvent) : ∀ (s : TabletState) (a : TabletAxis),
    a ∈ s.changed_axes →
    a ∈ (f.foldl (tablet_process_event dev) s).changed_axes := by
  induction f with
  | nil => intro s a h; exact h
  | cons e f ih =>
    intro s a h
    simp only [List.foldl_cons]
    exact ih _ a (tablet_process_event_changed_mono dev s e a h)

/-- Button-flag discipline of one event: a clear pressed flag afterwards
means no button was inserted, a clear released flag means none erased. -/
lemma tablet_process_event_flags (dev : TabletDevice) (s : TabletState)
    (e : TabletRawEvent) :
    ((tablet_process_event dev s e).status.buttons_pressed = false →
      s.status.buttons_pressed = false ∧
      (tablet_process_event dev s e).button_state ⊆ s.button_state)
    ∧ ((tablet_process_event dev s e).status.buttons_released = false →
      s.status.buttons_released = false ∧
      s.button_state ⊆ (tablet_process_event dev s e).button_state) := by
  cases e <;>
    simp only [tablet_process_event, tablet_process_absolute,
      tablet_process_relative, tablet_process_misc, tablet_process_key,
      tablet_update_tool, tablet_mark_all_axes_changed,
      tablet_update_button] <;>
    (try split_ifs) <;>
    simp [Finset.subset_insert, Finset.erase_subset]

/-- Fold version of tablet_process_event_flags. -/
lemma tablet_frame_fold_flags (dev : TabletDevice)
    (f : List TabletRawEvent) : ∀ s : TabletState,
    ((f.foldl (tablet_process_event dev) s).status.buttons_pressed = false →
      s.status.buttons_pressed = false ∧
      (f.foldl (tablet_process_event dev) s).button_state ⊆ s.button_state)
    ∧ ((f.foldl (tablet_process_event dev) s).status.buttons_released = false →
      s.status.buttons_released = false ∧
      s.button_state ⊆ (f.foldl (tablet_process_event dev) s).button_state) := by
  induction f with
  | nil => intro s; exact ⟨fun h => ⟨h, Finset.Subset.refl _⟩,
      fun h => ⟨h, Finset.Subset.refl _⟩⟩
  | cons e f ih =>
    intro s
    have h1 := tablet_process_event_flags dev s e
    have h2 := ih (tablet_process_event dev s e)
    simp only [List.foldl_cons]
    constructor
    · intro h
      obtain ⟨hf2, hs2⟩ := h2.1 h
      obtain ⟨hf1, hs1⟩ := h1.1 hf2
      exact ⟨hf1, hs2.trans hs1⟩
    · intro h
      obtain ⟨hf2, hs2⟩ := h2.2 h
      obtain ⟨hf1, hs1⟩ := h1.2 hf2
      exact ⟨hf1, hs1.trans hs2⟩

/-- A frame whose only tool transition is a press of t, starting with the
leaving flag clear: the fold ends in proximity, entering, still not
leaving, with t current and (if the device has X) the X bit set. -/
lemma tablet_frame_fold_enable (dev : TabletDevice)
    (f : List TabletRawEvent) : ∀ (s : TabletState) (t : ToolType),
    f.filterMap tabletToolEvent = [(t, true)] →
    s.status.leaving_proximity = false →
    ((f.foldl (tablet_process_event dev) s).status.out_of_proximity = false
    ∧ (f.foldl (tablet_process_event dev) s).status.entering_proximity = true
    ∧ (f.foldl (tablet_process_event dev) s).status.leaving_proximity = false
    ∧ (f.foldl (tablet_process_event dev) s).current_tool_type = t
    ∧ (dev.hasAbsAxis TabletAxis.X = true →
        TabletAxis.X ∈ (f.foldl (tablet_process_event dev) s).changed_axes)) := by
  induction f with
  | nil => intro s t h _; exact absurd h (by simp)
  | cons e f ih =>
    intro s t hfm hleave
    rcases he : tabletToolEvent e with _ | ⟨t', b⟩
    · simp only [List.filterMap_cons, he] at hfm
      have h1 := tablet_process_event_no_tool dev s e he
      simp only [List.foldl_cons]
      exact ih (tablet_process_event dev s e) t hfm
        (h1.2.2.1.trans hleave)
    · simp only [List.filterMap_cons, he, List.cons.injEq, Prod.mk.injEq]
        at hfm
      obtain ⟨⟨ht, hb⟩, hrest⟩ := hfm
      subst ht
      subst hb
      cases e with
      | key code v =>
        simp only [tabletToolEvent] at he
        split_ifs at he with hic
        simp only [Option.some.injEq, Prod.mk.injEq] at he
        obtain ⟨hcode, hval⟩ := he
        simp only [List.foldl_cons, tablet_process_event,
          tablet_process_key]
        rw [if_pos hic]
        simp only [tablet_update_tool, hval, if_true]
        have hnt := tablet_frame_fold_no_tool dev f
          { tablet_mark_all_axes_changed dev
              { s with current_tool_type := tablet_evcode_to_tool code } with
            status := { (tablet_mark_all_axes_changed dev
              { s with current_tool_type := tablet_evcode_to_tool code }).status with
              entering_proximity := true,
              out_of_proximity := false } } hrest
        refine ⟨hnt.1.trans rfl, hnt.2.1.trans rfl, ?_, ?_, ?_⟩
        · rw [hnt.2.2.1]
          show s.status.leaving_proximity = false
          exact hleave
        · rw [hnt.2.2.2]
          exact hcode
        · intro hdev
          apply tablet_frame_fold_changed_mono
          show TabletAxis.X ∈
            (tablet_mark_all_axes_changed dev
              { s with current_tool_type := tablet_evcode_to_tool code }).changed_axes
          simp only [tablet_mark_all_axes_changed, Finset.mem_union,
            List.mem_toFinset, List.mem_filter]
          right
          exact ⟨by decide, by simp [tablet_device_has_axis, hdev]⟩
      | abs axis value => exact absurd he (by simp [tabletToolEvent])
      | absMisc w => exact absurd he (by simp [tabletToolEvent])
      | rel w => exact absurd he (by simp [tabletToolEvent])
      | mscSerial w => exact absurd he (by simp [tabletToolEvent])

/-- A frame whose only tool transition is a release, starting in
proximity: the fold stays formally in proximity but with the leaving flag
set; entering flag and current tool are untouched. -/
lemma tablet_frame_fold_disable (dev : TabletDevice)
    (f : List TabletRawEvent) : ∀ (s : TabletState) (t : ToolType),
    f.filterMap tabletToolEvent = [(t, false)] →
    s.status.out_of_proximity = false →
    ((f.foldl (tablet_process_event dev) s).status.out_of_proximity = false
    ∧ (f.foldl (tablet_process_event dev) s).status.leaving_proximity = true
    ∧ (f.foldl (tablet_process_event dev) s).status.entering_proximity
        = s.status.entering_proximity
    ∧ (f.foldl (tablet_process_event dev) s).current_tool_type
        = s.current_tool_type) := by
  induction f with
  | nil => intro s t h _; exact absurd h (by simp)
  | cons e f ih =>
    intro s t hfm hout
    rcases he : tabletToolEvent e with _ | ⟨t', b⟩
    · simp only [List.filterMap_cons, he] at hfm
      have h1 := tablet_process_event_no_tool dev s e he
      simp only [List.foldl_cons]
      have := ih (tablet_process_event dev s e) t hfm
        (h1.1.trans hout)
      exact ⟨this.1, this.2.1, this.2.2.1.trans h1.2.1,
        this.2.2.2.trans h1.2.2.2⟩
    · simp only [List.filterMap_cons, he, List.cons.injEq, Prod.mk.injEq]
        at hfm
      obtain ⟨⟨ht, hb⟩, hrest⟩ := hfm
      subst ht
      subst hb
      cases e with
      | key code v =>
        simp only [tabletToolEvent] at he
        split_ifs at he with hic
        simp only [Option.some.injEq, Prod.mk.injEq] at he
        obtain ⟨hcode, hval⟩ := he
        simp only [List.foldl_cons, tablet_process_event,
          tablet_process_key]
        rw [if_pos hic]
        simp only [tablet_update_tool, hval, Bool.false_eq_true,
          if_false]
        rw [if_pos (by simp [hout])]
        have hnt := tablet_frame_fold_no_tool dev f
          { s with status := { s.status with leaving_proximity := true } }
          hrest
        exact ⟨hnt.1.trans hout, hnt.2.2.1.trans rfl,
          hnt.2.1.trans rfl, hnt.2.2.2.trans rfl⟩
      | abs axis value => exact absurd he (by simp [tabletToolEvent])
      | absMisc w => exact absurd he (by simp [tabletToolEvent])
      | rel w => exact absurd he (by simp [tabletToolEvent])
      | mscSerial w => exact absurd he (by simp [tabletToolEvent])

/-- sanitize never clears the X bit. -/
lemma sanitize_X_mem (dev : TabletDevice) (s : TabletState)
    (h : TabletAxis.X ∈ s.changed_axes) :
    TabletAxis.X ∈ (sanitize_tablet_axes dev s).changed_axes := by
  rw [sanitize_tablet_axes_eq,
    (sanitize_rot_facts (sanitize_inner dev s)).2.2 TabletAxis.X (by decide)]
  simp only [sanitize_inner, absInfo]
  split_ifs <;> simp [h]

/-- More components of the axes block under a clear leaving flag: the
entering flag comes out clear, and buttons with their flags pass
through. -/
lemma tablet_flush_axes_more (atan2deg : ℚ → ℚ → ℚ) (dev : TabletDevice)
    (s : TabletState) (tool : ToolRef)
    (hleave : s.status.leaving_proximity = false) :
    (tablet_flush_axes atan2deg dev s tool).1.status.entering_proximity = false
    ∧ (tablet_flush_axes atan2deg dev s tool).1.button_state = s.button_state
    ∧ (tablet_flush_axes atan2deg dev s tool).1.status.buttons_pressed
        = s.status.buttons_pressed
    ∧ (tablet_flush_axes atan2deg dev s tool).1.status.buttons_released
        = s.status.buttons_released := by
  have hpresS := sanitize_tablet_axes_preserves dev s
  have hpresC := tablet_check_notify_axes_preserves atan2deg dev
    (sanitize_tablet_axes dev s) tool
  simp only [tablet_flush_axes]
  generalize hr : tablet_check_notify_axes atan2deg dev
    (sanitize_tablet_axes dev s) tool = r
  rw [hr] at hpresC
  split_ifs with h1 h2
  · rw [hleave] at h1
    exact Bool.noConfusion h1
  · refine ⟨rfl, ?_, ?_, ?_⟩
    · show r.1.button_state = s.button_state
      rw [hpresC.2.1, hpresS.2.1]
    · show r.1.status.buttons_pressed = s.status.buttons_pressed
      rw [hpresC.1, hpresS.1]
    · show r.1.status.buttons_released = s.status.buttons_released
      rw [hpresC.1, hpresS.1]
  · refine ⟨?_, rfl, rfl, rfl⟩
    have h3 := not_or.mp h2
    simpa using h3.2

/-- Leaving branch of the axes block: drop all buttons and raise the
released flag, no events. -/
lemma tablet_flush_axes_of_leaving (atan2deg : ℚ → ℚ → ℚ)
    (dev : TabletDevice) (s : TabletState) (tool : ToolRef)
    (h : s.status.leaving_proximity = true) :
    tablet_flush_axes atan2deg dev s tool =
      ({ s with button_state := ∅,
                status := { s.status with buttons_released := true } },
       []) := by
  simp [tablet_flush_axes, h]

/-- When the axes block runs its sanitize/check branch, its events are
those of check_notify on the sanitized state. -/
lemma tablet_flush_axes_events_eq (atan2deg : ℚ → ℚ → ℚ)
    (dev : TabletDevice) (s : TabletState) (tool : ToolRef)
    (hleave : s.status.leaving_proximity = false)
    (hcond : s.status.axes_updated = true ∨
      s.status.entering_proximity = true) :
    (tablet_flush_axes atan2deg dev s tool).2
      = (tablet_check_notify_axes atan2deg dev (sanitize_tablet_axes dev s)
          tool).2 := by
  simp only [tablet_flush_axes]
  generalize tablet_check_notify_axes atan2deg dev
    (sanitize_tablet_axes dev s) tool = r
  split_ifs with h1
  · rw [hleave] at h1
    exact Bool.noConfusion h1
  · rfl

/-- When nothing was updated and no tool is entering, the axes block is
silent. -/
lemma tablet_flush_axes_events_nil (atan2deg : ℚ → ℚ → ℚ)
    (dev : TabletDevice) (s : TabletState) (tool : ToolRef)
    (hcond : ¬(s.status.axes_updated = true ∨
      s.status.entering_proximity = true)) :
    (tablet_flush_axes atan2deg dev s tool).2 = [] := by
  simp only [tablet_flush_axes]
  generalize tablet_check_notify_axes atan2deg dev
    (sanitize_tablet_axes dev s) tool = r
  split_ifs with h1 <;> rfl

/-- Without an entering tool the axes block contributes no proximity
event. -/
lemma tablet_flush_axes_proxProj_nix (atan2deg : ℚ → ℚ → ℚ)
    (dev : TabletDevice) (s : TabletState) (tool : ToolRef)
    (hent : s.status.entering_proximity = false) :
    proxProj (tablet_flush_axes atan2deg dev s tool).2 = [] := by
  by_cases hlv : s.status.leaving_proximity = true
  · rw [tablet_flush_axes_of_leaving atan2deg dev s tool hlv]
    rfl
  · by_cases hcond : s.status.axes_updated = true ∨
      s.status.entering_proximity = true
    · rw [tablet_flush_axes_events_eq atan2deg dev s tool
        (by simpa using hlv) hcond]
      exact (tablet_check_notify_axes_events atan2deg dev
        (sanitize_tablet_axes dev s) tool).2.1
        (by rw [(sanitize_tablet_axes_preserves dev s).1]; exact hent)
    · rw [tablet_flush_axes_events_nil atan2deg dev s tool hcond]
      rfl

/-- With an entering tool, the X bit set and neither out nor leaving, the
axes block contributes exactly the proximity-in of the flushing tool. -/
lemma tablet_flush_axes_proxProj_enter (atan2deg : ℚ → ℚ → ℚ)
    (dev : TabletDevice) (s : TabletState) (tool : ToolRef)
    (hleave : s.status.leaving_proximity = false)
    (hout : s.status.out_of_proximity = false)
    (hent : s.status.entering_proximity = true)
    (hX : TabletAxis.X ∈ s.changed_axes) :
    proxProj (tablet_flush_axes atan2deg dev s tool).2 = [(true, tool)] := by
  rw [tablet_flush_axes_events_eq atan2deg dev s tool hleave (Or.inr hent)]
  exact tablet_check_notify_axes_entering atan2deg dev
    (sanitize_tablet_axes dev s) tool
    (sanitize_X_mem dev s hX)
    (by rw [(sanitize_tablet_axes_preserves dev s).1]; exact hent)
    (by rw [(sanitize_tablet_axes_preserves dev s).1]; exact hout)
    (by rw [(sanitize_tablet_axes_preserves dev s).1]; exact hleave)

/-- The axes block never touches the button residual. -/
lemma tablet_flush_axes_buttonsRun (atan2deg : ℚ → ℚ → ℚ)
    (dev : TabletDevice) (s : TabletState) (tool : ToolRef)
    (R : Finset Nat) :
    buttonsRun R (tablet_flush_axes atan2deg dev s tool).2 = some R := by
  by_cases hlv : s.status.leaving_proximity = true
  · rw [tablet_flush_axes_of_leaving atan2deg dev s tool hlv]
    rfl
  · by_cases hcond : s.status.axes_updated = true ∨
      s.status.entering_proximity = true
    · rw [tablet_flush_axes_events_eq atan2deg dev s tool
        (by simpa using hlv) hcond]
      exact (tablet_check_notify_axes_events atan2deg dev
        (sanitize_tablet_axes dev s) tool).1 R
    · rw [tablet_flush_axes_events_nil atan2deg dev s tool hcond]
      rfl

/-- Effect of the released block on the button residual. -/
lemma buttonsRun_released_block (t : TabletState) (tool : ToolRef)
    (R : Finset Nat) :
    buttonsRun R (tablet_flush_released t tool).2
      = some (if t.status.buttons_released = true
              then R \ (t.prev_button_state \ t.button_state) else R) := by
  simp only [tablet_flush_released]
  by_cases h : t.status.buttons_released = true
  · rw [if_pos h, if_pos h]
    show buttonsRun R ((tablet_released_list t).map
      (fun c => TabletEvent.button tool c false)) = _
    rw [buttonsRun_releases, foldl_erase_eq]
    simp only [tablet_released_list, Finset.sort_toFinset]
  · rw [if_neg h, if_neg h]
    rfl

/-- Effect of the pressed block on the button residual. -/
lemma buttonsRun_pressed_block (t : TabletState) (tool : ToolRef)
    (R : Finset Nat) :
    buttonsRun R (tablet_flush_pressed t tool).2
      = some (R ∪ (if t.status.buttons_pressed = true
                   then t.button_state \ t.prev_button_state else ∅)) := by
  simp only [tablet_flush_pressed]
  by_cases h : t.status.buttons_pressed = true
  · rw [if_pos h, if_pos h]
    show buttonsRun R ((tablet_pressed_list t).map
      (fun c => TabletEvent.button tool c true)) = _
    rw [buttonsRun_presses, foldl_insert_eq]
    simp only [tablet_pressed_list, Finset.sort_toFinset]
  · rw [if_neg h, if_neg h]
    simp [buttonsRun]

/-- Effect of both button blocks in source order. -/
lemma tablet_flush_buttons_blocks (t : TabletState) (tool : ToolRef)
    (R : Finset Nat) :
    buttonsRun R ((tablet_flush_released t tool).2 ++
        (tablet_flush_pressed (tablet_flush_released t tool).1 tool).2)
      = some ((if t.status.buttons_released = true
               then R \ (t.prev_button_state \ t.button_state) else R)
              ∪ (if t.status.buttons_pressed = true
                 then t.button_state \ t.prev_button_state else ∅)) := by
  have h2 := tablet_flush_released_preserves t tool
  rw [buttonsRun_append, buttonsRun_released_block, Option.some_bind,
    buttonsRun_pressed_block, h2.2.2.2.2.2.2.2.2.2.2.2, h2.2.2.1,
    h2.2.2.2.1]

/-- The closed-form residual of the button blocks is inside the current
button state, under the flag discipline. -/
lemma buttons_closed_subset (prev bs : Finset Nat) (pf rf : Bool)
    (R : Finset Nat) (hR : R ⊆ prev)
    (h1 : pf = false → bs ⊆ prev) (h2 : rf = false → prev ⊆ bs) :
    ((if rf = true then R \ (prev \ bs) else R)
      ∪ (if pf = true then bs \ prev else ∅)) ⊆ bs := by
  intro x hx
  rw [Finset.mem_union] at hx
  rcases hx with hx | hx
  · split_ifs at hx with hrf
    · rw [Finset.mem_sdiff] at hx
      by_contra hxb
      exact hx.2 (Finset.mem_sdiff.mpr ⟨hR hx.1, hxb⟩)
    · exact h2 (by simpa using hrf) (hR hx)
  · split_ifs at hx with hpf
    · exact (Finset.mem_sdiff.mp hx).1
    · simp at hx

/-- One in-proximity flush with no tool leaving: proximity, buttons and
tool identity summary.  The proximity projection of the emitted events is
empty unless the tool is entering, in which case it is exactly the
proximity-in of the flushing tool; the button residual stays inside the
button state under the flag discipline. -/
lemma tablet_flush_inprox_run (atan2deg : ℚ → ℚ → ℚ) (dev : TabletDevice)
    (s : TabletState)
    (hout : s.status.out_of_proximity = false)
    (hleave : s.status.leaving_proximity = false) :
    (tablet_flush atan2deg dev s).1.status.out_of_proximity = false
    ∧ (tablet_flush atan2deg dev s).1.status.entering_proximity = false
    ∧ (tablet_flush atan2deg dev s).1.status.leaving_proximity = false
    ∧ (tablet_flush atan2deg dev s).1.button_state = s.button_state
    ∧ (tablet_flush atan2deg dev s).1.current_tool_type = s.current_tool_type
    ∧ (tablet_flush atan2deg dev s).1.current_tool_serial
        = s.current_tool_serial
    ∧ (s.status.entering_proximity = false →
        proxProj (tablet_flush atan2deg dev s).2 = [])
    ∧ (s.status.entering_proximity = true → TabletAxis.X ∈ s.changed_axes →
        proxProj (tablet_flush atan2deg dev s).2
          = [(true, ⟨s.current_tool_type, s.current_tool_serial⟩)])
    ∧ ∀ R : Finset Nat, R ⊆ s.prev_button_state →
        (s.status.buttons_pressed = false →
          s.button_state ⊆ s.prev_button_state) →
        (s.status.buttons_released = false →
          s.prev_button_state ⊆ s.button_state) →
        ∃ R', buttonsRun R (tablet_flush atan2deg dev s).2 = some R'
          ∧ R' ⊆ s.button_state := by
  rw [tablet_flush_of_in atan2deg dev s hout]
  simp only [tablet_flush_body]
  set tool : ToolRef := ⟨s.current_tool_type, s.current_tool_serial⟩
    with htool
  have hA := tablet_flush_axes_preserves atan2deg dev s tool
  have hAm := tablet_flush_axes_more atan2deg dev s tool hleave
  set r1 := tablet_flush_axes atan2deg dev s tool with hr1
  have hR2 := tablet_flush_released_preserves r1.1 tool
  set r2 := tablet_flush_released r1.1 tool with hr2
  have hR3 := tablet_flush_pressed_preserves r2.1 tool
  set r3 := tablet_flush_pressed r2.1 tool with hr3
  have hlv3 : r3.1.status.leaving_proximity = false := by
    rw [hR3.2.2.2.2.2.2.2.2.2.1, hR2.2.2.2.2.2.2.2.2.2.1,
      hA.2.2.2.2.2.2, hleave]
  have hL1 : (tablet_flush_leave r3.1 tool).1 = r3.1 := by
    rw [tablet_flush_leave_of_not r3.1 tool hlv3]
  have hL2 : (tablet_flush_leave r3.1 tool).2 = [] := by
    rw [tablet_flush_leave_of_not r3.1 tool hlv3]
  have hpp2 : proxProj r2.2 = [] := by
    rw [hr2]
    exact proxProj_of_buttons tool _
      (tablet_flush_released_button_events r1.1 tool)
  have hpp3 : proxProj r3.2 = [] := by
    rw [hr3]
    exact proxProj_of_buttons tool _
      (tablet_flush_pressed_button_events r2.1 tool)
  refine ⟨?_, ?_, ?_, ?_, ?_, ?_, ?_, ?_, ?_⟩
  · rw [hL1, hR3.2.2.2.2.2.2.2.2.1, hR2.2.2.2.2.2.2.2.2.1,
      hA.2.2.2.2.2.1, hout]
  · rw [hL1, hR3.2.2.2.2.2.2.2.2.2.2, hR2.2.2.2.2.2.2.2.2.2.2.1, hAm.1]
  · rw [hL1]
    exact hlv3
  · rw [hL1, hR3.2.2.1, hR2.2.2.1, hAm.2.1]
  · rw [hL1, hR3.2.2.2.2.2.2.1, hR2.2.2.2.2.2.2.1, hA.2.2.2.1]
  · rw [hL1, hR3.2.2.2.2.2.2.2.1, hR2.2.2.2.2.2.2.2.1, hA.2.2.2.2.1]
  · intro hent
    have hpp1 : proxProj r1.2 = [] := by
      rw [hr1]
      exact tablet_flush_axes_proxProj_nix atan2deg dev s tool hent
    rw [hL2, List.append_nil, proxProj_append, proxProj_append,
      hpp1, hpp2, hpp3]
    rfl
  · intro hent hX
    have hpp1 : proxProj r1.2 = [(true, tool)] := by
      rw [hr1]
      exact tablet_flush_axes_proxProj_enter atan2deg dev s tool
        hleave hout hent hX
    rw [hL2, List.append_nil, proxProj_append, proxProj_append,
      hpp1, hpp2, hpp3]
    rfl
  · intro R hR h1 h2
    have hb1 : buttonsRun R r1.2 = some R := by
      rw [hr1]
      exact tablet_flush_axes_buttonsRun atan2deg dev s tool R
    rw [hL2, List.append_nil, List.append_assoc, buttonsRun_append, hb1,
      Option.some_bind, hr3, hr2, tablet_flush_buttons_blocks r1.1 tool R]
    refine ⟨_, rfl, ?_⟩
    rw [hAm.2.2.1, hAm.2.2.2, hAm.2.1, hA.2.2.1]
    exact buttons_closed_subset s.prev_button_state s.button_state
      s.status.buttons_pressed s.status.buttons_released R hR h1 h2

/-- One leaving flush: all buttons released before the proximity-out of
the flushing tool, then out of proximity with an empty button state. -/
lemma tablet_flush_leaving_run (atan2deg : ℚ → ℚ → ℚ) (dev : TabletDevice)
    (s : TabletState)
    (hout : s.status.out_of_proximity = false)
    (hleave : s.status.leaving_proximity = true) :
    (tablet_flush atan2deg dev s).1.status.out_of_proximity = true
    ∧ (tablet_flush atan2deg dev s).1.status.leaving_proximity = false
    ∧ (tablet_flush atan2deg dev s).1.status.entering_proximity
        = s.status.entering_proximity
    ∧ (tablet_flush atan2deg dev s).1.button_state = ∅
    ∧ (tablet_flush atan2deg dev s).1.current_tool_serial
        = s.current_tool_serial
    ∧ proxProj (tablet_flush atan2deg dev s).2
        = [(false, ⟨s.current_tool_type, s.current_tool_serial⟩)]
    ∧ ∀ R : Finset Nat, R ⊆ s.prev_button_state →
        buttonsRun R (tablet_flush atan2deg dev s).2 = some ∅ := by
  rw [tablet_flush_of_in atan2deg dev s hout]
  simp only [tablet_flush_body]
  set tool : ToolRef := ⟨s.current_tool_type, s.current_tool_serial⟩
    with htool
  have hA := tablet_flush_axes_of_leaving atan2deg dev s tool hleave
  set r1 := tablet_flush_axes atan2deg dev s tool with hr1
  have hA1 : r1.1 = { s with
      button_state := ∅,
      status := { s.status with buttons_released := true } } := by
    rw [hA]
  have hA2 : r1.2 = [] := by rw [hA]
  have hR2 := tablet_flush_released_preserves r1.1 tool
  set r2 := tablet_flush_released r1.1 tool with hr2
  have hR3 := tablet_flush_pressed_preserves r2.1 tool
  set r3 := tablet_flush_pressed r2.1 tool with hr3
  have hb1 : r1.1.button_state = ∅ := by rw [hA1]
  have hprev1 : r1.1.prev_button_state = s.prev_button_state := by rw [hA1]
  have hrel1 : r1.1.status.buttons_released = true := by rw [hA1]
  have hlv1 : r1.1.status.leaving_proximity = s.status.leaving_proximity := by
    rw [hA1]
  have hent1 : r1.1.status.entering_proximity
      = s.status.entering_proximity := by rw [hA1]
  have hctt1 : r1.1.current_tool_type = s.current_tool_type := by rw [hA1]
  have hcts1 : r1.1.current_tool_serial = s.current_tool_serial := by
    rw [hA1]
  have hlv3 : r3.1.status.leaving_proximity = true := by
    rw [hR3.2.2.2.2.2.2.2.2.2.1, hR2.2.2.2.2.2.2.2.2.2.1, hlv1, hleave]
  have hb3 : r3.1.button_state = ∅ := by
    rw [hR3.2.2.1, hR2.2.2.1, hb1]
  have hent3 : r3.1.status.entering_proximity
      = s.status.entering_proximity := by
    rw [hR3.2.2.2.2.2.2.2.2.2.2, hR2.2.2.2.2.2.2.2.2.2.2.1, hent1]
  have hcts3 : r3.1.current_tool_serial = s.current_tool_serial := by
    rw [hR3.2.2.2.2.2.2.2.1, hR2.2.2.2.2.2.2.2.1, hcts1]
  have hL := tablet_flush_leave_of_leaving r3.1 tool hlv3
  have hL1 : (tablet_flush_leave r3.1 tool).1
      = tablet_change_to_left_handed
          { r3.1 with changed_axes := ∅,
                      status := { r3.1.status with
                                  out_of_proximity := true,
                                  leaving_proximity := false } } := by
    rw [hL]
  have hL2 : (tablet_flush_leave r3.1 tool).2
      = [TabletEvent.proximityOut tool ∅ r3.1.axes] := by
    rw [hL]
  have hCH := tablet_change_to_left_handed_preserves
    { r3.1 with changed_axes := ∅,
                status := { r3.1.status with
                            out_of_proximity := true,
                            leaving_proximity := false } }
  have hpp2 : proxProj r2.2 = [] := by
    rw [hr2]
    exact proxProj_of_buttons tool _
      (tablet_flush_released_button_events r1.1 tool)
  have hpp3 : proxProj r3.2 = [] := by
    rw [hr3]
    exact proxProj_of_buttons tool _
      (tablet_flush_pressed_button_events r2.1 tool)
  refine ⟨?_, ?_, ?_, ?_, ?_, ?_, ?_⟩
  · rw [hL1, hCH.1]
  · rw [hL1, hCH.1]
  · rw [hL1, hCH.1]
    exact hent3
  · rw [hL1, hCH.2.2.2.1]
    exact hb3
  · rw [hL1, hCH.2.2.2.2.2.2.1]
    exact hcts3
  · rw [hL2, hA2, proxProj_append, proxProj_append, proxProj_append,
      hpp2, hpp3]
    rfl
  · intro R hR
    rw [hL2, hA2, List.nil_append, buttonsRun_append, hr3, hr2,
      tablet_flush_buttons_blocks r1.1 tool R]
    have hzero : ((if r1.1.status.buttons_released = true
        then R \ (r1.1.prev_button_state \ r1.1.button_state) else R)
        ∪ (if r1.1.status.buttons_pressed = true
           then r1.1.button_state \ r1.1.prev_button_state else ∅)) = ∅ := by
      rw [hrel1, if_pos rfl, hb1, hprev1]
      simp [Finset.sdiff_empty, Finset.empty_sdiff,
        Finset.sdiff_eq_empty_iff_subset.mpr hR]
    rw [hzero, Option.some_bind]
    simp [buttonsRun]

/-- One well-formed frame preserves the coupling invariant; its emitted
events advance the proximity runner from the open tool before the frame
to the open tool after it, and advance any button residual inside the
button state to one inside the new button state (empty whenever the
dispatcher is out of proximity). -/
lemma tablet_frame_step (atan2deg : ℚ → ℚ → ℚ) (dev : TabletDevice)
    (ks : KernelToolState) (s : TabletState) (f : List TabletRawEvent)
    (hdev : dev.hasAbsAxis TabletAxis.X = true)
    (hwf : (wfFrame ks f).1 = true)
    (hinv : MInv ks s) :
    MInv (wfFrame ks f).2 (tablet_process_frame atan2deg dev s f).1
    ∧ proxRun (openToolOf s)
        (proxProj (tablet_process_frame atan2deg dev s f).2)
        = some (openToolOf (tablet_process_frame atan2deg dev s f).1)
    ∧ ∀ R : Finset Nat, R ⊆ s.button_state →
        (s.status.out_of_proximity = true → R = ∅) →
        ∃ R', buttonsRun R (tablet_process_frame atan2deg dev s f).2
            = some R'
          ∧ R' ⊆ (tablet_process_frame atan2deg dev s f).1.button_state
          ∧ ((tablet_process_frame atan2deg dev s f).1.status.out_of_proximity
              = true → R' = ∅) := by
  obtain ⟨hiv1, hiv2, hiv3, hiv4, hiv5⟩ := hinv
  simp only [tablet_process_frame, tablet_reset_state]
  set s1 := f.foldl (tablet_process_event dev) s with hs1
  set fl := tablet_flush atan2deg dev s1 with hfl
  have hser : s1.current_tool_serial = frameSerialFold s.current_tool_serial f := by
    rw [hs1]
    exact tablet_frame_fold_serial dev f s
  have hprev1 : s1.prev_button_state = s.prev_button_state := by
    rw [hs1]
    exact (tablet_process_events_preserves dev f s).2.2.1
  rcases hfm : f.filterMap tabletToolEvent with _ | ⟨⟨t, b⟩, _ | ⟨q, rest⟩⟩
  · -- no tool transition
    have hks := wfFrame_snd_no_tool ks f hfm
    have hksd : (wfFrame ks f).2.toolDown = ks.toolDown := by rw [hks]
    have hkss : (wfFrame ks f).2.serial = frameSerialFold ks.serial f := by
      rw [hks]
    have hnt := tablet_frame_fold_no_tool dev f s hfm
    rw [← hs1] at hnt
    by_cases hout : s.status.out_of_proximity = true
    · -- out of proximity, stays out
      have hout1 : s1.status.out_of_proximity = true := hnt.1.trans hout
      have hkd : ks.toolDown = Option.none := hiv1.mp hout
      have hfo := tablet_flush_of_out atan2deg dev s1 hout1
      rw [← hfl] at hfo
      have hfo1 : fl.1 = s1 := by rw [hfo]
      have hfo2 : fl.2 = [] := by rw [hfo]
      refine ⟨⟨?_, ?_, ?_, rfl, ?_⟩, ?_, ?_⟩
      · show fl.1.status.out_of_proximity = true ↔ _
        rw [hfo1, hout1, hksd, hkd]
        simp
      · show fl.1.status.entering_proximity = false
        rw [hfo1, hnt.2.1, hiv2]
      · show fl.1.status.leaving_proximity = false
        rw [hfo1, hnt.2.2.1, hiv3]
      · show fl.1.current_tool_serial = _
        rw [hfo1, hser, hkss, hiv5]
      · rw [hfo2]
        show proxRun (openToolOf s) [] = some (openToolOf _)
        have ho1 : openToolOf s = Option.none := by simp [openToolOf, hout]
        have ho2 : openToolOf ({ fl.1 with
            prev_button_state := fl.1.button_state } : TabletState)
            = Option.none := by
          simp [openToolOf, hfo1, hout1]
        rw [ho1, ho2]
        rfl
      · intro R hR hRout
        refine ⟨R, ?_, ?_, fun _ => hRout hout⟩
        · rw [hfo2]
          rfl
        · rw [hRout hout]
          exact Finset.empty_subset _
    · -- in proximity, no transition
      have hout' : s.status.out_of_proximity = false := by simpa using hout
      obtain ⟨t0, htd⟩ : ∃ t0, ks.toolDown = some t0 := by
        cases htd : ks.toolDown with
        | none => exact absurd (hiv1.mpr htd) (by simp [hout'])
        | some t0 => exact ⟨t0, rfl⟩
      have hserC := wfFrame_serial_const ks f t0 htd hwf
      have hcts1 : s1.current_tool_serial = s.current_tool_serial := by
        rw [hser, hiv5, hserC]
      have hout1 : s1.status.out_of_proximity = false :=
        hnt.1.trans hout'
      have hent1 : s1.status.entering_proximity = false :=
        hnt.2.1.trans hiv2
      have hlv1 : s1.status.leaving_proximity = false :=
        hnt.2.2.1.trans hiv3
      have hctt1 : s1.current_tool_type = s.current_tool_type := hnt.2.2.2
      have hFR := tablet_flush_inprox_run atan2deg dev s1 hout1 hlv1
      rw [← hfl] at hFR
      refine ⟨⟨?_, ?_, ?_, rfl, ?_⟩, ?_, ?_⟩
      · show fl.1.status.out_of_proximity = true ↔ _
        rw [hFR.1, hksd, htd]
        simp
      · exact hFR.2.1
      · exact hFR.2.2.1
      · show fl.1.current_tool_serial = _
        rw [hFR.2.2.2.2.2.1, hser, hiv5, hkss]
      · rw [hFR.2.2.2.2.2.2.1 hent1]
        have ho1 : openToolOf s
            = some ⟨s.current_tool_type, s.current_tool_serial⟩ := by
          simp [openToolOf, hout']
        have ho2 : openToolOf ({ fl.1 with
            prev_button_state := fl.1.button_state } : TabletState)
            = some ⟨s.current_tool_type, s.current_tool_serial⟩ := by
          simp [openToolOf, hFR.1, hFR.2.2.2.2.1, hFR.2.2.2.2.2.1,
            hctt1, hcts1]
        rw [ho1, ho2]
        rfl
      · intro R hR hRout
        have hflags := tablet_frame_fold_flags dev f s
        rw [← hs1] at hflags
        obtain ⟨R', hrun, hsub⟩ := hFR.2.2.2.2.2.2.2.2 R
          (by rw [hprev1, hiv4]; exact hR)
          (fun hp => by
            rw [hprev1, hiv4]
            exact (hflags.1 hp).2)
          (fun hp => by
            rw [hprev1, hiv4]
            exact (hflags.2 hp).2)
        refine ⟨R', hrun, ?_, ?_⟩
        · show R' ⊆ fl.1.button_state
          rw [hFR.2.2.2.1]
          exact hsub
        · intro hpo
          exfalso
          have hpo2 : fl.1.status.out_of_proximity = true := hpo
          rw [hFR.1] at hpo2
          exact Bool.noConfusion hpo2
  · -- exactly one tool transition
    cases b with
    | true =>
      have hw := wfFrame_enable ks f t hfm hwf
      have hout : s.status.out_of_proximity = true := hiv1.mpr hw.1
      have hen := tablet_frame_fold_enable dev f s t hfm hiv3
      rw [← hs1] at hen
      have hFR := tablet_flush_inprox_run atan2deg dev s1 hen.1 hen.2.2.1
      rw [← hfl] at hFR
      have hksd : (wfFrame ks f).2.toolDown = some t := by rw [hw.2]
      have hkss : (wfFrame ks f).2.serial = frameSerialFold ks.serial f := by
        rw [hw.2]
      refine ⟨⟨?_, ?_, ?_, rfl, ?_⟩, ?_, ?_⟩
      · show fl.1.status.out_of_proximity = true ↔ _
        rw [hFR.1, hksd]
        simp
      · exact hFR.2.1
      · exact hFR.2.2.1
      · show fl.1.current_tool_serial = _
        rw [hFR.2.2.2.2.2.1, hser, hiv5, hkss]
      · rw [hFR.2.2.2.2.2.2.2.1 hen.2.1 (hen.2.2.2.2 hdev)]
        have ho1 : openToolOf s = Option.none := by simp [openToolOf, hout]
        have ho2 : openToolOf ({ fl.1 with
            prev_button_state := fl.1.button_state } : TabletState)
            = some ⟨s1.current_tool_type, s1.current_tool_serial⟩ := by
          simp [openToolOf, hFR.1, hFR.2.2.2.2.1, hFR.2.2.2.2.2.1]
        rw [ho1, ho2]
        rfl
      · intro R hR hRout
        have hflags := tablet_frame_fold_flags dev f s
        rw [← hs1] at hflags
        obtain ⟨R', hrun, hsub⟩ := hFR.2.2.2.2.2.2.2.2 R
          (by rw [hprev1, hiv4]; exact hR)
          (fun hp => by
            rw [hprev1, hiv4]
            exact (hflags.1 hp).2)
          (fun hp => by
            rw [hprev1, hiv4]
            exact (hflags.2 hp).2)
        refine ⟨R', hrun, ?_, ?_⟩
        · show R' ⊆ fl.1.button_state
          rw [hFR.2.2.2.1]
          exact hsub
        · intro hpo
          exfalso
          have hpo2 : fl.1.status.out_of_proximity = true := hpo
          rw [hFR.1] at hpo2
          exact Bool.noConfusion hpo2
    | false =>
      have hw := wfFrame_disable ks f t hfm hwf
      have hout : s.status.out_of_proximity = false := by
        by_cases hso : s.status.out_of_proximity = true
        · exact absurd (hw.1.symm.trans (hiv1.mp hso)) (by simp)
        · simpa using hso
      have hdi := tablet_frame_fold_disable dev f s t hfm hout
      rw [← hs1] at hdi
      have hserC := wfFrame_serial_const ks f t hw.1 hwf
      have hcts1 : s1.current_tool_serial = s.current_tool_serial := by
        rw [hser, hiv5, hserC]
      have hFR := tablet_flush_leaving_run atan2deg dev s1 hdi.1 hdi.2.1
      rw [← hfl] at hFR
      have hksd : (wfFrame ks f).2.toolDown = Option.none := by rw [hw.2]
      have hkss : (wfFrame ks f).2.serial = frameSerialFold ks.serial f := by
        rw [hw.2]
      refine ⟨⟨?_, ?_, ?_, rfl, ?_⟩, ?_, ?_⟩
      · show fl.1.status.out_of_proximity = true ↔ _
        rw [hFR.1, hksd]
        simp
      · show fl.1.status.entering_proximity = false
        rw [hFR.2.2.1, hdi.2.2.1, hiv2]
      · exact hFR.2.1
      · show fl.1.current_tool_serial = _
        rw [hFR.2.2.2.2.1, hser, hiv5, hkss]
      · rw [hFR.2.2.2.2.2.1]
        have ho1 : openToolOf s
            = some ⟨s.current_tool_type, s.current_tool_serial⟩ := by
          simp [openToolOf, hout]
        have ho2 : openToolOf ({ fl.1 with
            prev_button_state := fl.1.button_state } : TabletState)
            = Option.none := by
          simp [openToolOf, hFR.1]
        rw [ho1, ho2, hdi.2.2.2, hcts1]
        simp [proxRun]
      · intro R hR hRout
        refine ⟨∅, ?_, Finset.empty_subset _, fun _ => rfl⟩
        exact hFR.2.2.2.2.2.2 R (by rw [hprev1, hiv4]; exact hR)
  · -- more than one tool transition: the frame is not well-formed
    exfalso
    simp only [wfFrame, hfm] at hwf
    exact Bool.noConfusion hwf

/-- Induction over well-formed frames: from any state coupled to the
kernel view, the whole emitted trace leaves both runners alive. -/
lemma tablet_frames_closure (atan2deg : ℚ → ℚ → ℚ) (dev : TabletDevice)
    (hdev : dev.hasAbsAxis TabletAxis.X = true)
    (frames : List (List TabletRawEvent)) :
    ∀ (ks : KernelToolState) (s : TabletState) (R : Finset Nat),
    wfFrames ks frames = true → MInv ks s →
    R ⊆ s.button_state → (s.status.out_of_proximity = true → R = ∅) →
    ∃ o2 R2,
      proxRun (openToolOf s)
        (proxProj (tablet_process_frames atan2deg dev s frames).2) = some o2
      ∧ buttonsRun R (tablet_process_frames atan2deg dev s frames).2
          = some R2 := by
  induction frames with
  | nil =>
    intro ks s R _ _ _ _
    refine ⟨openToolOf s, R, ?_, ?_⟩
    · simp [tablet_process_frames, proxProj, proxRun]
    · simp [tablet_process_frames, buttonsRun]
  | cons f rest ih =>
    intro ks s R hwf hinv hR hRout
    simp only [wfFrames, Bool.and_eq_true] at hwf
    obtain ⟨hwf1, hwfr⟩ := hwf
    obtain ⟨hinv', hprox, hbtn⟩ :=
      tablet_frame_step atan2deg dev ks s f hdev hwf1 hinv
    obtain ⟨R', hrun, hsub, hRout'⟩ := hbtn R hR hRout
    obtain ⟨o2, R2, ho2, hR2⟩ := ih (wfFrame ks f).2
      (tablet_process_frame atan2deg dev s f).1 R' hwfr hinv' hsub hRout'
    simp only [tablet_process_frames]
    refine ⟨o2, R2, ?_, ?_⟩
    · rw [proxProj_append, proxRun_append, hprox, Option.some_bind, ho2]
    · rw [buttonsRun_append, hrun, Option.some_bind, hR2]

/-- C1 (amended).  Tablet proximity closure for well-formed kernel
streams: starting from tablet_init, processing any frame sequence that
respects the evdev tool protocol (at most one BTN_TOOL transition per
frame, presses only while no tool is down, releases only of the tool
that is down, no serial change while a tool is in proximity) on a device
with the ABS_X axis, the emitted trace satisfies the proximity closure:
every proximity-in is followed by exactly one proximity-out of the same
tool before any other proximity event, and at each proximity-out every
stylus button reported pressed has its release already emitted (the
leaving flush emits the forced releases before the proximity-out).  The
claim as written, without the protocol hypothesis, is false: two tool
presses in a row emit two proximity-ins with no proximity-out between
them (tablet_proximity_closure_counterexample). -/
theorem tablet_proximity_closure (atan2deg : ℚ → ℚ → ℚ)
    (dev : TabletDevice) (abs0 : TabletAxis → Int)
    (frames : List (List TabletRawEvent))
    (hdev : dev.hasAbsAxis TabletAxis.X = true)
    (hwf : wfFrames ⟨Option.none, 0⟩ frames = true) :
    tabletProxClosure
      (tablet_process_frames atan2deg dev (tablet_init dev abs0)
        frames).2 := by
  have hinv : MInv ⟨Option.none, 0⟩ (tablet_init dev abs0) :=
    ⟨⟨fun _ => rfl, fun _ => rfl⟩, rfl, rfl, rfl, rfl⟩
  obtain ⟨o2, R2, h1, h2⟩ := tablet_frames_closure atan2deg dev hdev frames
    ⟨Option.none, 0⟩ (tablet_init dev abs0) ∅ hwf hinv
    (Finset.empty_subset _) (fun _ => rfl)
  have ho : openToolOf (tablet_init dev abs0) = Option.none := rfl
  rw [ho] at h1
  constructor
  · rw [h1]
    rfl
  · rw [h2]
    rfl

/-- Witness for C1: a pen enters and leaves proximity; the protocol
holds and the emitted trace passes the closure. -/
theorem tablet_proximity_closure_witness :
    tabletProxClosure (tablet_process_frames atan2degZero tabletDevX
      (tablet_init tabletDevX (fun _ => 0))
      [[TabletRawEvent.key BTN_TOOL_PEN 1],
       [TabletRawEvent.key BTN_TOOL_PEN 0]]).2 :=
  tablet_proximity_closure atan2degZero tabletDevX (fun _ => 0)
    [[TabletRawEvent.key BTN_TOOL_PEN 1],
     [TabletRawEvent.key BTN_TOOL_PEN 0]]
    (by decide) (by decide)

/-- Counterexample to the written C1: a mouse reports down while the pen
never released.  The stream violates the kernel protocol, and the
dispatcher emits a second proximity-in with no proximity-out between, so
the closure fails. -/
theorem tablet_proximity_closure_counterexample :
    wfFrames ⟨Option.none, 0⟩ tabletFramesX = false
    ∧ ¬ tabletProxClosure (tablet_process_frames atan2degZero tabletDevX
        (tablet_init tabletDevX (fun _ => 0)) tabletFramesX).2 := by
  constructor
  · decide
  · intro h
    exact absurd h.1 (by decide)
